import Mathlib

/-!
# ParkSphere booking engine

A shallow embedding of the booking engine of `ARSENAL_PARKSPHERE`:

* `backend/src/models/parkingModel.js`   (`findById`, `decrementSlot`, `incrementSlot`)
* `backend/src/models/bookingModel.js`   (`create`, `findOverlapping`, `countActiveAtTime`,
  `cancelBooking`, `findById`, `findByUserId`)
* `backend/src/services/bookingService.js` (`createBooking`, `cancelBooking`,
  `getBookingById`, `getUserBookings`)
* `backend/src/utils/errorHandler.js`    (the status a thrown value is answered with)
* `mobile/screens/NavigationScreen.js`   (`decodePolyline`)

The two tables are lists of rows.  An SQL `UPDATE ... WHERE` rewrites every row that
matches, `RETURNING *` lists the rewritten rows in table order and `rows[0] || null`
is the head of that list.  A transaction is a computation on a working copy of the
store: `COMMIT` returns the working copy, `ROLLBACK` returns the store as it was at
`BEGIN`.  Calls are sequential (one request at a time).

Numbers: slot counts are SQL integers (`Int`).  The numbers of JavaScript are IEEE 754
doubles and are modelled as such (`JsNum`): every finite double is a whole multiple of
`2^-1074` and is held as that whole number, and every operation of the source on doubles
(`Number(text)`, `*`, `+`, `-`, `/`, `Math.round`, the comparisons) gives the double
nearest to the exact result, ties to the even mantissa.  The sign of zero is not kept:
the source never divides by a computed number, so `-0` and `0` behave alike.
-/

set_option exponentiation.threshold 4096

namespace ParkSphere

/-! ## JavaScript numbers -/

/-- A JavaScript number: `NaN`, an infinity, or a finite double.  A finite double is a
whole multiple of `2^-1074` (the smallest positive double) and is held as that whole
number, its `units`; so `1` is `fin (2^1074)`.  Negative zero is held as zero. -/
inductive JsNum where
  | nan
  | inf (negative : Bool)
  | fin (units : Int)
deriving DecidableEq

/-- The quotient `n / d` rounded to the nearest whole number, a tie to the even one. -/
def roundHalfEven (n d : Nat) : Nat :=
  if 2 * (n % d) < d then n / d
  else if d < 2 * (n % d) then n / d + 1
  else if n / d % 2 = 0 then n / d else n / d + 1

/-- The distance between neighbouring doubles at `q` units: `1` below `2^53` units, and
twice as much with every further bit of `q` (a double has 53 significant bits).  The
bits are counted off in steps of 192, of 16 and of 1; the first argument bounds the
number of steps (`q` itself is enough). -/
def spacing : Nat → Nat → Nat
  | 0, _ => 1
  | fuel + 1, q =>
    if 2 ^ 245 ≤ q then 2 ^ 192 * spacing fuel (q / 2 ^ 192)
    else if 2 ^ 69 ≤ q then 2 ^ 16 * spacing fuel (q / 2 ^ 16)
    else if 2 ^ 53 ≤ q then 2 * spacing fuel (q / 2)
    else 1

/-- The magnitude, in units, of the double nearest to `a / den` units (round to nearest,
ties to even), before the test for overflow. -/
def nearestUnits (a den : Nat) : Nat :=
  roundHalfEven a (den * spacing (a / den) (a / den)) * spacing (a / den) (a / den)

/-- The JavaScript number nearest to the rational `num / den` units (`den > 0`): a
result of magnitude `2^1024` or more is an infinity. -/
def JsNum.ofUnits (num : Int) (den : Nat) : JsNum :=
  if 2 ^ 2098 ≤ nearestUnits num.natAbs den then .inf (decide (num < 0))
  else .fin (if num < 0 then -(nearestUnits num.natAbs den : Int)
             else nearestUnits num.natAbs den)

/-- The JavaScript number of a whole number (the number literals of the source). -/
def JsNum.ofInt (n : Int) : JsNum :=
  .ofUnits (n * (2 ^ 1074 : Nat)) 1

/-- The JavaScript number nearest to the fraction `n / d` (`d > 0`): what reading the
decimal text of `n / 100` gives, and what dividing the whole number `n` by `d` gives. -/
def JsNum.ofFrac (n : Int) (d : Nat) : JsNum :=
  .ofUnits (n * (2 ^ 1074 : Nat)) d

/-- Unary minus. -/
def JsNum.neg : JsNum → JsNum
  | .nan => .nan
  | .inf s => .inf (!s)
  | .fin a => .fin (-a)

/-- JavaScript `x + y`. -/
def JsNum.add : JsNum → JsNum → JsNum
  | .fin a, .fin b => .ofUnits (a + b) 1
  | .inf s, .inf t => if s = t then .inf s else .nan
  | .inf s, .fin _ => .inf s
  | .fin _, .inf t => .inf t
  | _, _ => .nan

/-- JavaScript `x - y`. -/
def JsNum.sub (x y : JsNum) : JsNum :=
  x.add y.neg

/-- JavaScript `x * y`. -/
def JsNum.mul : JsNum → JsNum → JsNum
  | .fin a, .fin b => .ofUnits (a * b) (2 ^ 1074)
  | .inf s, .inf t => .inf (s != t)
  | .inf s, .fin b => if b = 0 then .nan else .inf (s != decide (b < 0))
  | .fin a, .inf t => if a = 0 then .nan else .inf (t != decide (a < 0))
  | _, _ => .nan

/-- JavaScript `x / y` (the source divides by the literals `60` and `100` only; a zero
divisor is taken as positive zero). -/
def JsNum.div : JsNum → JsNum → JsNum
  | .fin a, .fin b =>
    if b = 0 then (if a = 0 then .nan else .inf (decide (a < 0)))
    else .ofUnits (if b < 0 then -(a * (2 ^ 1074 : Nat)) else a * (2 ^ 1074 : Nat)) b.natAbs
  | .inf s, .fin b => .inf (s != decide (b < 0))
  | .fin _, .inf _ => .fin 0
  | _, _ => .nan

/-- JavaScript `x <= y`: false as soon as one side is `NaN`. -/
def JsNum.le : JsNum → JsNum → Bool
  | .fin a, .fin b => decide (a ≤ b)
  | .inf s, .inf t => s || !t
  | .inf s, .fin _ => s
  | .fin _, .inf t => !t
  | _, _ => false

/-- JavaScript `x < y`: false as soon as one side is `NaN`. -/
def JsNum.lt : JsNum → JsNum → Bool
  | .fin a, .fin b => decide (a < b)
  | .inf s, .inf t => s && !t
  | .inf s, .fin _ => s
  | .fin _, .inf t => !t
  | _, _ => false

/-- JavaScript `Math.round(x)`: the whole number nearest to `x`, a tie to the larger
one, that is `floor(x + 1/2)` computed exactly (the result is always a double). -/
def JsNum.round : JsNum → JsNum
  | .fin a => .fin ((a + (2 ^ 1073 : Nat)) / (2 ^ 1074 : Nat) * (2 ^ 1074 : Nat))
  | x => x

/-- Truthiness of a number: zero and `NaN` are falsy. -/
def JsNum.truthy : JsNum → Bool
  | .fin a => decide (a ≠ 0)
  | .inf _ => true
  | .nan => false

/-! ## Rows and store -/

/-- A row of `parking_lots`.  The display columns (name, address, latitude, longitude)
take no part in any decision and are left out.  `price_per_hour` is in hundredths. -/
structure Lot where
  id : String
  total_slots : Int
  available_slots : Int
  price_per_hour : Int
deriving DecidableEq

/-- Modelled from the spec: the declaration of the table `bookings` (`models/schema.sql`)
is not among the sources; the columns are those of the `INSERT` in `bookingModel.create`,
typed as the spec describes them (a calendar date, wall-clock times, a status text).
`date` is the day number of the calendar date (days since 1970-01-01), `start_time` and
`end_time` are seconds since midnight, `duration_hours` and `total_cost` are the numbers
that the `INSERT` is given (what the column types keep of their digits is not modelled),
`created_at` and `cancelled_at` are instants in milliseconds since the epoch. -/
structure Booking where
  id : String
  parking_id : String
  user_id : String
  vehicle_number : Option String
  date : Int
  start_time : Nat
  end_time : Nat
  duration_hours : JsNum
  total_cost : JsNum
  status : String
  created_at : Int
  cancelled_at : Option Int
deriving DecidableEq

/-- The contents of the database: the two tables. -/
structure Store where
  lots : List Lot
  bookings : List Booking
deriving DecidableEq

/-- What surrounds one call: the clock, the zone of the server, the identifier that
`uuidv4()` hands out, the reading of a date text by `new Date(text)` (milliseconds
since the epoch, `none` for an invalid date), and the store's side.

The table declarations (`models/schema.sql`) are not among the sources and are taken
as parameters: `dbDate` and `dbTime` convert the text of a statement parameter to the
column type (`none`: the statement is refused and the client throws), and `insertOk`
says whether the `INSERT` of this call is accepted by the table (keys, checks). -/
structure Env where
  now : Int
  tzOffset : Int
  uuid : String
  jsDate : String → Option Int
  dbDate : String → Option Int
  dbTime : String → Option Nat
  insertOk : Bool

deriving instance DecidableEq for Except

/-- A value thrown by the service: either an object `{ status, message }` built by the
service itself, or an error raised by the database client (it has no `status`). -/
inductive Thrown where
  | http (status : Nat) (message : String)
  | db
deriving DecidableEq

/-- The status `errorHandler.js` answers with: `err.status || 500`. -/
def Thrown.status : Thrown → Nat
  | .http st _ => if st = 0 then 500 else st
  | .db => 500

/-! ## JavaScript helpers -/

/-- The UTF-16 code units of a character. -/
def utf16 (c : Char) : List Nat :=
  let n := c.val.toNat
  if n < 65536 then [n] else [55296 + (n - 65536) / 1024, 56320 + (n - 65536) % 1024]

/-- Lexicographic `<` on sequences of code units. -/
def unitsLt : List Nat → List Nat → Bool
  | [], [] => false
  | [], _ :: _ => true
  | _ :: _, [] => false
  | a :: as, b :: bs => if a < b then true else if b < a then false else unitsLt as bs

/-- JavaScript `a < b` on two strings. -/
def jsStrLt (a b : String) : Bool :=
  unitsLt (a.data.flatMap utf16) (b.data.flatMap utf16)

/-- JavaScript `a >= b` on two strings. -/
def jsStrGe (a b : String) : Bool := !jsStrLt a b

/-- Truthiness of a request field that is either absent or a string: `!x` holds for
an absent field and for the empty string. -/
def truthy : Option String → Bool
  | some v => decide (v ≠ "")
  | none => false

/-- The pieces of `text.split(':')`: never empty. -/
def splitColon : List Char → List (List Char)
  | [] => [[]]
  | c :: cs =>
    if c = ':' then [] :: splitColon cs
    else
      match splitColon cs with
      | [] => [[c]]
      | p :: ps => (c :: p) :: ps

/-- The value of a run of decimal digits read left to right, `none` when a character
is not a digit. -/
def digitsValue : List Char → Nat → Option Nat
  | [], acc => some acc
  | c :: cs, acc =>
    if c.isDigit then digitsValue cs (acc * 10 + (c.toNat - 48)) else none

/-- The characters that `Number(text)` strips from both ends of the text: the white
space and the line terminators of JavaScript. -/
def isStrWhiteSpace (c : Char) : Bool :=
  let n := c.toNat
  n = 9 || n = 10 || n = 11 || n = 12 || n = 13 || n = 32 || n = 160 || n = 5760 ||
    (8192 ≤ n && n ≤ 8202) || n = 8232 || n = 8233 || n = 8239 || n = 8287 || n = 12288 ||
    n = 65279

/-- The text without its leading white space. -/
def dropSpaces : List Char → List Char
  | [] => []
  | c :: cs => if isStrWhiteSpace c then dropSpaces cs else c :: cs

/-- The text without its leading and trailing white space. -/
def trimSpaces (cs : List Char) : List Char :=
  (dropSpaces (dropSpaces cs).reverse).reverse

/-- The longest run of decimal digits at the head of the text, and what follows it. -/
def takeDigits : List Char → List Char × List Char
  | [] => ([], [])
  | c :: cs =>
    if c.isDigit then ((c :: (takeDigits cs).1), (takeDigits cs).2) else ([], c :: cs)

/-- The value of the digits of an exponent; an exponent needs at least one digit. -/
def exponentDigits (ds : List Char) : Option Nat :=
  if ds = [] then none else digitsValue ds 0

/-- The exponent that ends a decimal literal: nothing (exponent 0), or `e` or `E`, an
optional sign, and digits; `none` when the text is neither. -/
def exponentPart : List Char → Option Int
  | [] => some 0
  | c :: cs =>
    if c = 'e' ∨ c = 'E' then
      match cs with
      | '+' :: ds => (exponentDigits ds).map (fun n => (n : Int))
      | '-' :: ds => (exponentDigits ds).map (fun n => -(n : Int))
      | ds => (exponentDigits ds).map (fun n => (n : Int))
    else none

/-- An unsigned decimal literal (`12`, `12.`, `12.5`, `.5`, each with an optional
exponent) as a pair `(d, e)` that stands for `d * 10^e`; `none` when the text is not
such a literal. -/
def unsignedDecimal (cs : List Char) : Option (Nat × Int) :=
  match (takeDigits cs).2 with
  | '.' :: r =>
    if (takeDigits cs).1 = [] ∧ (takeDigits r).1 = [] then none
    else
      match exponentPart (takeDigits r).2,
          digitsValue ((takeDigits cs).1 ++ (takeDigits r).1) 0 with
      | some e, some d => some (d, e - ((takeDigits r).1.length : Int))
      | _, _ => none
  | r1 =>
    if (takeDigits cs).1 = [] then none
    else
      match exponentPart r1, digitsValue (takeDigits cs).1 0 with
      | some e, some d => some (d, e)
      | _, _ => none

/-- The double nearest to `d * 10^e`. -/
def JsNum.ofDecimal (d : Nat) (e : Int) : JsNum :=
  match e with
  | .ofNat k => JsNum.ofUnits ((d * 10 ^ k * 2 ^ 1074 : Nat) : Int) 1
  | .negSucc k => JsNum.ofUnits ((d * 2 ^ 1074 : Nat) : Int) (10 ^ (k + 1))

/-- The value of a literal without sign: `Infinity`, a decimal literal, or `NaN`. -/
def unsignedLiteral (cs : List Char) : JsNum :=
  if cs = "Infinity".data then .inf false
  else
    match unsignedDecimal cs with
    | some (d, e) => JsNum.ofDecimal d e
    | none => .nan

/-- The value of a run of digits in the given radix (at most 16), `none` when a
character is not a digit of the radix. -/
def radixValue (radix : Nat) : List Char → Nat → Option Nat
  | [], acc => some acc
  | c :: cs, acc =>
    if c.isDigit ∧ c.toNat - 48 < radix then radixValue radix cs (acc * radix + (c.toNat - 48))
    else if 97 ≤ c.toNat ∧ c.toNat ≤ 102 ∧ radix = 16 then
      radixValue radix cs (acc * radix + (c.toNat - 87))
    else if 65 ≤ c.toNat ∧ c.toNat ≤ 70 ∧ radix = 16 then
      radixValue radix cs (acc * radix + (c.toNat - 55))
    else none

/-- A whole number written with a radix prefix: `0x` or `0X` (hexadecimal), `0o` or
`0O` (octal), `0b` or `0B` (binary), followed by at least one digit. -/
def nonDecimalLiteral : List Char → Option Nat
  | '0' :: x :: ds =>
    if ds = [] then none
    else if x = 'x' ∨ x = 'X' then radixValue 16 ds 0
    else if x = 'o' ∨ x = 'O' then radixValue 8 ds 0
    else if x = 'b' ∨ x = 'B' then radixValue 2 ds 0
    else none
  | _ => none

/-- JavaScript `Number(piece)` on a text: white space is stripped from both ends; the
empty text is `0`; a whole number with a radix prefix, or a decimal literal with an
optional sign, is the double nearest to its value; `Infinity` with an optional sign is
an infinity; anything else is `NaN`.  (Where a decimal literal has more than twenty
significant digits the language lets an engine round in two steps; the double nearest
to the exact value, which is what V8 gives, is taken.) -/
def jsNumber (piece : List Char) : JsNum :=
  match trimSpaces piece with
  | [] => .fin 0
  | '+' :: cs => unsignedLiteral cs
  | '-' :: cs => (unsignedLiteral cs).neg
  | cs =>
    match nonDecimalLiteral cs with
    | some n => JsNum.ofUnits ((n * 2 ^ 1074 : Nat) : Int) 1
    | none => unsignedLiteral cs

/-- The source's `const [h, m] = text.split(':').map(Number)`: a missing second piece
is `undefined`, which is `NaN` in the arithmetic that follows. -/
def hourMinute (text : String) : JsNum × JsNum :=
  match splitColon text.data with
  | [] => (.nan, .nan)
  | [h] => (jsNumber h, .nan)
  | h :: m :: _ => (jsNumber h, jsNumber m)

/-- The source's `durationHours = ((eh * 60 + em) - (sh * 60 + sm)) / 60`. -/
def durationHours (startTime endTime : String) : JsNum :=
  ((((hourMinute endTime).1.mul (.ofInt 60)).add (hourMinute endTime).2).sub
    (((hourMinute startTime).1.mul (.ofInt 60)).add (hourMinute startTime).2)).div (.ofInt 60)

/-- The instant of `today.setHours(0, 0, 0, 0)`: midnight, on the clock of the server,
of the day that contains `now`. -/
def localMidnight (env : Env) : Int :=
  (env.now + env.tzOffset * 60000) / 86400000 * 86400000 - env.tzOffset * 60000

/-- A comparison `a < b` of a date that may be invalid with an instant: every
comparison with `NaN` is false. -/
def dateLt (a : Option Int) (b : Int) : Bool :=
  match a with
  | some t => decide (t < b)
  | none => false

/-! ## parkingModel.js -/

/-- The source's `parkingModel.findById`: `SELECT * FROM parking_lots WHERE id = $1`,
then `rows[0] || null`. -/
def parkingModel.findById (lots : List Lot) (id : String) : Option Lot :=
  lots.find? (fun l => decide (l.id = id))

/-- The `WHERE` clause of `decrementSlot`: `id = $1 AND available_slots > 0`. -/
def decrementWhere (id : String) (l : Lot) : Bool :=
  decide (l.id = id) && decide (l.available_slots > 0)

/-- The `SET` clause of `decrementSlot`: `available_slots = available_slots - 1`. -/
def decrementSet (l : Lot) : Lot :=
  { l with available_slots := l.available_slots - 1 }

/-- The source's `parkingModel.decrementSlot`: the conditional `UPDATE`; the result is
`rows[0] || null` together with the table after the statement. -/
def parkingModel.decrementSlot (lots : List Lot) (id : String) : Option Lot × List Lot :=
  (((lots.filter (decrementWhere id)).map decrementSet).head?,
   lots.map (fun l => if decrementWhere id l then decrementSet l else l))

/-- The `WHERE` clause of `incrementSlot`: `id = $1 AND available_slots < total_slots`. -/
def incrementWhere (id : String) (l : Lot) : Bool :=
  decide (l.id = id) && decide (l.available_slots < l.total_slots)

/-- The `SET` clause of `incrementSlot`: `available_slots = available_slots + 1`. -/
def incrementSet (l : Lot) : Lot :=
  { l with available_slots := l.available_slots + 1 }

/-- The source's `parkingModel.incrementSlot`: the conditional `UPDATE`; the result is
`rows[0] || null` together with the table after the statement. -/
def parkingModel.incrementSlot (lots : List Lot) (id : String) : Option Lot × List Lot :=
  (((lots.filter (incrementWhere id)).map incrementSet).head?,
   lots.map (fun l => if incrementWhere id l then incrementSet l else l))

/-! ## bookingModel.js -/

/-- The object handed to `bookingModel.create`. -/
structure BookingData where
  id : String
  parkingId : String
  userId : String
  vehicleNumber : Option String
  date : Int
  startTime : Nat
  endTime : Nat
  durationHours : JsNum
  totalCost : JsNum

/-- The source's `bookingModel.create`: the `INSERT ... VALUES (..., 'confirmed')
RETURNING *`.  The row is appended to the table; `none` when the table refuses the
row (the client throws).  `vehicleNumber || null` turns an empty text into `null`;
`created_at` is filled by the store with the current instant. -/
def bookingModel.create (env : Env) (bookings : List Booking) (d : BookingData) :
    Option (Booking × List Booking) :=
  if env.insertOk then
    let row : Booking :=
      { id := d.id, parking_id := d.parkingId, user_id := d.userId,
        vehicle_number := if truthy d.vehicleNumber then d.vehicleNumber else none,
        date := d.date, start_time := d.startTime, end_time := d.endTime,
        duration_hours := d.durationHours, total_cost := d.totalCost,
        status := "confirmed", created_at := env.now, cancelled_at := none }
    some (row, bookings ++ [row])
  else none

/-- The time part of the `WHERE` clause of `findOverlapping`, as its comment puts it:
`existing.start < new.end AND existing.end > new.start`. -/
def intervalsOverlap (existingStart existingEnd newStart newEnd : Nat) : Bool :=
  decide (existingStart < newEnd) && decide (existingEnd > newStart)

/-- The `WHERE` clause of `findOverlapping`:
`parking_id = $1 AND date = $2 AND status = 'confirmed' AND start_time < $4 AND end_time > $3`. -/
def overlapWhere (parkingId : String) (date : Int) (startTime endTime : Nat) (b : Booking) : Bool :=
  decide (b.parking_id = parkingId) && decide (b.date = date) &&
    decide (b.status = "confirmed") && intervalsOverlap b.start_time b.end_time startTime endTime

/-- The source's `bookingModel.findOverlapping`: `SELECT COUNT(*)` over the rows that
satisfy the `WHERE` clause.  The date and the times are the statement parameters as the
store compares them, that is after conversion to the column types. -/
def bookingModel.findOverlapping (bookings : List Booking) (parkingId : String) (date : Int)
    (startTime endTime : Nat) : Nat :=
  (bookings.filter (overlapWhere parkingId date startTime endTime)).length

/-- The `WHERE` clause of `countActiveAtTime`:
`parking_id = $1 AND date = $2 AND status = 'confirmed' AND start_time <= $3 AND end_time > $3`. -/
def activeWhere (parkingId : String) (date : Int) (time : Nat) (b : Booking) : Bool :=
  decide (b.parking_id = parkingId) && decide (b.date = date) &&
    decide (b.status = "confirmed") && decide (b.start_time ≤ time) &&
    decide (b.end_time > time)

/-- The source's `bookingModel.countActiveAtTime`: `SELECT COUNT(*)` over the confirmed
bookings of a lot and date that are under way at the given time. -/
def bookingModel.countActiveAtTime (bookings : List Booking) (parkingId : String) (date : Int)
    (time : Nat) : Nat :=
  (bookings.filter (activeWhere parkingId date time)).length

/-- The `WHERE` clause of `bookingModel.cancelBooking`: `id = $1 AND status = 'confirmed'`. -/
def cancelWhere (bookingId : String) (b : Booking) : Bool :=
  decide (b.id = bookingId) && decide (b.status = "confirmed")

/-- The `SET` clause of `bookingModel.cancelBooking`:
`status = 'cancelled', cancelled_at = NOW()`. -/
def cancelSet (now : Int) (b : Booking) : Booking :=
  { b with status := "cancelled", cancelled_at := some now }

/-- The source's `bookingModel.cancelBooking`: the conditional `UPDATE`; the result is
`rows[0] || null` together with the table after the statement. -/
def bookingModel.cancelBooking (now : Int) (bookings : List Booking) (bookingId : String) :
    Option Booking × List Booking :=
  (((bookings.filter (cancelWhere bookingId)).map (cancelSet now)).head?,
   bookings.map (fun b => if cancelWhere bookingId b then cancelSet now b else b))

/-- The source's `bookingModel.findById`: the booking rows with the given id joined
with `parking_lots` on `b.parking_id = p.id`, then `rows[0] || null`.  A booking row
whose lot is missing does not survive the join.  Of the joined lot only display
columns are read afterwards, so the booking row alone is returned. -/
def bookingModel.findById (s : Store) (id : String) : Option Booking :=
  s.bookings.find? (fun b => decide (b.id = id) && s.lots.any (fun p => decide (p.id = b.parking_id)))

/-! ## bookingService.js -/

/-- The body of `POST /api/booking`: each field is absent or a text. -/
structure BookingRequest where
  parkingId : Option String
  userId : Option String
  vehicleNumber : Option String
  date : Option String
  startTime : Option String
  endTime : Option String

/-- The object `createBooking` returns (the display fields of the lot left out). -/
structure CreatedBooking where
  id : String
  parkingId : String
  userId : String
  vehicleNumber : Option String
  date : Int
  startTime : Nat
  endTime : Nat
  durationHours : JsNum
  totalCost : JsNum
  pricePerHour : Int
  status : String
  createdAt : Int
  availableSlots : Int
  totalSlots : Int
deriving DecidableEq

/-- The object `cancelBooking` returns (the display fields of the lot left out). -/
structure CancelledBooking where
  id : String
  parkingId : String
  userId : String
  vehicleNumber : Option String
  date : Int
  startTime : Nat
  endTime : Nat
  durationHours : JsNum
  totalCost : JsNum
  status : String
  cancelledAt : Option Int
  availableSlots : Option Int
  totalSlots : Option Int
  refundNote : String
deriving DecidableEq

/-- The source's `parseFloat(lot.price_per_hour) || 20`: the store hands the price over
as a decimal text with two places, `parseFloat` gives the double nearest to it, and a
price of zero is falsy and replaced by 20. -/
def pricePerHour (lot : Lot) : JsNum :=
  if (JsNum.ofFrac lot.price_per_hour 100).truthy
  then JsNum.ofFrac lot.price_per_hour 100
  else JsNum.ofInt 20

/-- The source's `Math.round(pricePerHour * durationHours * 100) / 100`. -/
def totalCost (price duration : JsNum) : JsNum :=
  (((price.mul duration).mul (.ofInt 100)).round).div (.ofInt 100)

/-- The transaction of `createBooking` (from `BEGIN` to `COMMIT`), on the working copy
`s`: the overlap count, the conditional decrement and the insert.  An error is what the
`try` block throws; the caller rolls back. -/
def createTransaction (env : Env) (s : Store) (lot : Lot) (parkingId userId : String)
    (vehicleNumber : Option String) (date startTime endTime : String)
    (duration : JsNum) (cost : JsNum) : Except Thrown (CreatedBooking × Store) :=
  match env.dbDate date, env.dbTime startTime, env.dbTime endTime with
  | some d, some st, some et =>
    let overlapCount := bookingModel.findOverlapping s.bookings parkingId d st et
    if (overlapCount : Int) ≥ lot.total_slots then
      .error (.http 409 ("No slots available for this time period. All " ++
        toString lot.total_slots ++ " slots are booked between " ++ startTime ++ " and " ++
        endTime ++ "."))
    else
      match parkingModel.decrementSlot s.lots parkingId with
      | (none, _) =>
        .error (.http 409 "No parking slots available. Someone may have just booked the last one.")
      | (some updated, lots1) =>
        match bookingModel.create env s.bookings
            { id := env.uuid, parkingId := parkingId, userId := userId,
              vehicleNumber := if truthy vehicleNumber then vehicleNumber else none,
              date := d, startTime := st, endTime := et,
              durationHours := duration, totalCost := cost } with
        | none => .error .db
        | some (booking, bookings1) =>
          .ok ({ id := booking.id, parkingId := booking.parking_id, userId := booking.user_id,
                 vehicleNumber := booking.vehicle_number, date := booking.date,
                 startTime := booking.start_time, endTime := booking.end_time,
                 durationHours := booking.duration_hours, totalCost := booking.total_cost,
                 pricePerHour := lot.price_per_hour, status := booking.status,
                 createdAt := booking.created_at,
                 availableSlots := updated.available_slots,
                 totalSlots := updated.total_slots },
               { lots := lots1, bookings := bookings1 })
  | _, _, _ => .error .db

/-- The source's `bookingService.createBooking`: the checks in the order of the source,
then the transaction; whatever is thrown inside the transaction is rethrown after
`ROLLBACK`, which leaves the store as it was. -/
def bookingService.createBooking (env : Env) (s : Store) (req : BookingRequest) :
    Except Thrown CreatedBooking × Store :=
  if !(truthy req.parkingId && truthy req.userId && truthy req.date &&
        truthy req.startTime && truthy req.endTime) then
    (.error (.http 400 "All fields are required: parkingId, userId, date, startTime, endTime"), s)
  else
    let parkingId := req.parkingId.getD ""
    let userId := req.userId.getD ""
    let date := req.date.getD ""
    let startTime := req.startTime.getD ""
    let endTime := req.endTime.getD ""
    if dateLt (env.jsDate date) (localMidnight env) then
      (.error (.http 400 "Cannot book for a past date"), s)
    else if jsStrGe startTime endTime then
      (.error (.http 400 "Start time must be before end time"), s)
    else
      let duration := durationHours startTime endTime
      if duration.le (.fin 0) then
        (.error (.http 400 "End time must be after start time"), s)
      else if (JsNum.ofInt 12).lt duration then
        (.error (.http 400 "Maximum booking duration is 12 hours"), s)
      else
        match parkingModel.findById s.lots parkingId with
        | none => (.error (.http 404 "Parking lot not found"), s)
        | some lot =>
          if lot.available_slots ≤ 0 then
            (.error (.http 409 "This parking lot is currently full. No slots available."), s)
          else
            let cost := totalCost (pricePerHour lot) duration
            match createTransaction env s lot parkingId userId req.vehicleNumber
                date startTime endTime duration cost with
            | .ok (result, s1) => (.ok result, s1)
            | .error err => (.error err, s)

/-- The instant `bookingDateTime` of `cancelBooking`: the booking's date (which the
client hands over as midnight of that day on the server's clock) with
`setHours(sh, sm, 0, 0)`, where `sh` and `sm` are the hour and minute of the stored
start time. -/
def bookingDateTime (env : Env) (b : Booking) : Int :=
  let sh : Int := ((b.start_time / 3600 : Nat) : Int)
  let sm : Int := ((b.start_time % 3600 / 60 : Nat) : Int)
  b.date * 86400000 + (sh * 60 + sm) * 60000 - env.tzOffset * 60000

/-- The source's `isPast = bookingDateTime < now`. -/
def isPast (env : Env) (b : Booking) : Bool :=
  decide (bookingDateTime env b < env.now)

/-- The transaction of `cancelBooking` (from `BEGIN` to `COMMIT`) on the working copy
`s`: the status update and, unless the booking is past, the conditional increment. -/
def cancelTransaction (env : Env) (s : Store) (booking : Booking) (bookingId : String) :
    Except Thrown (CancelledBooking × Store) :=
  match bookingModel.cancelBooking env.now s.bookings bookingId with
  | (none, _) =>
    .error (.http 409 "Failed to cancel booking. It may have already been cancelled.")
  | (some cancelled, bookings1) =>
    let step : Option Lot × List Lot :=
      if !isPast env booking then parkingModel.incrementSlot s.lots booking.parking_id
      else (none, s.lots)
    .ok ({ id := cancelled.id, parkingId := cancelled.parking_id, userId := cancelled.user_id,
           vehicleNumber := cancelled.vehicle_number, date := cancelled.date,
           startTime := cancelled.start_time, endTime := cancelled.end_time,
           durationHours := cancelled.duration_hours, totalCost := cancelled.total_cost,
           status := cancelled.status, cancelledAt := cancelled.cancelled_at,
           availableSlots := step.1.map (fun l => l.available_slots),
           totalSlots := step.1.map (fun l => l.total_slots),
           refundNote := if isPast env booking
             then "No refund — booking time has already passed"
             else "Slot has been released. Refund will be processed." },
         { lots := step.2, bookings := bookings1 })

/-- The source's `bookingService.cancelBooking`: the checks in the order of the source,
then the transaction; whatever is thrown inside the transaction is rethrown after
`ROLLBACK`, which leaves the store as it was. -/
def bookingService.cancelBooking (env : Env) (s : Store) (bookingId userId : Option String) :
    Except Thrown CancelledBooking × Store :=
  if !truthy bookingId then
    (.error (.http 400 "Booking ID is required"), s)
  else
    match bookingModel.findById s (bookingId.getD "") with
    | none => (.error (.http 404 "Booking not found"), s)
    | some booking =>
      if booking.status = "cancelled" then
        (.error (.http 400 "This booking is already cancelled"), s)
      else if booking.status = "completed" then
        (.error (.http 400 "Cannot cancel a completed booking"), s)
      else if truthy userId && decide (booking.user_id ≠ userId.getD "") then
        (.error (.http 403 "You can only cancel your own bookings"), s)
      else
        match cancelTransaction env s booking (bookingId.getD "") with
        | .ok (result, s1) => (.ok result, s1)
        | .error err => (.error err, s)

/-! ## A reference environment

A concrete server for the worked examples.  `new Date` reads a text `YYYY-MM-DD` as
midnight UTC of that day, as V8 does (month 1 to 12, day 1 to 31, a day past the end
of its month counting on into the next), and the store reads a date `YYYY-MM-DD` that
names a day of the calendar and a time `HH:MM`, `HH:MM:SS` or `HHMM`, as PostgreSQL
does.  Texts of other shapes are invalid dates and refused parameters in this
environment; an engine or store that reads more shapes is another `Env`. -/

/-- The day number (days since 1970-01-01) of a civil date of the Gregorian calendar. -/
def daysFromCivil (y m d : Int) : Int :=
  let y1 := if m ≤ 2 then y - 1 else y
  let era := y1 / 400
  let yoe := y1 - era * 400
  let mp := (m + 9) % 12
  let doy := (153 * mp + 2) / 5 + d - 1
  let doe := yoe * 365 + yoe / 4 - yoe / 100 + doy
  era * 146097 + doe - 719468

/-- The number of days of a month. -/
def daysInMonth (y m : Int) : Int :=
  if m = 2 then (if (y % 4 = 0 ∧ y % 100 ≠ 0) ∨ y % 400 = 0 then 29 else 28)
  else if m = 4 ∨ m = 6 ∨ m = 9 ∨ m = 11 then 30 else 31

/-- The day number of a text `YYYY-MM-DD` that names a day of the calendar. -/
def isoDay (text : String) : Option Int :=
  match text.data with
  | [y1, y2, y3, y4, '-', m1, m2, '-', d1, d2] =>
    match digitsValue [y1, y2, y3, y4] 0, digitsValue [m1, m2] 0, digitsValue [d1, d2] 0 with
    | some y, some m, some d =>
      if 1 ≤ m ∧ m ≤ 12 ∧ 1 ≤ d ∧ (d : Int) ≤ daysInMonth y m then
        some (daysFromCivil y m d)
      else none
    | _, _, _ => none
  | _ => none

/-- The instant of `new Date("YYYY-MM-DD")`: midnight UTC of that day.  The day may be
any of 1 to 31 whatever the month and counts on into the next month
(`2029-02-30` is 2029-03-02). -/
def isoInstant (text : String) : Option Int :=
  match text.data with
  | [y1, y2, y3, y4, '-', m1, m2, '-', d1, d2] =>
    match digitsValue [y1, y2, y3, y4] 0, digitsValue [m1, m2] 0, digitsValue [d1, d2] 0 with
    | some y, some m, some d =>
      if 1 ≤ m ∧ m ≤ 12 ∧ 1 ≤ d ∧ d ≤ 31 then some (daysFromCivil y m d * 86400000)
      else none
    | _, _, _ => none
  | _ => none

/-- The seconds since midnight of a clock text `HH:MM`, `HH:MM:SS` or `HHMM`. -/
def clockSeconds (text : String) : Option Nat :=
  match text.data with
  | [h1, h2, m1, m2] =>
    match digitsValue [h1, h2] 0, digitsValue [m1, m2] 0 with
    | some h, some m => if h ≤ 23 ∧ m ≤ 59 then some (h * 3600 + m * 60) else none
    | _, _ => none
  | [h1, h2, ':', m1, m2] =>
    match digitsValue [h1, h2] 0, digitsValue [m1, m2] 0 with
    | some h, some m => if h ≤ 23 ∧ m ≤ 59 then some (h * 3600 + m * 60) else none
    | _, _ => none
  | [h1, h2, ':', m1, m2, ':', s1, s2] =>
    match digitsValue [h1, h2] 0, digitsValue [m1, m2] 0, digitsValue [s1, s2] 0 with
    | some h, some m, some sec =>
      if h ≤ 23 ∧ m ≤ 59 ∧ sec ≤ 59 then some (h * 3600 + m * 60 + sec) else none
    | _, _, _ => none
  | _ => none

/-- The reference environment at instant `now` (milliseconds since the epoch), zone
offset `tz` (minutes east of UTC), next identifier `uuid`, and a store that accepts the
insert or not. -/
def refEnv (now tz : Int) (uuid : String) (insertOk : Bool) : Env :=
  { now := now, tzOffset := tz, uuid := uuid, jsDate := isoInstant, dbDate := isoDay,
    dbTime := clockSeconds, insertOk := insertOk }

/-! ## Properties of a store -/

/-- The capacity invariant: every lot has `0 <= available_slots <= total_slots`. -/
def CapacityInv (lots : List Lot) : Prop :=
  ∀ l ∈ lots, 0 ≤ l.available_slots ∧ l.available_slots ≤ l.total_slots

instance (lots : List Lot) : Decidable (CapacityInv lots) := by
  unfold CapacityInv
  infer_instance

/-- The column `id` is the key of `parking_lots`: no two rows carry the same id. -/
def LotKey (lots : List Lot) : Prop :=
  (lots.map (fun l => l.id)).Nodup

instance (lots : List Lot) : Decidable (LotKey lots) := by
  unfold LotKey
  infer_instance

/-- No oversell: for every lot, date and instant of the day, the confirmed bookings of
the lot on that date whose interval `[start_time, end_time)` contains the instant are
at most `total_slots` many. -/
def NoOversell (s : Store) : Prop :=
  ∀ l ∈ s.lots, ∀ (date : Int) (t : Nat),
    (bookingModel.countActiveAtTime s.bookings l.id date t : Int) ≤ l.total_slots

/-- The condition of the overlap count in the words of the specification: a row of the
given lot and date, confirmed, with `start_time < end` and `start < end_time`. -/
def OverlapsWindow (lot : String) (date : Int) (start endTime : Nat) (b : Booking) : Prop :=
  b.parking_id = lot ∧ b.date = date ∧ b.status = "confirmed" ∧
    b.start_time < endTime ∧ start < b.end_time

instance (lot : String) (date : Int) (start endTime : Nat) :
    DecidablePred (OverlapsWindow lot date start endTime) := by
  intro b
  unfold OverlapsWindow
  infer_instance

/-- Whether the table has a row at position `i` and that row satisfies `p`. -/
def rowSatisfies (rows : List Booking) (p : Booking → Bool) (i : Nat) : Bool :=
  match rows[i]? with
  | some b => p b
  | none => false

/-- The number of rows of a table that satisfy `p`: the number of positions of the table
whose row satisfies `p`. -/
def countRows (rows : List Booking) (p : Booking → Bool) : Nat :=
  ((Finset.range rows.length).filter (fun i => rowSatisfies rows p i = true)).card

/-- The checks of `createBooking` that precede the lookup of the lot all pass: fields
present, date not past, start before end, duration neither `<= 0` nor `> 12` hours. -/
def passesChecks (env : Env) (req : BookingRequest) : Prop :=
  (truthy req.parkingId && truthy req.userId && truthy req.date &&
      truthy req.startTime && truthy req.endTime) = true ∧
  dateLt (env.jsDate (req.date.getD "")) (localMidnight env) = false ∧
  jsStrGe (req.startTime.getD "") (req.endTime.getD "") = false ∧
  ((durationHours (req.startTime.getD "") (req.endTime.getD "")).le (.fin 0)) = false ∧
  ((JsNum.ofInt 12).lt (durationHours (req.startTime.getD "") (req.endTime.getD ""))) = false

instance (env : Env) (req : BookingRequest) : Decidable (passesChecks env req) := by
  unfold passesChecks
  infer_instance

/-! ## Sample data for the worked examples -/

/-- A lot with a single slot, free. -/
def lotA : Lot :=
  { id := "lot-A", total_slots := 1, available_slots := 1, price_per_hour := 5000 }

/-- A lot with three slots, two of them free. -/
def lotB : Lot :=
  { id := "lot-B", total_slots := 3, available_slots := 2, price_per_hour := 0 }

/-- A confirmed booking of `lot-B` on 2030-01-01 (day 21915) from 09:00 to 11:00. -/
def bookingB1 : Booking :=
  { id := "bk-1", parking_id := "lot-B", user_id := "user-1", vehicle_number := none,
    date := 21915, start_time := 32400, end_time := 39600, duration_hours := JsNum.ofInt 2,
    total_cost := JsNum.ofInt 40, status := "confirmed", created_at := 1893326400000,
    cancelled_at := none }

/-- A cancelled booking of `lot-B` on the same day, 10:00 to 12:00. -/
def bookingB2 : Booking :=
  { bookingB1 with id := "bk-0", start_time := 36000, end_time := 43200,
                   status := "cancelled", cancelled_at := some 1893330000000 }

/-- A confirmed booking of `lot-A` on the same day, 10:00 to 12:00. -/
def bookingA1 : Booking :=
  { bookingB1 with id := "bk-3", parking_id := "lot-A", start_time := 36000,
                   end_time := 43200 }

/-- A confirmed booking of `lot-B` on the next day, 10:00 to 12:00. -/
def bookingB3 : Booking :=
  { bookingB1 with id := "bk-4", date := 21916, start_time := 36000, end_time := 43200 }

/-- A store with two lots and one booking. -/
def storeAB : Store :=
  { lots := [lotA, lotB], bookings := [bookingB1] }

/-- A request for `lot-A` on 2030-01-01 from 09:00 to 11:00. -/
def requestA : BookingRequest :=
  { parkingId := some "lot-A", userId := some "user-2", vehicleNumber := some "KA01AB1234",
    date := some "2030-01-01", startTime := some "09:00", endTime := some "11:00" }

/-- A request for `lot-B` on 2030-01-01 from 10:00 to 12:00, which overlaps `bk-1`. -/
def requestB : BookingRequest :=
  { parkingId := some "lot-B", userId := some "user-2", vehicleNumber := none,
    date := some "2030-01-01", startTime := some "10:00", endTime := some "12:00" }

/-- The reference environment at 2029-12-31 12:00 UTC on a server five and a half
hours east of UTC, with a store that accepts the insert. -/
def envOk : Env := refEnv 1893412800000 330 "bk-2" true

/-- The same environment with a store that refuses the insert. -/
def envRefuse : Env := refEnv 1893412800000 330 "bk-2" false

/-! ## The admission checks in the order of the specification -/

/-- The checks of admission in the order of the specification, each paired with the
error of its failure: (1) required fields present, (2) date not in the past, (3) start
before end, (4) duration not `<= 0` and not `> 12` hours (two messages), (5) the lot
exists, (6) the lot has `available_slots > 0`.  Each test is the one the source
applies; every entry is computed on its own, without regard to the entries before. -/
def admissionChecks (env : Env) (s : Store) (req : BookingRequest) : List (Bool × Thrown) :=
  [ (truthy req.parkingId && truthy req.userId && truthy req.date &&
       truthy req.startTime && truthy req.endTime,
     .http 400 "All fields are required: parkingId, userId, date, startTime, endTime"),
    (!dateLt (env.jsDate (req.date.getD "")) (localMidnight env),
     .http 400 "Cannot book for a past date"),
    (!jsStrGe (req.startTime.getD "") (req.endTime.getD ""),
     .http 400 "Start time must be before end time"),
    (!((durationHours (req.startTime.getD "") (req.endTime.getD "")).le (.fin 0)),
     .http 400 "End time must be after start time"),
    (!((JsNum.ofInt 12).lt (durationHours (req.startTime.getD "") (req.endTime.getD ""))),
     .http 400 "Maximum booking duration is 12 hours"),
    ((parkingModel.findById s.lots (req.parkingId.getD "")).isSome,
     .http 404 "Parking lot not found"),
    ((match parkingModel.findById s.lots (req.parkingId.getD "") with
        | some lot => decide (lot.available_slots > 0) | none => false),
     .http 409 "This parking lot is currently full. No slots available.") ]

/-- The error of the first check that fails, `none` when every check passes. -/
def firstFailure (checks : List (Bool × Thrown)) : Option Thrown :=
  (checks.find? (fun c => !c.1)).map (fun c => c.2)

/-- A request for a lot that does not exist, with the end before the start. -/
def requestBadRange : BookingRequest :=
  { parkingId := some "lot-Z", userId := some "user-2", vehicleNumber := none,
    date := some "2030-01-01", startTime := some "11:00", endTime := some "09:00" }

/-- A request for a lot that does not exist, otherwise in order. -/
def requestNoLot : BookingRequest :=
  { parkingId := some "lot-Z", userId := some "user-2", vehicleNumber := none,
    date := some "2030-01-01", startTime := some "09:00", endTime := some "11:00" }

/-! ## Sample data: times without padding, a server west of UTC -/

/-- A request for `lot-B` on 2030-01-01 from 9:00 to 10:00, the hours written without a
leading zero. -/
def requestUnpadded : BookingRequest :=
  { parkingId := some "lot-B", userId := some "user-2", vehicleNumber := none,
    date := some "2030-01-01", startTime := some "9:00", endTime := some "10:00" }

/-- The same request with the hours written `09:00` and `10:00`. -/
def requestPadded : BookingRequest :=
  { requestUnpadded with startTime := some "09:00", endTime := some "10:00" }

/-- The calendar day (day number) on the clock of the server at the current instant. -/
def localToday (env : Env) : Int :=
  (env.now + env.tzOffset * 60000) / 86400000

/-- The reference environment at 2030-01-01 17:00 UTC on a server five hours west of
UTC, where it is noon of 2030-01-01. -/
def envWest : Env := refEnv 1893517200000 (-300) "bk-2" true

/-- The reference environment at the same instant on a server at UTC. -/
def envUtc : Env := refEnv 1893517200000 0 "bk-2" true

/-! ## Sample data: durations -/

/-- A request for `lot-A` on 2030-01-01 from `0900` to `2300`, the times written without
a colon: fourteen hours. -/
def requestNoColon : BookingRequest :=
  { requestA with startTime := some "0900", endTime := some "2300" }

/-- The same request with the times written `09:00` and `23:00`. -/
def requestFourteen : BookingRequest :=
  { requestA with startTime := some "09:00", endTime := some "23:00" }

/-- The row that `requestNoColon` inserts in the sample store under `envOk`. -/
def rowNoColon : Booking :=
  { id := "bk-2", parking_id := "lot-A", user_id := "user-2",
    vehicle_number := some "KA01AB1234", date := 21915, start_time := 32400,
    end_time := 82800, duration_hours := .nan, total_cost := .nan, status := "confirmed",
    created_at := 1893412800000, cancelled_at := none }

/-- A request for `lot-A` whose date names no day: month 13, day 45. -/
def requestNoDay : BookingRequest :=
  { requestA with date := some "2030-13-45" }

/-- A request for `lot-B` on 2030-01-01 from 09:00 to 21:00, twelve hours. -/
def requestTwelve : BookingRequest :=
  { requestB with startTime := some "09:00", endTime := some "21:00" }

/-- A request for `lot-B` on 2030-01-01 from 09:00 to 21:30, twelve and a half hours. -/
def requestTooLong : BookingRequest :=
  { requestB with startTime := some "09:00", endTime := some "21:30" }

/-- A request for `lot-B` on 2030-01-01 from 09:00 to 08:30. -/
def requestBackwards : BookingRequest :=
  { requestB with startTime := some "09:00", endTime := some "08:30" }

/-! ## The cost in the words of the specification -/

/-- The cost of the specification, in hundredths: the rate (hundredths per hour, so
`rate / 100` per hour) times the duration (`minutes / 60` hours), times 100, rounded to
the nearest integer (halves upward).  Exact rational arithmetic. -/
def roundedCost (rate minutes : Int) : Int :=
  Int.floor (((rate : ℚ) / 100) * ((minutes : ℚ) / 60) * 100 + 1 / 2)

/-! ## Sample data: the cost -/

/-- A lot whose rate is 10.35 an hour. -/
def lotC : Lot :=
  { id := "lot-C", total_slots := 5, available_slots := 5, price_per_hour := 1035 }

/-- A store with `lot-C` alone and no booking. -/
def storeC : Store :=
  { lots := [lotC], bookings := [] }

/-- A request for `lot-C` on 2030-01-01 from 09:00 to 10:30, an hour and a half. -/
def requestC : BookingRequest :=
  { parkingId := some "lot-C", userId := some "user-2", vehicleNumber := none,
    date := some "2030-01-01", startTime := some "09:00", endTime := some "10:30" }

/-- The row that `requestC` inserts in `storeC` under `envOk`: its cost is 15.52. -/
def rowC : Booking :=
  { id := "bk-2", parking_id := "lot-C", user_id := "user-2", vehicle_number := none,
    date := 21915, start_time := 32400, end_time := 37800,
    duration_hours := JsNum.ofFrac 90 60, total_cost := JsNum.ofFrac 1552 100,
    status := "confirmed", created_at := 1893412800000, cancelled_at := none }

/-- A lot whose rate is 1 000 000 000 000.00 an hour. -/
def lotD : Lot :=
  { id := "lot-D", total_slots := 5, available_slots := 5,
    price_per_hour := 100000000000000 }


/-- The row that the request `requestB` inserts in the sample store under `envOk`: two
hours at `lot-B`, whose rate is 0. -/
def rowFree : Booking :=
  { id := "bk-2", parking_id := "lot-B", user_id := "user-2", vehicle_number := none,
    date := 21915, start_time := 36000, end_time := 43200, duration_hours := JsNum.ofInt 2,
    total_cost := JsNum.ofInt 40, status := "confirmed", created_at := 1893412800000,
    cancelled_at := none }

/-! ## The single-slot scenario -/

/-- A lot with one slot, free. -/
def scenarioLot : Lot :=
  { id := "lot-S", total_slots := 1, available_slots := 1, price_per_hour := 3000 }

/-- The store of the scenario: the single lot and no bookings. -/
def scenarioStore : Store :=
  { lots := [scenarioLot], bookings := [] }

/-- Booking A of the scenario: 2024-01-01, 09:00 to 11:00. -/
def scenarioA : BookingRequest :=
  { parkingId := some "lot-S", userId := some "user-1", vehicleNumber := none,
    date := some "2024-01-01", startTime := some "09:00", endTime := some "11:00" }

/-- Booking B of the scenario: same lot and date, 10:00 to 12:00. -/
def scenarioB : BookingRequest :=
  { scenarioA with userId := some "user-2", startTime := some "10:00", endTime := some "12:00" }

/-- Booking C of the scenario: same lot and date, 11:00 to 13:00. -/
def scenarioC : BookingRequest :=
  { scenarioA with userId := some "user-3", startTime := some "11:00", endTime := some "13:00" }

/-- The single lot after its slot has been taken. -/
def scenarioLotTaken : Lot :=
  { scenarioLot with available_slots := 0 }

/-- The row of booking A, with the identifier and the instant of its call. -/
def scenarioRow (uuid : String) (now : Int) : Booking :=
  { id := uuid, parking_id := "lot-S", user_id := "user-1", vehicle_number := none,
    date := 19723, start_time := 32400, end_time := 39600, duration_hours := JsNum.ofInt 2,
    total_cost := JsNum.ofInt 60, status := "confirmed", created_at := now, cancelled_at := none }

/-- The store of the scenario after booking A. -/
def scenarioAfterA (uuid : String) (now : Int) : Store :=
  { lots := [scenarioLotTaken], bookings := [scenarioRow uuid now] }

/-- The error of the check on `available_slots` before the transaction. -/
def lotFull : Thrown :=
  .http 409 "This parking lot is currently full. No slots available."

/-! ## Sample data: cancellation -/

/-- The sample store with the cancelled booking `bk-0` next to the confirmed `bk-1`. -/
def storeCancelled : Store :=
  { lots := [lotA, lotB], bookings := [bookingB1, bookingB2] }

/-! ## Cancellation in the words of the specification -/

/-- The column `id` is the key of `bookings`: no two rows carry the same id. -/
def BookingKey (bookings : List Booking) : Prop :=
  (bookings.map (fun b => b.id)).Nodup

instance (bookings : List Booking) : Decidable (BookingKey bookings) := by
  unfold BookingKey
  infer_instance

/-- The instant at which a booking starts: its date and its start time read on the
clock of the server (milliseconds since the epoch). -/
def startInstant (env : Env) (b : Booking) : Int :=
  b.date * 86400000 + (b.start_time : Int) * 1000 - env.tzOffset * 60000

/-- The instant at which a booking starts when its start time is read to the minute,
the seconds dropped (milliseconds since the epoch). -/
def startMinuteInstant (env : Env) (b : Booking) : Int :=
  b.date * 86400000 + ((b.start_time / 60 : Nat) : Int) * 60000 - env.tzOffset * 60000

/-- A confirmed booking of `lot-B` on 2030-01-01 that starts at 09:00:30. -/
def bookingHalfMinute : Booking :=
  { bookingB1 with start_time := 32430 }

/-- The sample lots with the booking that starts at 09:00:30. -/
def storeHalfMinute : Store :=
  { lots := [lotA, lotB], bookings := [bookingHalfMinute] }

/-- The reference environment at 09:00:15 of 2030-01-01 on the clock of a server five
and a half hours east of UTC. -/
def envQuarterPast : Env := refEnv 1893468615000 330 "bk-9" true

/-- A request for `lot-A` on 2030-01-01 from 09:00:30 to 11:00. -/
def requestHalfMinute : BookingRequest :=
  { requestA with startTime := some "09:00:30" }

/-- The reference environment at 2030-01-01 12:00 UTC on a server five and a half hours
east of UTC, where the day's 09:00 has passed. -/
def envLater : Env := refEnv 1893499200000 330 "bk-9" true

/-! ## Sample data: a lot at its total -/

/-- A lot whose single slot is free although a confirmed booking of it exists. -/
def lotF : Lot :=
  { id := "lot-F", total_slots := 1, available_slots := 1, price_per_hour := 2500 }

/-- A confirmed booking of `lot-F` on 2030-01-01 from 09:00 to 11:00. -/
def bookingF : Booking :=
  { bookingB1 with id := "bk-F", parking_id := "lot-F" }

/-- A store in which `lot-F` shows all its slots free next to the confirmed `bk-F`. -/
def storeFull : Store :=
  { lots := [lotF], bookings := [bookingF] }

/-- The note of a cancellation that released the slot. -/
def noteReleased : String := "Slot has been released. Refund will be processed."

/-- The note of a cancellation after the start of the booking. -/
def noteNoRefund : String := "No refund — booking time has already passed"

/-! ## bookingService.js: the read paths, and the service as a whole -/

/-- The object that `getBookingById` returns and `getUserBookings` lists (the display
fields of the joined lot left out). -/
structure BookingView where
  id : String
  parkingId : String
  userId : String
  vehicleNumber : Option String
  date : Int
  startTime : Nat
  endTime : Nat
  durationHours : JsNum
  totalCost : JsNum
  status : String
  cancelledAt : Option Int
  createdAt : Int
deriving DecidableEq

/-- The object literal built from a booking row by the two read paths. -/
def bookingView (b : Booking) : BookingView :=
  { id := b.id, parkingId := b.parking_id, userId := b.user_id,
    vehicleNumber := b.vehicle_number, date := b.date, startTime := b.start_time,
    endTime := b.end_time, durationHours := b.duration_hours, totalCost := b.total_cost,
    status := b.status, cancelledAt := b.cancelled_at, createdAt := b.created_at }

/-- The source's `bookingService.getBookingById`. -/
def bookingService.getBookingById (s : Store) (bookingId : Option String) :
    Except Thrown BookingView × Store :=
  if !truthy bookingId then
    (.error (.http 400 "Booking ID is required"), s)
  else
    match bookingModel.findById s (bookingId.getD "") with
    | none => (.error (.http 404 "Booking not found"), s)
    | some booking => (.ok (bookingView booking), s)

/-- The order of `ORDER BY b.created_at DESC`: newer or equally new first. -/
def newerFirst (a b : Booking) : Prop := a.created_at ≥ b.created_at

instance : DecidableRel newerFirst := by
  intro a b
  unfold newerFirst
  infer_instance

/-- The source's `bookingModel.findByUserId`: `bookings` joined with `parking_lots` on
`b.parking_id = p.id` (one joined row for every lot row that matches), restricted to
`b.user_id = $1`, in the order `ORDER BY b.created_at DESC` (rows of equal `created_at`
are left in table order here; the store may list them in any order).  Of a joined row
the booking columns are kept. -/
def bookingModel.findByUserId (s : Store) (userId : String) : List Booking :=
  ((s.bookings.flatMap (fun b =>
      (s.lots.filter (fun p => decide (p.id = b.parking_id))).map (fun _ => b))).filter
    (fun b => decide (b.user_id = userId))).insertionSort newerFirst

/-- The source's `bookingService.getUserBookings`. -/
def bookingService.getUserBookings (s : Store) (userId : Option String) :
    Except Thrown (List BookingView) × Store :=
  if !truthy userId then
    (.error (.http 400 "User ID is required"), s)
  else
    (.ok ((bookingModel.findByUserId s (userId.getD "")).map bookingView), s)

/-- A call of one of the four operations of the booking service. -/
inductive ServiceCall where
  | createBooking (req : BookingRequest)
  | cancelBooking (bookingId userId : Option String)
  | getBookingById (bookingId : Option String)
  | getUserBookings (userId : Option String)

/-- The store after a call of the service. -/
def storeAfter (env : Env) (s : Store) : ServiceCall → Store
  | .createBooking req => (bookingService.createBooking env s req).2
  | .cancelBooking bookingId userId => (bookingService.cancelBooking env s bookingId userId).2
  | .getBookingById bookingId => (bookingService.getBookingById s bookingId).2
  | .getUserBookings userId => (bookingService.getUserBookings s userId).2

/-- The life of a booking row across one call, in the words of the specification: every
column other than `status` and `cancelled_at` is as before; the status is as before or
has gone from `confirmed` to `cancelled`; a row that was cancelled is as before. -/
def LifecycleStep (b b1 : Booking) : Prop :=
  b1.id = b.id ∧ b1.parking_id = b.parking_id ∧ b1.user_id = b.user_id ∧
  b1.vehicle_number = b.vehicle_number ∧ b1.date = b.date ∧
  b1.start_time = b.start_time ∧ b1.end_time = b.end_time ∧
  b1.duration_hours = b.duration_hours ∧ b1.total_cost = b.total_cost ∧
  b1.created_at = b.created_at ∧
  (b1.status = b.status ∨ (b.status = "confirmed" ∧ b1.status = "cancelled")) ∧
  (b.status = "cancelled" → b1 = b)

instance (b b1 : Booking) : Decidable (LifecycleStep b b1) := by
  unfold LifecycleStep
  infer_instance

/-! ## The cancellation checks in the order of the specification -/

/-- The checks of cancellation in the order of the specification, each paired with the
error of its failure: the booking exists (404), its status is not `cancelled` and not
`completed` (400, two messages), the requester, if supplied, is the owner (403).  Each
test is the one the source applies. -/
def cancellationChecks (s : Store) (bookingId userId : Option String) :
    List (Bool × Thrown) :=
  [ ((bookingModel.findById s (bookingId.getD "")).isSome,
     .http 404 "Booking not found"),
    ((match bookingModel.findById s (bookingId.getD "") with
        | some b => decide (b.status ≠ "cancelled") | none => false),
     .http 400 "This booking is already cancelled"),
    ((match bookingModel.findById s (bookingId.getD "") with
        | some b => decide (b.status ≠ "completed") | none => false),
     .http 400 "Cannot cancel a completed booking"),
    ((match bookingModel.findById s (bookingId.getD "") with
        | some b => !(truthy userId && decide (b.user_id ≠ userId.getD ""))
        | none => false),
     .http 403 "You can only cancel your own bookings") ]

/-- The error that `createBooking` throws when a required field is missing. -/
def fieldsRequired : Thrown :=
  .http 400 "All fields are required: parkingId, userId, date, startTime, endTime"

/-- A request without a vehicle number. -/
def requestNoVehicle : BookingRequest :=
  { requestA with vehicleNumber := none }

/-- A request without a date. -/
def requestNoDate : BookingRequest :=
  { requestA with date := none }


/-! ## The bookings of a requester -/

instance : IsTotal Booking newerFirst :=
  ⟨fun a b => by unfold newerFirst; omega⟩

instance : IsTrans Booking newerFirst :=
  ⟨fun a b c h1 h2 => by unfold newerFirst at *; omega⟩

/-- Every booking row refers to a row of `parking_lots` (the foreign key of
`bookings.parking_id`). -/
def LotsPresent (s : Store) : Prop :=
  ∀ b ∈ s.bookings, ∃ l ∈ s.lots, l.id = b.parking_id

instance (s : Store) : Decidable (LotsPresent s) := by
  unfold LotsPresent
  infer_instance

/-- A later booking of `user-1` at `lot-A`. -/
def bookingU2 : Booking :=
  { bookingA1 with id := "bk-5", created_at := 1893330000000 }

/-- A booking of `user-2` at `lot-B`. -/
def bookingU3 : Booking :=
  { bookingB3 with id := "bk-6", user_id := "user-2", created_at := 1893328000000 }

/-- A store with two bookings of `user-1`, the older one first in the table, and one
booking of `user-2`. -/
def storeUsers : Store :=
  { lots := [lotA, lotB], bookings := [bookingB1, bookingU3, bookingU2] }


/-! ## NavigationScreen.js: the polyline decoder

`decodePolyline` of `mobile/screens/NavigationScreen.js`.  A point is held as the pair
of its latitude and longitude in units of `1e-5` degrees, the integers `lat` and `lng`
of the source before the final division `lat / 1e5`, `lng / 1e5` (for an integer `n`
below `2^53` the quotient `n / 1e5` is the double nearest to the decimal `n * 1e-5`).
The bitwise operators of JavaScript work on 32-bit integers: `result` is held as its
32-bit pattern and read as a signed number where the source does arithmetic on it. -/

/-- The signed reading of a 32-bit pattern: the value of a JavaScript bitwise result. -/
def toInt32 (n : Nat) : Int :=
  if n % 4294967296 < 2147483648 then ((n % 4294967296 : Nat) : Int)
  else ((n % 4294967296 : Nat) : Int) - 4294967296

/-- One `do ... while (byte >= 0x20)` loop of the source, on the code units from `index`
on: `byte = charCodeAt(index++) - 63`, `result |= (byte & 0x1f) << shift` (the shift
count of `<<` is taken modulo 32 and the result is a 32-bit integer), `shift += 5`.
Past the end of the text `charCodeAt` is `NaN`, which adds no bit and ends the loop.
The result is the 32-bit pattern of `result` and the code units not yet read. -/
def readChunks : List Nat → Nat → Nat → Nat × List Nat
  | [], _, result => (result, [])
  | c :: cs, shift, result =>
    let byte : Int := (c : Int) - 63
    let result1 := result ||| (((byte % 32).toNat <<< (shift % 32)) % 4294967296)
    if byte ≥ 32 then readChunks cs (shift + 5) result1 else (result1, cs)

/-- The source's `result & 1 ? ~(result >> 1) : result >> 1` on the signed value of
`result`. -/
def unzigzag (r : Int) : Int :=
  if r % 2 = 1 then -(r / 2) - 1 else r / 2

/-- The `while (index < encoded.length)` loop of the source on the code units from
`index` on, with the running `lat` and `lng`; the points are listed in the order in
which the source pushes them.  Every round reads at least one code unit, so as many
rounds as there are code units suffice (`decodeLoop_fuel`). -/
def decodeLoop : Nat → List Nat → Int → Int → List (Int × Int)
  | 0, _, _, _ => []
  | fuel + 1, units, lat, lng =>
    if units = [] then []
    else
      let first := readChunks units 0 0
      let lat1 := lat + unzigzag (toInt32 first.1)
      let second := readChunks first.2 0 0
      let lng1 := lng + unzigzag (toInt32 second.1)
      (lat1, lng1) :: decodeLoop fuel second.2 lat1 lng1

/-- The source's `decodePolyline`, on the UTF-16 code units of the text. -/
def decodePolyline (encoded : String) : List (Int × Int) :=
  decodeLoop (encoded.data.flatMap utf16).length (encoded.data.flatMap utf16) 0 0

/-! ## The encoded polyline format, in the words of its description -/

/-- The format's signed-to-unsigned step: the value shifted left by one bit, and
inverted when the value is negative. -/
def zigzag (d : Int) : Nat :=
  if d < 0 then (-(2 * d) - 1).toNat else (2 * d).toNat

/-- The format's chunks of a number: groups of five bits from the lowest on, each group
but the last with `0x20` added, every one with `63` added.  The first argument bounds
the number of groups (a number has fewer groups than its value plus one). -/
def encodeChunks : Nat → Nat → List Nat
  | 0, _ => []
  | fuel + 1, n =>
    if n < 32 then [n + 63] else (n % 32 + 32 + 63) :: encodeChunks fuel (n / 32)

/-- The characters of one signed value. -/
def encodeValue (d : Int) : List Nat :=
  encodeChunks (zigzag d + 1) (zigzag d)

/-- The characters of a list of points, each coordinate as its offset from the
coordinate of the point before (the first from zero), latitude before longitude. -/
def encodeFrom : Int → Int → List (Int × Int) → List Nat
  | _, _, [] => []
  | plat, plng, p :: rest =>
    encodeValue (p.1 - plat) ++ (encodeValue (p.2 - plng) ++ encodeFrom p.1 p.2 rest)

/-- The standard encoding of a list of points. -/
def encodePolyline (points : List (Int × Int)) : String :=
  String.mk ((encodeFrom 0 0 points).map Char.ofNat)

/-- A point of the globe: latitude within 90 degrees and longitude within 180 degrees
of zero, in units of `1e-5` degrees. -/
def OnGlobe (p : Int × Int) : Prop :=
  -9000000 ≤ p.1 ∧ p.1 ≤ 9000000 ∧ -18000000 ≤ p.2 ∧ p.2 ≤ 18000000

instance (p : Int × Int) : Decidable (OnGlobe p) := by
  unfold OnGlobe
  infer_instance

/-- The points (38.5, -120.2), (40.7, -120.95), (43.252, -126.453). -/
def samplePoints : List (Int × Int) :=
  [(3850000, -12020000), (4070000, -12095000), (4325200, -12645300)]

/-! ## Sequences of calls and the bookkeeping of slots -/

/-- The store after a sequence of calls of the service, each with the environment it
runs in. -/
def storeAfterAll (s : Store) : List (Env × ServiceCall) → Store
  | [] => s
  | c :: rest => storeAfterAll (storeAfter c.1 s c.2) rest

/-- The test "a confirmed booking at the lot", whatever its date and window. -/
def confirmedWhere (lotId : String) (b : Booking) : Bool :=
  decide (b.parking_id = lotId) && decide (b.status = "confirmed")

/-- The number of confirmed bookings at a lot, over all dates. -/
def confirmedAt (bookings : List Booking) (lotId : String) : Nat :=
  (bookings.filter (confirmedWhere lotId)).length

/-- The bookkeeping of slots: the lots are keyed by `id`; every booking is `confirmed`
or `cancelled` and refers to a lot of the table; every lot has `0 <= available_slots`
and `available_slots + (confirmed bookings at the lot) <= total_slots`. -/
def Bookkept (s : Store) : Prop :=
  LotKey s.lots ∧
  (∀ b ∈ s.bookings, (b.status = "confirmed" ∨ b.status = "cancelled") ∧
    b.parking_id ∈ s.lots.map (fun l => l.id)) ∧
  (∀ l ∈ s.lots, 0 ≤ l.available_slots ∧
    l.available_slots + (confirmedAt s.bookings l.id : Int) ≤ l.total_slots)

/-- The sample lots with no booking yet. -/
def storeFresh : Store :=
  { lots := [lotA, lotB], bookings := [] }

/-- The reference environment a little later, handing out the identifier `bk-7`. -/
def envNext : Env := refEnv 1893412900000 330 "bk-7" true

/-- Two admissions followed by the cancellation of the first. -/
def sampleCalls : List (Env × ServiceCall) :=
  [ (envOk, .createBooking requestA), (envNext, .createBooking requestB),
    (envNext, .cancelBooking (some "bk-2") none) ]


/-- Whether a thrown value is the rejection of the overlap check inside the transaction
of `createBooking`: status 409 with a message that begins
"No slots available for this time period". -/
def isWindowFull : Thrown → Bool
  | .http status message =>
    decide (status = 409) &&
      "No slots available for this time period".data.isPrefixOf message.data
  | .db => false

/-- A request for `lot-F` on 2030-01-01 from 09:00 to 11:00. -/
def requestF : BookingRequest :=
  { requestA with parkingId := some "lot-F" }


/-- The admission of `requestA` alone. -/
def firstCall : List (Env × ServiceCall) :=
  [ (envOk, .createBooking requestA) ]

/-- The row that the admission of `requestA` in `envOk` inserts. -/
def bookingA2 : Booking :=
  { id := "bk-2", parking_id := "lot-A", user_id := "user-2",
    vehicle_number := some "KA01AB1234", date := 21915, start_time := 32400,
    end_time := 39600, duration_hours := JsNum.ofInt 2, total_cost := JsNum.ofInt 100,
    status := "confirmed", created_at := 1893412800000, cancelled_at := none }

/-- The object returned by the cancellation of `bk-2` in `envNext`. -/
def cancelledA2 : CancelledBooking :=
  { id := "bk-2", parkingId := "lot-A", userId := "user-2",
    vehicleNumber := some "KA01AB1234", date := 21915, startTime := 32400,
    endTime := 39600, durationHours := JsNum.ofInt 2, totalCost := JsNum.ofInt 100,
    status := "cancelled", cancelledAt := some 1893412900000, availableSlots := some 1,
    totalSlots := some 1, refundNote := noteReleased }

/-! ## Lemmas: the conditional updates -/

theorem capacity_decrement {lots : List Lot} (h : CapacityInv lots) (id : String) :
    CapacityInv (parkingModel.decrementSlot lots id).2 := by
  intro l hl
  simp only [parkingModel.decrementSlot, List.mem_map] at hl
  obtain ⟨l0, hl0, rfl⟩ := hl
  have h0 := h l0 hl0
  by_cases hw : decrementWhere id l0 = true
  · rw [if_pos hw]
    simp only [decrementWhere, Bool.and_eq_true, decide_eq_true_eq] at hw
    simp only [decrementSet]
    omega
  · rw [if_neg hw]
    exact h0

theorem capacity_increment {lots : List Lot} (h : CapacityInv lots) (id : String) :
    CapacityInv (parkingModel.incrementSlot lots id).2 := by
  intro l hl
  simp only [parkingModel.incrementSlot, List.mem_map] at hl
  obtain ⟨l0, hl0, rfl⟩ := hl
  have h0 := h l0 hl0
  by_cases hw : incrementWhere id l0 = true
  · rw [if_pos hw]
    simp only [incrementWhere, Bool.and_eq_true, decide_eq_true_eq] at hw
    simp only [incrementSet]
    omega
  · rw [if_neg hw]
    exact h0

/-! ## Lemmas: the shape of a call of the service -/

theorem truthy_idem (v : Option String) :
    (if truthy (if truthy v then v else none) then (if truthy v then v else none) else none)
      = (if truthy v then v else none) := by
  by_cases h : truthy v = true
  · simp only [h, if_true]
  · simp [h]

theorem cancelTransaction_ok {env : Env} {s : Store} {booking : Booking} {bookingId : String}
    {r : CancelledBooking} {s1 : Store}
    (h : cancelTransaction env s booking bookingId = .ok (r, s1)) :
    ∃ cancelled,
      (bookingModel.cancelBooking env.now s.bookings bookingId).1 = some cancelled ∧
      s1 = { lots := (if !isPast env booking
                        then parkingModel.incrementSlot s.lots booking.parking_id
                        else (none, s.lots)).2,
             bookings := (bookingModel.cancelBooking env.now s.bookings bookingId).2 } := by
  unfold cancelTransaction at h
  rcases hc : bookingModel.cancelBooking env.now s.bookings bookingId with ⟨c, bookings1⟩
  rw [hc] at h
  cases c with
  | none => simp at h
  | some cancelled =>
    simp only [Except.ok.injEq, Prod.mk.injEq] at h
    exact ⟨cancelled, rfl, h.2.symm⟩

theorem cancelBooking_cases (env : Env) (s : Store) (bookingId userId : Option String) :
    (∃ e, bookingService.cancelBooking env s bookingId userId = (.error e, s)) ∨
    (∃ booking r s1,
      bookingModel.findById s (bookingId.getD "") = some booking ∧
      booking.status ≠ "cancelled" ∧ booking.status ≠ "completed" ∧
      cancelTransaction env s booking (bookingId.getD "") = .ok (r, s1) ∧
      bookingService.cancelBooking env s bookingId userId = (.ok r, s1)) := by
  unfold bookingService.cancelBooking
  split
  · exact Or.inl ⟨_, rfl⟩
  · split
    · exact Or.inl ⟨_, rfl⟩
    · rename_i booking hb
      split
      · exact Or.inl ⟨_, rfl⟩
      · rename_i hs1
        split
        · exact Or.inl ⟨_, rfl⟩
        · rename_i hs2
          split
          · exact Or.inl ⟨_, rfl⟩
          · split
            · rename_i r s1 htx
              exact Or.inr ⟨booking, r, s1, hb, hs1, hs2, htx, rfl⟩
            · exact Or.inl ⟨_, rfl⟩

theorem createTransaction_ok {env : Env} {s : Store} {lot : Lot} {parkingId userId : String}
    {vehicleNumber : Option String} {date startTime endTime : String}
    {duration cost : JsNum} {r : CreatedBooking} {s1 : Store}
    (h : createTransaction env s lot parkingId userId vehicleNumber date startTime endTime
      duration cost = .ok (r, s1)) :
    ∃ d st et updated,
      env.dbDate date = some d ∧ env.dbTime startTime = some st ∧ env.dbTime endTime = some et ∧
      (bookingModel.findOverlapping s.bookings parkingId d st et : Int) < lot.total_slots ∧
      (parkingModel.decrementSlot s.lots parkingId).1 = some updated ∧
      env.insertOk = true ∧
      r.availableSlots = updated.available_slots ∧ r.totalSlots = updated.total_slots ∧
      s1 = { lots := (parkingModel.decrementSlot s.lots parkingId).2,
             bookings := s.bookings ++
               [{ id := env.uuid, parking_id := parkingId, user_id := userId,
                  vehicle_number := if truthy vehicleNumber then vehicleNumber else none,
                  date := d, start_time := st, end_time := et,
                  duration_hours := duration, total_cost := cost,
                  status := "confirmed", created_at := env.now, cancelled_at := none }] } := by
  unfold createTransaction at h
  cases hd : env.dbDate date with
  | none => simp [hd] at h
  | some d =>
    cases hst : env.dbTime startTime with
    | none => simp [hd, hst] at h
    | some st =>
      cases het : env.dbTime endTime with
      | none => simp [hd, hst, het] at h
      | some et =>
        simp only [hd, hst, het] at h
        by_cases hcnt : (bookingModel.findOverlapping s.bookings parkingId d st et : Int)
            ≥ lot.total_slots
        · simp [hcnt] at h
        · rw [if_neg hcnt] at h
          rcases hdec : parkingModel.decrementSlot s.lots parkingId with ⟨u, lots1⟩
          rw [hdec] at h
          cases u with
          | none => simp at h
          | some updated =>
            simp only [bookingModel.create] at h
            cases hins : env.insertOk with
            | false => simp [hins] at h
            | true =>
              simp only [hins, if_true, Except.ok.injEq, Prod.mk.injEq] at h
              obtain ⟨h1, h2⟩ := h
              refine ⟨d, st, et, updated, rfl, rfl, rfl, by omega, rfl, rfl, ?_, ?_, ?_⟩
              · rw [← h1]
              · rw [← h1]
              · rw [← h2, truthy_idem]


theorem createBooking_of_checks {env : Env} {s : Store} {req : BookingRequest} {lot : Lot}
    (hv : passesChecks env req)
    (hlot : parkingModel.findById s.lots (req.parkingId.getD "") = some lot) :
    bookingService.createBooking env s req =
      if lot.available_slots ≤ 0 then
        (.error (.http 409 "This parking lot is currently full. No slots available."), s)
      else
        match createTransaction env s lot (req.parkingId.getD "") (req.userId.getD "")
            req.vehicleNumber (req.date.getD "") (req.startTime.getD "") (req.endTime.getD "")
            (durationHours (req.startTime.getD "") (req.endTime.getD ""))
            (totalCost (pricePerHour lot)
              (durationHours (req.startTime.getD "") (req.endTime.getD ""))) with
        | .ok (result, s1) => (.ok result, s1)
        | .error err => (.error err, s) := by
  obtain ⟨h1, h2, h3, h4, h5⟩ := hv
  unfold bookingService.createBooking
  simp only [h1, h2, h3, h4, h5, hlot, Bool.not_true, Bool.false_eq_true, if_false]

theorem createBooking_cases (env : Env) (s : Store) (req : BookingRequest) :
    (∃ e, bookingService.createBooking env s req = (.error e, s)) ∨
    (∃ lot r s1, passesChecks env req ∧
      parkingModel.findById s.lots (req.parkingId.getD "") = some lot ∧
      0 < lot.available_slots ∧
      createTransaction env s lot (req.parkingId.getD "") (req.userId.getD "")
            req.vehicleNumber (req.date.getD "") (req.startTime.getD "") (req.endTime.getD "")
            (durationHours (req.startTime.getD "") (req.endTime.getD ""))
            (totalCost (pricePerHour lot)
              (durationHours (req.startTime.getD "") (req.endTime.getD ""))) = .ok (r, s1) ∧
      bookingService.createBooking env s req = (.ok r, s1)) := by
  by_cases hv : passesChecks env req
  · cases hlot : parkingModel.findById s.lots (req.parkingId.getD "") with
    | none =>
      left
      obtain ⟨h1, h2, h3, h4, h5⟩ := hv
      unfold bookingService.createBooking
      simp only [h1, h2, h3, h4, h5, hlot, Bool.not_true, Bool.false_eq_true, if_false]
      exact ⟨_, rfl⟩
    | some lot =>
      rw [createBooking_of_checks hv hlot]
      by_cases ha : lot.available_slots ≤ 0
      · rw [if_pos ha]; exact Or.inl ⟨_, rfl⟩
      · rw [if_neg ha]
        cases htx : createTransaction env s lot (req.parkingId.getD "") (req.userId.getD "")
            req.vehicleNumber (req.date.getD "") (req.startTime.getD "") (req.endTime.getD "")
            (durationHours (req.startTime.getD "") (req.endTime.getD ""))
            (totalCost (pricePerHour lot)
              (durationHours (req.startTime.getD "") (req.endTime.getD ""))) with
        | error e => exact Or.inl ⟨_, rfl⟩
        | ok p =>
          obtain ⟨r, s1⟩ := p
          exact Or.inr ⟨lot, r, s1, hv, rfl, by omega, htx, rfl⟩
  · left
    unfold passesChecks at hv
    unfold bookingService.createBooking
    split
    · exact ⟨_, rfl⟩
    · rename_i h1
      simp only []
      split
      · exact ⟨_, rfl⟩
      · rename_i h2
        split
        · exact ⟨_, rfl⟩
        · rename_i h3
          split
          · exact ⟨_, rfl⟩
          · rename_i h4
            split
            · exact ⟨_, rfl⟩
            · rename_i h5
              exfalso
              apply hv
              simp only [Bool.not_eq_true, Bool.not_eq_true'] at h1 h2 h3 h4 h5
              exact ⟨by simp only [Bool.and_eq_true]; simpa [and_assoc] using h1, h2, h3, h4, h5⟩

/-! ## Lemmas: counting bookings -/

theorem lot_of_updated_decrement {lots : List Lot} {id : String} {l1 : Lot}
    (h : l1 ∈ (parkingModel.decrementSlot lots id).2) :
    ∃ l ∈ lots, l1.id = l.id ∧ l1.total_slots = l.total_slots := by
  simp only [parkingModel.decrementSlot, List.mem_map] at h
  obtain ⟨l, hl, rfl⟩ := h
  refine ⟨l, hl, ?_⟩
  by_cases hw : decrementWhere id l = true
  · rw [if_pos hw]; exact ⟨rfl, rfl⟩
  · rw [if_neg hw]; exact ⟨rfl, rfl⟩

theorem lot_of_updated_increment {lots : List Lot} {id : String} {l1 : Lot}
    (h : l1 ∈ (parkingModel.incrementSlot lots id).2) :
    ∃ l ∈ lots, l1.id = l.id ∧ l1.total_slots = l.total_slots := by
  simp only [parkingModel.incrementSlot, List.mem_map] at h
  obtain ⟨l, hl, rfl⟩ := h
  refine ⟨l, hl, ?_⟩
  by_cases hw : incrementWhere id l = true
  · rw [if_pos hw]; exact ⟨rfl, rfl⟩
  · rw [if_neg hw]; exact ⟨rfl, rfl⟩

theorem findById_mem {lots : List Lot} {id : String} {lot : Lot}
    (h : parkingModel.findById lots id = some lot) : lot ∈ lots ∧ lot.id = id := by
  unfold parkingModel.findById at h
  exact ⟨List.mem_of_find?_eq_some h, by simpa using List.find?_some h⟩

theorem lot_unique {lots : List Lot} (hkey : LotKey lots) {l l2 : Lot}
    (h1 : l ∈ lots) (h2 : l2 ∈ lots) (hid : l.id = l2.id) : l = l2 :=
  List.inj_on_of_nodup_map hkey h1 h2 hid

theorem active_le_overlapping (bookings : List Booking) (parkingId : String) (date : Int)
    {st et t : Nat} (h1 : st ≤ t) (h2 : t < et) :
    bookingModel.countActiveAtTime bookings parkingId date t ≤
      bookingModel.findOverlapping bookings parkingId date st et := by
  unfold bookingModel.countActiveAtTime bookingModel.findOverlapping
  rw [← List.countP_eq_length_filter, ← List.countP_eq_length_filter]
  apply List.countP_mono_left
  intro b _ hb
  simp only [activeWhere, Bool.and_eq_true, decide_eq_true_eq] at hb
  simp only [overlapWhere, intervalsOverlap, Bool.and_eq_true, decide_eq_true_eq]
  obtain ⟨⟨⟨⟨ha, hb2⟩, hc⟩, hd⟩, he⟩ := hb
  exact ⟨⟨⟨ha, hb2⟩, hc⟩, by omega, by omega⟩

theorem active_append_one (bookings : List Booking) (row : Booking) (parkingId : String)
    (date : Int) (t : Nat) :
    bookingModel.countActiveAtTime (bookings ++ [row]) parkingId date t =
      bookingModel.countActiveAtTime bookings parkingId date t +
        (if activeWhere parkingId date t row then 1 else 0) := by
  unfold bookingModel.countActiveAtTime
  rw [List.filter_append, List.length_append]
  by_cases hrow : activeWhere parkingId date t row = true
  · simp [List.filter_cons, hrow]
  · simp [List.filter_cons, hrow]

theorem active_after_cancel (now : Int) (bookings : List Booking) (bookingId parkingId : String)
    (date : Int) (t : Nat) :
    bookingModel.countActiveAtTime (bookingModel.cancelBooking now bookings bookingId).2
        parkingId date t ≤
      bookingModel.countActiveAtTime bookings parkingId date t := by
  unfold bookingModel.countActiveAtTime bookingModel.cancelBooking
  rw [← List.countP_eq_length_filter, ← List.countP_eq_length_filter, List.countP_map]
  apply List.countP_mono_left
  intro b _ hb
  by_cases hw : cancelWhere bookingId b = true
  · simp [hw, cancelSet, activeWhere] at hb
  · simpa [hw] using hb

theorem active_le_length (bookings : List Booking) (parkingId : String) (date : Int) (t : Nat) :
    bookingModel.countActiveAtTime bookings parkingId date t ≤ bookings.length := by
  unfold bookingModel.countActiveAtTime
  exact List.length_filter_le _ _

theorem decrementSlot_some_of_mem {lots : List Lot} (id : String) {l : Lot} (hl : l ∈ lots)
    (hw : decrementWhere id l = true) : ∃ u, (parkingModel.decrementSlot lots id).1 = some u := by
  unfold parkingModel.decrementSlot
  simp only [List.head?_map]
  have hmem : l ∈ lots.filter (decrementWhere id) := List.mem_filter.mpr ⟨hl, hw⟩
  cases hf : lots.filter (decrementWhere id) with
  | nil => rw [hf] at hmem; cases hmem
  | cons a as => exact ⟨decrementSet a, rfl⟩

theorem findById_cons (a : Lot) (as : List Lot) (id : String) :
    parkingModel.findById (a :: as) id =
      if a.id = id then some a else parkingModel.findById as id := by
  unfold parkingModel.findById
  by_cases h : a.id = id
  · simp [List.find?_cons, h]
  · simp [List.find?_cons, h]

theorem keyed_filter_head {lots : List Lot} (hkey : LotKey lots) (id : String)
    (c : Lot → Bool) (f : Lot → Lot) :
    ((lots.filter (fun l => decide (l.id = id) && c l)).map f).head? =
      (parkingModel.findById lots id).bind (fun lot => if c lot then some (f lot) else none) := by
  induction lots with
  | nil => rfl
  | cons a as ih =>
    unfold LotKey at hkey
    rw [List.map_cons, List.nodup_cons] at hkey
    rw [findById_cons]
    by_cases ha : a.id = id
    · rw [if_pos ha]
      by_cases hc : c a = true
      · simp [List.filter_cons, ha, hc]
      · have hnone : as.filter (fun l => decide (l.id = id) && c l) = [] := by
          rw [List.filter_eq_nil_iff]
          intro l hl hw
          simp only [Bool.and_eq_true, decide_eq_true_eq] at hw
          exact hkey.1 (List.mem_map.mpr ⟨l, hl, by rw [hw.1, ha]⟩)
        simp [List.filter_cons, ha, hc, hnone]
    · rw [if_neg ha]
      simp only [List.filter_cons, ha, decide_False, Bool.false_and, Bool.false_eq_true, if_false]
      exact ih hkey.2

theorem update_none_table {lots : List Lot} {w : Lot → Bool} {f : Lot → Lot}
    (h : ((lots.filter w).map f).head? = none) :
    lots.map (fun l => if w l then f l else l) = lots := by
  have hnil : lots.filter w = [] := by
    cases hf : lots.filter w with
    | nil => rfl
    | cons a as => rw [hf] at h; simp at h
  rw [List.filter_eq_nil_iff] at hnil
  conv => rhs; rw [← List.map_id lots]
  apply List.map_congr_left
  intro l hl
  simp [hnil l hl]

theorem keyed_update_table {lots : List Lot} (hkey : LotKey lots) {id : String} {lot : Lot}
    (hlot : parkingModel.findById lots id = some lot) {c : Lot → Bool} (hc : c lot = true)
    (f : Lot → Lot) :
    lots.map (fun l => if (decide (l.id = id) && c l) = true then f l else l) =
      lots.map (fun l => if l.id = id then f l else l) := by
  apply List.map_congr_left
  intro l hl
  have hl2 := findById_mem hlot
  by_cases hid : l.id = id
  · have : l = lot := lot_unique hkey hl hl2.1 (by rw [hid, hl2.2])
    subst this
    simp [hid, hc]
  · simp [hid]

theorem update_frame (lots : List Lot) (id : String) (c : Lot → Bool) (f : Lot → Lot)
    (hf : ∀ l, (f l).id = l.id ∧ (f l).total_slots = l.total_slots) :
    List.Forall₂ (fun l l1 => l1.id = l.id ∧ l1.total_slots = l.total_slots ∧ (l.id ≠ id → l1 = l))
      lots (lots.map (fun l => if (decide (l.id = id) && c l) = true then f l else l)) := by
  rw [List.forall₂_map_right_iff]
  apply List.forall₂_same.mpr
  intro l _
  by_cases hid : l.id = id
  · by_cases hc : c l = true
    · simp [hid, hc, hf l]
    · simp [hid, hc]
  · simp [hid]

theorem countRows_eq_filter_length (rows : List Booking) (p : Booking → Bool) :
    countRows rows p = (rows.filter p).length := by
  unfold countRows
  induction rows using List.reverseRecOn with
  | nil => simp
  | append_singleton l a ih =>
    have hcongr : (Finset.range l.length).filter (fun i => rowSatisfies (l ++ [a]) p i = true) =
        (Finset.range l.length).filter (fun i => rowSatisfies l p i = true) := by
      apply Finset.filter_congr
      intro i hi
      have hi2 : i < l.length := Finset.mem_range.mp hi
      simp only [rowSatisfies, List.getElem?_append_left hi2]
    have hlast : rowSatisfies (l ++ [a]) p l.length = p a := by
      simp [rowSatisfies]
    rw [List.length_append, List.length_singleton, Finset.range_succ, Finset.filter_insert,
      hcongr, hlast, List.filter_append, List.length_append]
    by_cases hp : p a = true
    · rw [if_pos hp, Finset.card_insert_of_not_mem (by simp), ih]
      simp [List.filter_cons, hp]
    · rw [if_neg hp, ih]
      simp [List.filter_cons, hp]

theorem overlapWhere_iff (lot : String) (date : Int) (start endTime : Nat) (b : Booking) :
    overlapWhere lot date start endTime b = true ↔ OverlapsWindow lot date start endTime b := by
  simp only [overlapWhere, intervalsOverlap, OverlapsWindow, Bool.and_eq_true,
    decide_eq_true_eq, gt_iff_lt, and_assoc]

theorem findOverlapping_skip (before after : List Booking) (b : Booking) (lot : String)
    (date : Int) (start endTime : Nat) (h : overlapWhere lot date start endTime b = false) :
    bookingModel.findOverlapping (before ++ b :: after) lot date start endTime =
      bookingModel.findOverlapping (before ++ after) lot date start endTime := by
  unfold bookingModel.findOverlapping
  simp [List.filter_append, List.filter_cons, h]

theorem noOversell_storeAB : NoOversell storeAB := by
  intro l hl date t
  have hlen := active_le_length storeAB.bookings l.id date t
  simp only [storeAB, List.mem_cons, List.mem_singleton, List.length_singleton,
    List.not_mem_nil, or_false] at hl hlen
  rcases hl with rfl | rfl
  · simp only [storeAB, lotA] at hlen ⊢
    omega
  · simp only [storeAB, lotB] at hlen ⊢
    omega

/-! ## Main theorems -/

/-- C1 (capacity invariant).  From a store in which every lot has
`0 <= available_slots <= total_slots`, the store after `parkingModel.decrementSlot`,
after `parkingModel.incrementSlot`, after `bookingService.createBooking` and after
`bookingService.cancelBooking` (whatever the call returns or throws) has the same
property. -/
theorem capacity_invariant_preserved (env : Env) (s : Store) (h : CapacityInv s.lots)
    (id : String) (req : BookingRequest) (bookingId userId : Option String) :
    CapacityInv (parkingModel.decrementSlot s.lots id).2 ∧
    CapacityInv (parkingModel.incrementSlot s.lots id).2 ∧
    CapacityInv (bookingService.createBooking env s req).2.lots ∧
    CapacityInv (bookingService.cancelBooking env s bookingId userId).2.lots := by
  refine ⟨capacity_decrement h id, capacity_increment h id, ?_, ?_⟩
  · rcases createBooking_cases env s req with ⟨e, he⟩ | ⟨lot, r, s1, _, _, _, htx, he⟩
    · rw [he]; exact h
    · rw [he]
      obtain ⟨d, st, et, u, _, _, _, _, _, _, _, _, hs1⟩ := createTransaction_ok htx
      rw [hs1]
      exact capacity_decrement h _
  · rcases cancelBooking_cases env s bookingId userId with ⟨e, he⟩ | ⟨b, r, s1, _, _, _, htx, he⟩
    · rw [he]; exact h
    · rw [he]
      obtain ⟨c, _, hs1⟩ := cancelTransaction_ok htx
      rw [hs1]
      by_cases hp : isPast env b = true
      · simpa [hp] using h
      · simpa [hp] using capacity_increment h _

/-- Witness of C1 on the sample store: a booking of the last slot of `lot-A` and a
cancellation that frees a slot of `lot-B`. -/
theorem capacity_invariant_preserved_witness :
    CapacityInv storeAB.lots ∧
    (CapacityInv (parkingModel.decrementSlot storeAB.lots "lot-A").2 ∧
     CapacityInv (parkingModel.incrementSlot storeAB.lots "lot-A").2 ∧
     CapacityInv (bookingService.createBooking envOk storeAB requestA).2.lots ∧
     CapacityInv (bookingService.cancelBooking envOk storeAB (some "bk-1") none).2.lots) :=
  ⟨by decide, capacity_invariant_preserved envOk storeAB (by decide) "lot-A" requestA
    (some "bk-1") none⟩

/-- C2 (no oversell).  If, for every lot, date and instant, the confirmed bookings whose
interval `[start_time, end_time)` contains the instant are at most `total_slots` many,
then the same holds after every `createBooking` and every `cancelBooking`, successful
or not.  Lots are addressed by their key `id`. -/
theorem no_oversell_preserved (env : Env) (s : Store) (hkey : LotKey s.lots)
    (h : NoOversell s) (req : BookingRequest) (bookingId userId : Option String) :
    NoOversell (bookingService.createBooking env s req).2 ∧
    NoOversell (bookingService.cancelBooking env s bookingId userId).2 := by
  constructor
  · rcases createBooking_cases env s req with ⟨e, he⟩ | ⟨lot, r, s1, _, hlot, _, htx, he⟩
    · rw [he]; exact h
    · rw [he]
      obtain ⟨d, st, et, u, _, _, _, hcnt, _, _, _, _, hs1⟩ := createTransaction_ok htx
      rw [hs1]
      have key : ∀ row : Booking, row.parking_id = req.parkingId.getD "" → row.date = d →
          row.start_time = st → row.end_time = et →
          NoOversell { lots := (parkingModel.decrementSlot s.lots (req.parkingId.getD "")).2,
                       bookings := s.bookings ++ [row] } := by
        intro row hrp hrd hrs hre l1 hl1 date t
        obtain ⟨l, hl, hid, htot⟩ := lot_of_updated_decrement hl1
        have h0 := h l hl date t
        rw [hid, htot]
        simp only [active_append_one]
        by_cases hrow : activeWhere l.id date t row = true
        · rw [if_pos hrow]
          simp only [activeWhere, Bool.and_eq_true, decide_eq_true_eq] at hrow
          obtain ⟨⟨⟨⟨hp, hd⟩, _⟩, hst⟩, het⟩ := hrow
          rw [hrp] at hp
          rw [hrd] at hd
          rw [hrs] at hst
          rw [hre] at het
          have hl2 := findById_mem hlot
          have hll : l = lot := lot_unique hkey hl hl2.1 (by rw [hl2.2, hp])
          have hact := active_le_overlapping s.bookings (req.parkingId.getD "") d hst het
          rw [hll] at h0 ⊢
          rw [hl2.2, ← hd]
          push_cast
          omega
        · rw [if_neg hrow]
          simpa using h0
      exact key _ rfl rfl rfl rfl
  · rcases cancelBooking_cases env s bookingId userId with ⟨e, he⟩ | ⟨b, r, s1, _, _, _, htx, he⟩
    · rw [he]; exact h
    · rw [he]
      obtain ⟨c, _, hs1⟩ := cancelTransaction_ok htx
      rw [hs1]
      intro l1 hl1 date t
      have hle := active_after_cancel env.now s.bookings (bookingId.getD "") l1.id date t
      have hl : ∃ l ∈ s.lots, l1.id = l.id ∧ l1.total_slots = l.total_slots := by
        cases hp : isPast env b with
        | true =>
          simp only [hp, Bool.not_true, Bool.false_eq_true, if_false] at hl1
          exact ⟨l1, hl1, rfl, rfl⟩
        | false =>
          simp only [hp, Bool.not_false, if_true] at hl1
          exact lot_of_updated_increment hl1
      obtain ⟨l, hl, hid, htot⟩ := hl
      have h0 := h l hl date t
      rw [← hid, ← htot] at h0
      simp only at hle ⊢
      omega

/-- Witness of C2 on the sample store: a second booking of `lot-B` that overlaps the
first, and the cancellation of the first. -/
theorem no_oversell_preserved_witness :
    LotKey storeAB.lots ∧ NoOversell storeAB ∧
    (NoOversell (bookingService.createBooking envOk storeAB requestB).2 ∧
     NoOversell (bookingService.cancelBooking envOk storeAB (some "bk-1") none).2) :=
  ⟨by decide, noOversell_storeAB,
    no_oversell_preserved envOk storeAB (by decide) noOversell_storeAB requestB
      (some "bk-1") none⟩

/-- C3 (atomic admission failure).  Whenever `createBooking` throws, whatever the error
(a failed check, lot not found, lot full, window fully booked, decrement without a
row, or an insert the table refuses after the decrement), the store after the call is
the store before it. -/
theorem createBooking_error_leaves_store (env : Env) (s : Store) (req : BookingRequest)
    (e : Thrown) (h : (bookingService.createBooking env s req).1 = .error e) :
    (bookingService.createBooking env s req).2 = s := by
  rcases createBooking_cases env s req with ⟨e1, he⟩ | ⟨lot, r, s1, _, _, _, _, he⟩
  · rw [he]
  · rw [he] at h
    cases h

/-- Witness of C3: the table refuses the insert after the slot of `lot-A` has been
decremented inside the transaction; the call throws and the store is as before. -/
theorem createBooking_error_leaves_store_witness :
    (bookingService.createBooking envRefuse storeAB requestA).1 = .error .db ∧
    (bookingService.createBooking envRefuse storeAB requestA).2 = storeAB :=
  ⟨by decide,
    createBooking_error_leaves_store envRefuse storeAB requestA .db (by decide)⟩

/-- C4 as stated fails: the request for `lot-A` dated `2030-13-45` passes the checks on
its fields (`new Date` gives an invalid date, and no comparison with an invalid date is
true), `lot-A` exists with a free slot and no booking of it overlaps anything, yet the
call does not succeed: the store cannot read the date, and the error it raises is
answered with status 500, not 409. -/
theorem unreadable_date_is_no_conflict :
    passesChecks envOk requestNoDay ∧
    parkingModel.findById storeAB.lots "lot-A" = some lotA ∧
    0 < lotA.available_slots ∧
    (∀ (d : Int) (st et : Nat),
      (bookingModel.findOverlapping storeAB.bookings "lot-A" d st et : Int)
        < lotA.total_slots) ∧
    bookingService.createBooking envOk storeAB requestNoDay = (.error .db, storeAB) ∧
    Thrown.status .db = 500 := by
  refine ⟨by decide, by decide, by decide, ?_, by decide, by decide⟩
  intro d st et
  have h : bookingModel.findOverlapping storeAB.bookings "lot-A" d st et = 0 := by
    simp [bookingModel.findOverlapping, overlapWhere, storeAB, bookingB1]
  rw [h]
  decide

/-- C4 as amended.  For a request that passes the checks on its fields (all present,
date not past, start before end, duration neither `<= 0` nor `> 12` hours) and names an
existing lot: `createBooking` succeeds if and only if `available_slots > 0`, the store
reads the date and the times, the count of confirmed bookings of the lot and date that
overlap `[start, end)` is strictly below `total_slots`, and the store accepts the
insert.  With `available_slots <= 0`, or with a count that is not below `total_slots`,
it throws with status 409; with a free slot and a date or time that the store cannot
read, or an insert that the store refuses, it throws the error of the store, answered
with status 500.  Whatever it throws has status 409 or is the error of the store, and
the store is left as it was. -/
theorem admission_condition (env : Env) (s : Store) (req : BookingRequest) (lot : Lot)
    (hv : passesChecks env req)
    (hlot : parkingModel.findById s.lots (req.parkingId.getD "") = some lot) :
    ((∃ r, (bookingService.createBooking env s req).1 = .ok r) ↔
      (0 < lot.available_slots ∧
       ∃ (d : Int) (st et : Nat),
         env.dbDate (req.date.getD "") = some d ∧
         env.dbTime (req.startTime.getD "") = some st ∧
         env.dbTime (req.endTime.getD "") = some et ∧
         (bookingModel.findOverlapping s.bookings (req.parkingId.getD "") d st et : Int)
           < lot.total_slots ∧
         env.insertOk = true)) ∧
    (lot.available_slots ≤ 0 →
      ∃ msg, bookingService.createBooking env s req = (.error (.http 409 msg), s)) ∧
    (∀ (d : Int) (st et : Nat),
      env.dbDate (req.date.getD "") = some d →
      env.dbTime (req.startTime.getD "") = some st →
      env.dbTime (req.endTime.getD "") = some et →
      (bookingModel.findOverlapping s.bookings (req.parkingId.getD "") d st et : Int)
        ≥ lot.total_slots →
      ∃ msg, bookingService.createBooking env s req = (.error (.http 409 msg), s)) ∧
    (0 < lot.available_slots →
      (env.dbDate (req.date.getD "") = none ∨ env.dbTime (req.startTime.getD "") = none ∨
        env.dbTime (req.endTime.getD "") = none) →
      bookingService.createBooking env s req = (.error .db, s)) ∧
    (0 < lot.available_slots →
      ∀ (d : Int) (st et : Nat),
        env.dbDate (req.date.getD "") = some d →
        env.dbTime (req.startTime.getD "") = some st →
        env.dbTime (req.endTime.getD "") = some et →
        (bookingModel.findOverlapping s.bookings (req.parkingId.getD "") d st et : Int)
          < lot.total_slots →
        env.insertOk = false →
        bookingService.createBooking env s req = (.error .db, s)) ∧
    (∀ e, (bookingService.createBooking env s req).1 = .error e →
      (bookingService.createBooking env s req).2 = s ∧
      (e.status = 409 ∨ (e = .db ∧ e.status = 500))) := by
  have hl2 := findById_mem hlot
  have hdecr : 0 < lot.available_slots →
      ∃ u lots1, parkingModel.decrementSlot s.lots (req.parkingId.getD "") = (some u, lots1) := by
    intro hav
    obtain ⟨u, hu⟩ := decrementSlot_some_of_mem (req.parkingId.getD "") hl2.1
      (by simp only [decrementWhere, Bool.and_eq_true, decide_eq_true_eq]
          exact ⟨hl2.2, hav⟩)
    rcases hdec : parkingModel.decrementSlot s.lots (req.parkingId.getD "") with ⟨u1, lots1⟩
    rw [hdec] at hu
    simp only at hu
    subst hu
    exact ⟨u, lots1, rfl⟩
  rw [createBooking_of_checks hv hlot]
  by_cases ha : lot.available_slots ≤ 0
  · rw [if_pos ha]
    refine ⟨⟨fun ⟨r, hr⟩ => (by cases hr), fun ⟨h1, _⟩ => (by omega)⟩, fun _ => ⟨_, rfl⟩,
      fun _ _ _ _ _ _ _ => ⟨_, rfl⟩, fun h => (by omega), fun h => (by omega), ?_⟩
    intro e he
    simp only [Except.error.injEq] at he
    subst he
    exact ⟨(by trivial), Or.inl (by trivial)⟩
  · rw [if_neg ha]
    have hav : 0 < lot.available_slots := by omega
    obtain ⟨u, lots1, hdec⟩ := hdecr hav
    unfold createTransaction
    cases hd : env.dbDate (req.date.getD "") with
    | none =>
      simp only [hd]
      refine ⟨⟨fun ⟨r, hr⟩ => (by cases hr), fun ⟨_, d, st, et, h1, _⟩ => (by cases h1)⟩,
        fun h => (by omega), fun d st et h1 => (by cases h1), fun _ _ => (by trivial),
        fun _ d st et h1 => (by cases h1), ?_⟩
      intro e he
      simp only [Except.error.injEq] at he
      subst he
      exact ⟨(by trivial), Or.inr ⟨(by trivial), (by trivial)⟩⟩
    | some d =>
      cases hst : env.dbTime (req.startTime.getD "") with
      | none =>
        simp only [hd, hst]
        refine ⟨⟨fun ⟨r, hr⟩ => (by cases hr), fun ⟨_, d, st, et, _, h1, _⟩ => (by cases h1)⟩,
          fun h => (by omega), fun d st et _ h1 => (by cases h1), fun _ _ => (by trivial),
          fun _ d st et _ h1 => (by cases h1), ?_⟩
        intro e he
        simp only [Except.error.injEq] at he
        subst he
        exact ⟨(by trivial), Or.inr ⟨(by trivial), (by trivial)⟩⟩
      | some st =>
        cases het : env.dbTime (req.endTime.getD "") with
        | none =>
          simp only [hd, hst, het]
          refine ⟨⟨fun ⟨r, hr⟩ => (by cases hr),
              fun ⟨_, d, st, et, _, _, h1, _⟩ => (by cases h1)⟩,
            fun h => (by omega), fun d st et _ _ h1 => (by cases h1), fun _ _ => (by trivial),
            fun _ d st et _ _ h1 => (by cases h1), ?_⟩
          intro e he
          simp only [Except.error.injEq] at he
          subst he
          exact ⟨(by trivial), Or.inr ⟨(by trivial), (by trivial)⟩⟩
        | some et =>
          simp only [hd, hst, het]
          by_cases hc : (bookingModel.findOverlapping s.bookings (req.parkingId.getD "")
              d st et : Int) ≥ lot.total_slots
          · rw [if_pos hc]
            refine ⟨⟨fun ⟨r, hr⟩ => (by cases hr), ?_⟩, fun h => (by omega), ?_, ?_, ?_, ?_⟩
            · rintro ⟨_, d1, st1, et1, h1, h2, h3, h4, _⟩
              cases h1; cases h2; cases h3
              omega
            · intro d1 st1 et1 h1 h2 h3 _
              exact ⟨_, rfl⟩
            · rintro _ (h1 | h1 | h1) <;> cases h1
            · intro _ d1 st1 et1 h1 h2 h3 h4 _
              cases h1; cases h2; cases h3
              omega
            · intro e he
              simp only [Except.error.injEq] at he
              subst he
              exact ⟨(by trivial), Or.inl (by trivial)⟩
          · rw [if_neg hc, hdec]
            simp only [bookingModel.create]
            cases hins : env.insertOk with
            | false =>
              simp only [Bool.false_eq_true, if_false]
              refine ⟨⟨fun ⟨r, hr⟩ => (by cases hr), ?_⟩, fun h => (by omega), ?_, ?_, ?_, ?_⟩
              · rintro ⟨_, d1, st1, et1, _, _, _, _, h5⟩
                cases h5
              · intro d1 st1 et1 h1 h2 h3 h4
                cases h1; cases h2; cases h3
                omega
              · rintro _ (h1 | h1 | h1) <;> cases h1
              · intro _ _ _ _ _ _ _ _ _
                trivial
              · intro e he
                simp only [Except.error.injEq] at he
                subst he
                exact ⟨(by trivial), Or.inr ⟨(by trivial), (by trivial)⟩⟩
            | true =>
              simp only [if_true]
              refine ⟨⟨fun _ => ⟨hav, d, st, et, rfl, rfl, rfl, by omega, (by trivial)⟩,
                  fun _ => (by simp)⟩, fun h => (by omega), ?_, ?_, ?_, ?_⟩
              · intro d1 st1 et1 h1 h2 h3 h4
                cases h1; cases h2; cases h3
                omega
              · rintro _ (h1 | h1 | h1) <;> cases h1
              · intro _ _ _ _ _ _ _ _ h5
                cases h5
              · intro e he
                cases he

/-- Witness of C4 as amended on the sample store: `lot-B` has a free slot and one
overlapping booking out of three slots, the store reads the date and the times and
accepts the insert, so the request is admitted. -/
theorem admission_condition_witness :
    passesChecks envOk requestB ∧
    parkingModel.findById storeAB.lots "lot-B" = some lotB ∧
    (bookingModel.findOverlapping storeAB.bookings "lot-B" 21915 36000 43200 : Int) = 1 ∧
    (∃ r, (bookingService.createBooking envOk storeAB requestB).1 = .ok r) :=
  ⟨by decide, by decide, by decide,
    (admission_condition envOk storeAB requestB lotB (by decide) (by decide)).1.mpr
      ⟨by decide, 21915, 36000, 43200, by decide, by decide, by decide, by decide,
        by decide⟩⟩

/-- C5 (lock-step effect of a successful admission).  When `createBooking` succeeds for
lot `L` (lots keyed by `id`), the store after the call is the store before it with
exactly two changes: the row of `L` has `available_slots` smaller by one, and one
booking row has been appended, with status `confirmed`, `parking_id = L` and the user,
date, start and end of the request (as the store reads them).  `total_slots` of `L`,
every other lot and every earlier booking row are as before. -/
theorem successful_admission_effect (env : Env) (s : Store) (req : BookingRequest)
    (r : CreatedBooking) (hkey : LotKey s.lots)
    (h : (bookingService.createBooking env s req).1 = .ok r) :
    ∃ (L : String) (lot : Lot) (row : Booking),
      req.parkingId = some L ∧ lot ∈ s.lots ∧ lot.id = L ∧
      (bookingService.createBooking env s req).2.lots =
        s.lots.map (fun l =>
          if l.id = L then { l with available_slots := l.available_slots - 1 } else l) ∧
      (bookingService.createBooking env s req).2.bookings = s.bookings ++ [row] ∧
      row.status = "confirmed" ∧ row.parking_id = L ∧
      req.userId = some row.user_id ∧
      req.date.bind env.dbDate = some row.date ∧
      req.startTime.bind env.dbTime = some row.start_time ∧
      req.endTime.bind env.dbTime = some row.end_time := by
  rcases createBooking_cases env s req with ⟨e, he⟩ | ⟨lot, r1, s1, hv, hlot, hav, htx, he⟩
  · rw [he] at h
    cases h
  · rw [he]
    obtain ⟨d, st, et, u, hd, hst, het, _, _, _, _, _, hs1⟩ := createTransaction_ok htx
    have hl2 := findById_mem hlot
    obtain ⟨hf, _⟩ := hv
    simp only [Bool.and_eq_true] at hf
    obtain ⟨⟨⟨⟨hf1, hf2⟩, hf3⟩, hf4⟩, hf5⟩ := hf
    have some_getD : ∀ v : Option String, truthy v = true → v = some (v.getD "") := by
      intro v hv
      cases v with
      | none => simp [truthy] at hv
      | some x => rfl
    subst hs1
    refine ⟨req.parkingId.getD "", lot, _, some_getD _ hf1, hl2.1, hl2.2, ?_, rfl,
      rfl, rfl, some_getD _ hf2, ?_, ?_, ?_⟩
    · exact keyed_update_table hkey hlot (c := fun l => decide (l.available_slots > 0))
        (by simpa using hav) decrementSet
    · rw [some_getD _ hf3]
      exact hd
    · rw [some_getD _ hf4]
      exact hst
    · rw [some_getD _ hf5]
      exact het

/-- Witness of C5 on the sample store: the request for `lot-A` is admitted. -/
theorem successful_admission_effect_witness :
    LotKey storeAB.lots ∧
    ∃ (L : String) (lot : Lot) (row : Booking),
      requestA.parkingId = some L ∧ lot ∈ storeAB.lots ∧ lot.id = L ∧
      (bookingService.createBooking envOk storeAB requestA).2.lots =
        storeAB.lots.map (fun l =>
          if l.id = L then { l with available_slots := l.available_slots - 1 } else l) ∧
      (bookingService.createBooking envOk storeAB requestA).2.bookings =
        storeAB.bookings ++ [row] ∧
      row.status = "confirmed" ∧ row.parking_id = L ∧
      requestA.userId = some row.user_id ∧
      requestA.date.bind envOk.dbDate = some row.date ∧
      requestA.startTime.bind envOk.dbTime = some row.start_time ∧
      requestA.endTime.bind envOk.dbTime = some row.end_time :=
  ⟨by decide,
    successful_admission_effect envOk storeAB requestA
      { id := "bk-2", parkingId := "lot-A", userId := "user-2",
        vehicleNumber := some "KA01AB1234", date := 21915, startTime := 32400,
        endTime := 39600, durationHours := JsNum.ofInt 2, totalCost := JsNum.ofInt 100,
        pricePerHour := 5000, status := "confirmed", createdAt := 1893412800000,
        availableSlots := 0, totalSlots := 1 }
      (by decide) (by decide)⟩

/-- C6 (`parkingModel.decrementSlot`).  With lots keyed by `id`: the call returns a row
`u` exactly when a lot with that id exists and its `available_slots` was `> 0`, and `u`
is then that lot with `available_slots` one less, which is also what the table holds
afterwards; otherwise the call returns `null` and the table is unchanged.  In both
cases every row keeps its `id` and `total_slots`, and the rows of other lots are
untouched. -/
theorem decrementSlot_contract (lots : List Lot) (id : String) (hkey : LotKey lots) :
    (∀ u, (parkingModel.decrementSlot lots id).1 = some u ↔
      ∃ lot, parkingModel.findById lots id = some lot ∧ 0 < lot.available_slots ∧
        u = { lot with available_slots := lot.available_slots - 1 }) ∧
    ((parkingModel.decrementSlot lots id).1 ≠ none →
      (parkingModel.decrementSlot lots id).2 = lots.map (fun l =>
        if l.id = id then { l with available_slots := l.available_slots - 1 } else l)) ∧
    ((parkingModel.decrementSlot lots id).1 = none →
      (parkingModel.decrementSlot lots id).2 = lots) ∧
    List.Forall₂
      (fun l l1 => l1.id = l.id ∧ l1.total_slots = l.total_slots ∧ (l.id ≠ id → l1 = l))
      lots (parkingModel.decrementSlot lots id).2 := by
  have hhead : (parkingModel.decrementSlot lots id).1 =
      (parkingModel.findById lots id).bind
        (fun lot => if decide (lot.available_slots > 0) then some (decrementSet lot) else none) :=
    keyed_filter_head hkey id (fun l => decide (l.available_slots > 0)) decrementSet
  refine ⟨?_, ?_, ?_, ?_⟩
  · intro u
    rw [hhead]
    cases hlot : parkingModel.findById lots id with
    | none => simp
    | some lot =>
      by_cases hav : 0 < lot.available_slots
      · simp only [Option.some_bind, decide_eq_true_eq, gt_iff_lt, hav, if_true,
          Option.some.injEq]
        constructor
        · intro hu
          exact ⟨lot, rfl, hav, hu.symm⟩
        · rintro ⟨lot1, h1, _, h3⟩
          rw [h3, ← h1]
          rfl
      · simp only [Option.some_bind, decide_eq_true_eq, gt_iff_lt, hav, if_false]
        constructor
        · intro hu
          cases hu
        · rintro ⟨lot1, h1, h2, _⟩
          simp only [Option.some.injEq] at h1
          subst h1
          exact absurd h2 hav
  · intro hne
    rw [hhead] at hne
    cases hlot : parkingModel.findById lots id with
    | none => rw [hlot] at hne; simp at hne
    | some lot =>
      rw [hlot] at hne
      by_cases hav : 0 < lot.available_slots
      · exact keyed_update_table hkey hlot (c := fun l => decide (l.available_slots > 0))
          (by simpa using hav) decrementSet
      · simp [hav] at hne
  · intro hnone
    exact update_none_table hnone
  · exact update_frame lots id (fun l => decide (l.available_slots > 0)) decrementSet
      (fun l => ⟨rfl, rfl⟩)

/-- Witness of C6 on the sample lots: the last slot of `lot-A` is taken. -/
theorem decrementSlot_contract_witness :
    LotKey storeAB.lots ∧
    parkingModel.decrementSlot storeAB.lots "lot-A" =
      (some { lotA with available_slots := 0 }, [{ lotA with available_slots := 0 }, lotB]) ∧
    ((parkingModel.decrementSlot storeAB.lots "lot-A").1 ≠ none →
      (parkingModel.decrementSlot storeAB.lots "lot-A").2 = storeAB.lots.map (fun l =>
        if l.id = "lot-A" then { l with available_slots := l.available_slots - 1 } else l)) :=
  ⟨by decide, by decide, (decrementSlot_contract storeAB.lots "lot-A" (by decide)).2.1⟩

/-- C7 (`parkingModel.incrementSlot`).  With lots keyed by `id`: the call returns a row
`u` exactly when a lot with that id exists and its `available_slots` was strictly below
its `total_slots`, and `u` is then that lot with `available_slots` one more, which is
also what the table holds afterwards; otherwise the call returns `null` and the table
is unchanged. -/
theorem incrementSlot_contract (lots : List Lot) (id : String) (hkey : LotKey lots) :
    (∀ u, (parkingModel.incrementSlot lots id).1 = some u ↔
      ∃ lot, parkingModel.findById lots id = some lot ∧
        lot.available_slots < lot.total_slots ∧
        u = { lot with available_slots := lot.available_slots + 1 }) ∧
    ((parkingModel.incrementSlot lots id).1 ≠ none →
      (parkingModel.incrementSlot lots id).2 = lots.map (fun l =>
        if l.id = id then { l with available_slots := l.available_slots + 1 } else l)) ∧
    ((parkingModel.incrementSlot lots id).1 = none →
      (parkingModel.incrementSlot lots id).2 = lots) := by
  have hhead : (parkingModel.incrementSlot lots id).1 =
      (parkingModel.findById lots id).bind
        (fun lot => if decide (lot.available_slots < lot.total_slots)
          then some (incrementSet lot) else none) :=
    keyed_filter_head hkey id (fun l => decide (l.available_slots < l.total_slots)) incrementSet
  refine ⟨?_, ?_, ?_⟩
  · intro u
    rw [hhead]
    cases hlot : parkingModel.findById lots id with
    | none => simp
    | some lot =>
      by_cases hav : lot.available_slots < lot.total_slots
      · simp only [Option.some_bind, decide_eq_true_eq, hav, if_true, Option.some.injEq]
        constructor
        · intro hu
          exact ⟨lot, rfl, hav, hu.symm⟩
        · rintro ⟨lot1, h1, _, h3⟩
          rw [h3, ← h1]
          rfl
      · simp only [Option.some_bind, decide_eq_true_eq, hav, if_false]
        constructor
        · intro hu
          cases hu
        · rintro ⟨lot1, h1, h2, _⟩
          simp only [Option.some.injEq] at h1
          subst h1
          exact absurd h2 hav
  · intro hne
    rw [hhead] at hne
    cases hlot : parkingModel.findById lots id with
    | none => rw [hlot] at hne; simp at hne
    | some lot =>
      rw [hlot] at hne
      by_cases hav : lot.available_slots < lot.total_slots
      · exact keyed_update_table hkey hlot
          (c := fun l => decide (l.available_slots < l.total_slots))
          (by simpa using hav) incrementSet
      · simp [hav] at hne
  · intro hnone
    exact update_none_table hnone

/-- Witness of C7 on the sample lots: `lot-B` regains a slot, `lot-A` is already at its
total and the call for it returns `null`. -/
theorem incrementSlot_contract_witness :
    LotKey storeAB.lots ∧
    parkingModel.incrementSlot storeAB.lots "lot-B" =
      (some { lotB with available_slots := 3 }, [lotA, { lotB with available_slots := 3 }]) ∧
    parkingModel.incrementSlot storeAB.lots "lot-A" = (none, storeAB.lots) ∧
    ((parkingModel.incrementSlot storeAB.lots "lot-A").1 = none →
      (parkingModel.incrementSlot storeAB.lots "lot-A").2 = storeAB.lots) :=
  ⟨by decide, by decide, by decide, (incrementSlot_contract storeAB.lots "lot-A" (by decide)).2.2⟩

/-- C8 (`bookingModel.findOverlapping`).  The result is the number of rows `b` of the
table with `b.parking_id = lot`, `b.date = date`, `b.status = 'confirmed'`,
`b.start_time < end` and `start < b.end_time`; and a row that is not confirmed
(cancelled, completed), or of another lot, or of another date, wherever it stands in
the table, adds nothing to the result. -/
theorem findOverlapping_counts (bookings : List Booking) (lot : String) (date : Int)
    (start endTime : Nat) :
    bookingModel.findOverlapping bookings lot date start endTime =
      countRows bookings (fun b => decide (OverlapsWindow lot date start endTime b)) ∧
    ∀ (before after : List Booking) (b : Booking),
      (b.status ≠ "confirmed" ∨ b.parking_id ≠ lot ∨ b.date ≠ date) →
      bookingModel.findOverlapping (before ++ b :: after) lot date start endTime =
        bookingModel.findOverlapping (before ++ after) lot date start endTime := by
  constructor
  · rw [countRows_eq_filter_length]
    unfold bookingModel.findOverlapping
    congr 1
    apply List.filter_congr
    intro b _
    rw [Bool.eq_iff_iff, overlapWhere_iff]
    simp
  · intro before after b hb
    apply findOverlapping_skip
    rw [← Bool.not_eq_true, overlapWhere_iff]
    rintro ⟨h1, h2, h3, _⟩
    rcases hb with hb | hb | hb
    · exact hb h3
    · exact hb h1
    · exact hb h2

/-- Witness of C8: for the window 10:00 to 12:00 at `lot-B` on 2030-01-01 a table of four
rows counts one (the confirmed `bk-1`), and the cancelled row `bk-0` in second position
adds nothing. -/
theorem findOverlapping_counts_witness :
    bookingModel.findOverlapping [bookingB1, bookingB2, bookingA1, bookingB3]
      "lot-B" 21915 36000 43200 = 1 ∧
    countRows [bookingB1, bookingB2, bookingA1, bookingB3]
      (fun b => decide (OverlapsWindow "lot-B" 21915 36000 43200 b)) = 1 ∧
    bookingModel.findOverlapping ([bookingB1] ++ bookingB2 :: [bookingA1, bookingB3])
        "lot-B" 21915 36000 43200 =
      bookingModel.findOverlapping ([bookingB1] ++ [bookingA1, bookingB3])
        "lot-B" 21915 36000 43200 :=
  ⟨by decide, by decide,
    (findOverlapping_counts [bookingB1, bookingB2, bookingA1, bookingB3] "lot-B" 21915
      36000 43200).2 [bookingB1] [bookingA1, bookingB3] bookingB2 (Or.inl (by decide))⟩

/-- C9 (back-to-back windows).  A booking `[s1, e1)` is not counted by `findOverlapping`
for a window `[s2, e2)` with `e1 <= s2` or `e2 <= s1`, wherever it stands in the table
and whatever its lot, date and status.  The booking 09:00 to 11:00 is not counted for
the window 11:00 to 13:00 and is counted for the window 10:00 to 12:00. -/
theorem back_to_back_not_counted :
    (∀ (before after : List Booking) (b : Booking) (lot : String) (date : Int) (s2 e2 : Nat),
      (b.end_time ≤ s2 ∨ e2 ≤ b.start_time) →
      bookingModel.findOverlapping (before ++ b :: after) lot date s2 e2 =
        bookingModel.findOverlapping (before ++ after) lot date s2 e2) ∧
    (clockSeconds "09:00" = some bookingB1.start_time ∧
     clockSeconds "11:00" = some bookingB1.end_time ∧
     clockSeconds "10:00" = some 36000 ∧ clockSeconds "12:00" = some 43200 ∧
     clockSeconds "13:00" = some 46800 ∧
     bookingB1.status = "confirmed" ∧
     bookingModel.findOverlapping [bookingB1] bookingB1.parking_id bookingB1.date
       39600 46800 = 0 ∧
     bookingModel.findOverlapping [bookingB1] bookingB1.parking_id bookingB1.date
       36000 43200 = 1) := by
  constructor
  · intro before after b lot date s2 e2 hb
    apply findOverlapping_skip
    rw [← Bool.not_eq_true, overlapWhere_iff]
    rintro ⟨_, _, _, h4, h5⟩
    omega
  · decide

/-- Witness of C9: a booking 09:00 to 11:00 among two others leaves the count for the
window 11:00 to 13:00 as it is without it. -/
theorem back_to_back_not_counted_witness :
    bookingB1.end_time ≤ 39600 ∧
    bookingModel.findOverlapping ([bookingB3] ++ bookingB1 :: [bookingA1]) "lot-B" 21915
        39600 46800 =
      bookingModel.findOverlapping ([bookingB3] ++ [bookingA1]) "lot-B" 21915 39600 46800 :=
  ⟨by decide,
    back_to_back_not_counted.1 [bookingB3] [bookingA1] bookingB1 "lot-B" 21915 39600 46800
      (Or.inl (by decide))⟩

/-- C10 (overlap is sharing an instant).  For non-empty half-open intervals `[s1, e1)`
and `[s2, e2)` the predicate of `findOverlapping`, `s1 < e2 AND e1 > s2`, holds if and
only if some instant `t` has `s1 <= t < e1` and `s2 <= t < e2`. -/
theorem overlap_iff_common_instant (s1 e1 s2 e2 : Nat) (h1 : s1 < e1) (h2 : s2 < e2) :
    intervalsOverlap s1 e1 s2 e2 = true ↔ ∃ t, (s1 ≤ t ∧ t < e1) ∧ (s2 ≤ t ∧ t < e2) := by
  simp only [intervalsOverlap, Bool.and_eq_true, decide_eq_true_eq]
  constructor
  · rintro ⟨ha, hb⟩
    refine ⟨max s1 s2, ⟨le_max_left _ _, ?_⟩, ⟨le_max_right _ _, ?_⟩⟩
    · exact max_lt h1 hb
    · exact max_lt ha h2
  · rintro ⟨t, ⟨ha, hb⟩, ⟨hc, hd⟩⟩
    omega

/-- Witness of C10: 09:00 to 11:00 and 10:00 to 12:00 share the instant 10:00. -/
theorem overlap_iff_common_instant_witness :
    intervalsOverlap 32400 39600 36000 43200 = true ∧
    ∃ t, (32400 ≤ t ∧ t < 39600) ∧ (36000 ≤ t ∧ t < 43200) :=
  ⟨by decide,
    (overlap_iff_common_instant 32400 39600 36000 43200 (by decide) (by decide)).mp (by decide)⟩

/-! ## Lemmas: the order of the checks -/

theorem createBooking_first_failure (env : Env) (s : Store) (req : BookingRequest)
    (e : Thrown) (h : firstFailure (admissionChecks env s req) = some e) :
    bookingService.createBooking env s req = (.error e, s) := by
  unfold firstFailure admissionChecks at h
  unfold bookingService.createBooking
  by_cases h1 : (truthy req.parkingId && truthy req.userId && truthy req.date &&
      truthy req.startTime && truthy req.endTime) = true
  · by_cases h2 : dateLt (env.jsDate (req.date.getD "")) (localMidnight env) = true
    · simp only [List.find?_cons, h1, h2, Bool.not_true, Bool.not_false,
        Bool.false_eq_true, if_false, if_true, Option.map_some'] at h ⊢
      cases h
      rfl
    · by_cases h3 : jsStrGe (req.startTime.getD "") (req.endTime.getD "") = true
      · simp only [List.find?_cons, h1, h2, h3, Bool.not_true, Bool.not_false,
          Bool.false_eq_true, if_false, if_true, Option.map_some'] at h ⊢
        cases h
        rfl
      · by_cases h4 : ((durationHours (req.startTime.getD "") (req.endTime.getD "")).le (.fin 0)) = true
        · simp only [List.find?_cons, h1, h2, h3, h4, Bool.not_true, Bool.not_false,
            Bool.false_eq_true, if_false, if_true, Option.map_some'] at h ⊢
          cases h
          rfl
        · by_cases h5 : ((JsNum.ofInt 12).lt (durationHours (req.startTime.getD "") (req.endTime.getD ""))) = true
          · simp only [List.find?_cons, h1, h2, h3, h4, h5, Bool.not_true, Bool.not_false,
              Bool.false_eq_true, if_false, if_true, Option.map_some'] at h ⊢
            cases h
            rfl
          · cases hlot : parkingModel.findById s.lots (req.parkingId.getD "") with
            | none =>
              simp only [List.find?_cons, h1, h2, h3, h4, h5, hlot, Bool.not_true, Bool.not_false,
                Bool.false_eq_true, if_false, if_true, Option.map_some', Option.isSome_none]
                at h ⊢
              cases h
              rfl
            | some lot =>
              by_cases h6 : lot.available_slots ≤ 0
              · have h6b : decide (lot.available_slots > 0) = false := by
                  simp only [decide_eq_false_iff_not]; omega
                simp only [List.find?_cons, h1, h2, h3, h4, h5, hlot, h6, h6b, Bool.not_true,
                  Bool.not_false, Bool.false_eq_true, if_false, if_true, Option.map_some',
                  Option.isSome_some] at h ⊢
                cases h
                rfl
              · have h6b : decide (lot.available_slots > 0) = true := by
                  simp only [decide_eq_true_eq]; omega
                simp [List.find?_cons, h1, h2, h3, h4, h5, hlot, h6b] at h
  · simp only [List.find?_cons, h1, Bool.not_true, Bool.not_false,
      Bool.false_eq_true, if_false, if_true, Option.map_some'] at h ⊢
    cases h
    rfl

theorem firstFailure_none (env : Env) (s : Store) (req : BookingRequest)
    (h : firstFailure (admissionChecks env s req) = none) :
    passesChecks env req ∧
    ∃ lot, parkingModel.findById s.lots (req.parkingId.getD "") = some lot ∧
      0 < lot.available_slots := by
  unfold firstFailure admissionChecks at h
  simp only [Option.map_eq_none', List.find?_eq_none, List.mem_cons, List.mem_singleton,
    List.not_mem_nil, or_false, Bool.not_eq_true', forall_eq_or_imp, forall_eq,
    Bool.not_eq_false, Bool.not_eq_true, Bool.not_eq_false'] at h
  obtain ⟨h1, h2, h3, h4, h5, h6, h7⟩ := h
  refine ⟨⟨h1, h2, h3, h4, h5⟩, ?_⟩
  cases hlot : parkingModel.findById s.lots (req.parkingId.getD "") with
  | none => rw [hlot] at h6; simp at h6
  | some lot =>
    rw [hlot] at h7
    exact ⟨lot, rfl, by simpa using h7⟩

theorem firstFailure_cons (c : Bool × Thrown) (cs : List (Bool × Thrown)) :
    firstFailure (c :: cs) = if c.1 = true then firstFailure cs else some c.2 := by
  unfold firstFailure
  cases h : c.1 <;> simp [List.find?_cons, h]

/-- C11 (validation order of `createBooking`).  The error thrown is the error of the
first failing check in the order (1) required fields, (2) date not past, (3) start
before end, (4) duration, (5) lot exists, (6) `available_slots > 0`, and the store is
left as it was; when no check fails the call reaches the transaction with an existing
lot that has a free slot.  So a request with fields present, a date not past and a time
range in the wrong order throws the 400 of check (3) whether or not the lot exists, and
a request for a lot that does not exist throws with status 400 or 404, never 409. -/
theorem validation_order (env : Env) (s : Store) (req : BookingRequest) :
    (∀ e, firstFailure (admissionChecks env s req) = some e →
      bookingService.createBooking env s req = (.error e, s)) ∧
    (firstFailure (admissionChecks env s req) = none →
      passesChecks env req ∧
      ∃ lot, parkingModel.findById s.lots (req.parkingId.getD "") = some lot ∧
        0 < lot.available_slots) ∧
    ((truthy req.parkingId && truthy req.userId && truthy req.date &&
        truthy req.startTime && truthy req.endTime) = true →
      dateLt (env.jsDate (req.date.getD "")) (localMidnight env) = false →
      jsStrGe (req.startTime.getD "") (req.endTime.getD "") = true →
      bookingService.createBooking env s req =
        (.error (.http 400 "Start time must be before end time"), s)) ∧
    (parkingModel.findById s.lots (req.parkingId.getD "") = none →
      ∃ e, bookingService.createBooking env s req = (.error e, s) ∧
        (e.status = 400 ∨ e.status = 404)) := by
  refine ⟨fun e he => createBooking_first_failure env s req e he,
    fun h => firstFailure_none env s req h, ?_, ?_⟩
  · intro h1 h2 h3
    apply createBooking_first_failure
    unfold admissionChecks
    simp only [firstFailure_cons, h1, h2, h3, Bool.not_false, Bool.not_true, if_true,
      Bool.false_eq_true, if_false]
  · intro hlot
    cases hff : firstFailure (admissionChecks env s req) with
    | none =>
      obtain ⟨_, lot, hl, _⟩ := firstFailure_none env s req hff
      rw [hlot] at hl
      cases hl
    | some e =>
      refine ⟨e, createBooking_first_failure env s req e hff, ?_⟩
      unfold admissionChecks at hff
      simp only [firstFailure_cons, hlot, Option.isSome_none, Bool.false_eq_true, if_false]
        at hff
      split_ifs at hff <;> cases hff <;> simp [Thrown.status]

/-- Witness of C11 on the sample store: a time range in the wrong order for a lot that
does not exist is answered with the 400 of the time check, and a request in order for
that lot with 404. -/
theorem validation_order_witness :
    parkingModel.findById storeAB.lots "lot-Z" = none ∧
    bookingService.createBooking envOk storeAB requestBadRange =
      (.error (.http 400 "Start time must be before end time"), storeAB) ∧
    bookingService.createBooking envOk storeAB requestNoLot =
      (.error (.http 404 "Parking lot not found"), storeAB) :=
  ⟨by decide,
    (validation_order envOk storeAB requestBadRange).2.2.1 (by decide) (by decide) (by decide),
    (validation_order envOk storeAB requestNoLot).1 _ (by decide)⟩

/-- C12 (start-before-end check), evaluation at the failing input.  With all fields
present and a date that is not past, the start `9:00` and the end `10:00` (the start is
one hour earlier than the end, as the source's own `split(':').map(Number)` reads
them) are rejected at the time-order check with status 400, because `startTime >=
endTime` compares the two texts character by character; written `09:00` and `10:00`
the same request is admitted. -/
theorem time_order_check_unpadded :
    passesChecks envOk requestPadded ∧
    durationHours "9:00" "10:00" = JsNum.ofInt 1 ∧
    jsStrGe "9:00" "10:00" = true ∧
    bookingService.createBooking envOk storeAB requestUnpadded =
      (.error (.http 400 "Start time must be before end time"), storeAB) ∧
    (∃ r, (bookingService.createBooking envOk storeAB requestPadded).1 = .ok r) := by
  refine ⟨by decide, by decide, by decide, by decide, ?_⟩
  exact ⟨_, rfl⟩

/-- C14 (past-date check), evaluation at the failing input.  On a server five hours
west of UTC at local noon of 2030-01-01, a request dated 2030-01-01 (today on the clock
of the server) is rejected with `Cannot book for a past date`: `new Date(date)` is
midnight UTC of the date, `today` is midnight on the clock of the server, five hours
later.  On a server at UTC at the same instant the same request passes the check. -/
theorem past_date_check_west :
    requestB.date = some "2030-01-01" ∧
    isoDay "2030-01-01" = some (localToday envWest) ∧
    bookingService.createBooking envWest storeAB requestB =
      (.error (.http 400 "Cannot book for a past date"), storeAB) ∧
    isoDay "2030-01-01" = some (localToday envUtc) ∧
    passesChecks envUtc requestB := by
  decide

/-! ## Lemmas: errors of the transaction and the duration checks -/

theorem createTransaction_error {env : Env} {s : Store} {lot : Lot} {parkingId userId : String}
    {vehicleNumber : Option String} {date startTime endTime : String}
    {duration cost : JsNum} {e : Thrown}
    (h : createTransaction env s lot parkingId userId vehicleNumber date startTime endTime
      duration cost = .error e) :
    e = .db ∨ ∃ msg, e = .http 409 msg := by
  unfold createTransaction at h
  split at h
  · simp only at h
    split at h
    · cases h
      exact Or.inr ⟨_, rfl⟩
    · split at h
      · cases h
        exact Or.inr ⟨_, rfl⟩
      · split at h
        · cases h
          exact Or.inl rfl
        · cases h
  · cases h
    exact Or.inl rfl

theorem createBooking_error_kinds (env : Env) (s : Store) (req : BookingRequest) (e : Thrown)
    (h : (bookingService.createBooking env s req).1 = .error e) :
    firstFailure (admissionChecks env s req) = some e ∨
    (firstFailure (admissionChecks env s req) = none ∧ (e = .db ∨ ∃ msg, e = .http 409 msg)) := by
  cases hff : firstFailure (admissionChecks env s req) with
  | some e1 =>
    rw [createBooking_first_failure env s req e1 hff] at h
    simp only [Except.error.injEq] at h
    exact Or.inl (by rw [h])
  | none =>
    obtain ⟨hv, lot, hlot, hav⟩ := firstFailure_none env s req hff
    rw [createBooking_of_checks hv hlot, if_neg (by omega)] at h
    refine Or.inr ⟨rfl, ?_⟩
    split at h
    · cases h
    · rename_i err herr
      simp only [Except.error.injEq] at h
      rw [← h]
      exact createTransaction_error herr

/-- C13 (duration bound), evaluation at the failing input.  The request for `lot-A`
from `0900` to `2300` (fourteen hours, the times written without a colon) has no
minute piece, so `durationHours` is `NaN`; `NaN <= 0` and `NaN > 12` are both false,
the request passes both duration checks and its row is inserted, from 09:00 to 23:00,
with `duration_hours` `NaN`.  Written `09:00` and `23:00` the same request lasts
fourteen hours and is rejected with the maximum-duration message. -/
theorem duration_nan_admitted :
    durationHours "0900" "2300" = .nan ∧
    JsNum.le .nan (.fin 0) = false ∧ JsNum.lt (JsNum.ofInt 12) .nan = false ∧
    passesChecks envOk requestNoColon ∧
    (∃ r, (bookingService.createBooking envOk storeAB requestNoColon).1 = .ok r) ∧
    (bookingService.createBooking envOk storeAB requestNoColon).2.bookings =
      storeAB.bookings ++ [rowNoColon] ∧
    rowNoColon.start_time = 9 * 3600 ∧ rowNoColon.end_time = 23 * 3600 ∧
    rowNoColon.duration_hours = .nan ∧
    durationHours "09:00" "23:00" = JsNum.ofInt 14 ∧
    bookingService.createBooking envOk storeAB requestFourteen =
      (.error (.http 400 "Maximum booking duration is 12 hours"), storeAB) := by
  refine ⟨by decide, by decide, by decide, by decide, ?_, by decide, by decide, by decide,
    by decide, by decide, by decide⟩
  exact ⟨_, rfl⟩

/-! ## Lemmas: rounding to the nearest double -/

theorem roundHalfEven_bounds (n d : Nat) (hd : 0 < d) :
    2 * (d * roundHalfEven n d) ≤ 2 * n + d ∧ 2 * n ≤ 2 * (d * roundHalfEven n d) + d := by
  have h := Nat.div_add_mod n d
  have hr := Nat.mod_lt n hd
  unfold roundHalfEven
  generalize hq : n / d = q at h ⊢
  generalize hrr : n % d = r at h hr ⊢
  have e1 : d * (q + 1) = d * q + d := by ring
  split_ifs <;> (try rw [e1]) <;> (generalize d * q = t at h ⊢) <;> omega

theorem spacing_spec (fuel : Nat) :
    ∀ q : Nat, q ≤ fuel →
      0 < spacing fuel q ∧ (q < 2 ^ 53 → spacing fuel q = 1) ∧
      (2 ^ 53 ≤ q → 2 ^ 52 * spacing fuel q ≤ q) := by
  induction fuel with
  | zero =>
    intro q hq
    have : q = 0 := by omega
    subst this
    refine ⟨by simp [spacing], fun _ => rfl, fun h => ?_⟩
    norm_num at h
  | succ fuel ih =>
    intro q hq
    unfold spacing
    by_cases h1 : 2 ^ 245 ≤ q
    · rw [if_pos h1]
      have hq0 : 0 < q := lt_of_lt_of_le (by positivity) h1
      have hlt : q / 2 ^ 192 < q := Nat.div_lt_self hq0 (by norm_num)
      obtain ⟨i1, _, i3⟩ := ih (q / 2 ^ 192) (by omega)
      have hge : 2 ^ 53 ≤ q / 2 ^ 192 := by
        rw [Nat.le_div_iff_mul_le (by positivity)]
        calc 2 ^ 53 * 2 ^ 192 = 2 ^ 245 := by norm_num
          _ ≤ q := h1
      have h3 := i3 hge
      refine ⟨by positivity, fun h => ?_, fun _ => ?_⟩
      · exfalso
        have : (2 : Nat) ^ 53 ≤ 2 ^ 245 := by norm_num
        omega
      · calc 2 ^ 52 * (2 ^ 192 * spacing fuel (q / 2 ^ 192))
            = 2 ^ 192 * (2 ^ 52 * spacing fuel (q / 2 ^ 192)) := by ring
          _ ≤ 2 ^ 192 * (q / 2 ^ 192) := Nat.mul_le_mul_left _ h3
          _ ≤ q := Nat.mul_div_le q _
    · rw [if_neg h1]
      by_cases h2 : 2 ^ 69 ≤ q
      · rw [if_pos h2]
        have hq0 : 0 < q := lt_of_lt_of_le (by positivity) h2
        have hlt : q / 2 ^ 16 < q := Nat.div_lt_self hq0 (by norm_num)
        obtain ⟨i1, _, i3⟩ := ih (q / 2 ^ 16) (by omega)
        have hge : 2 ^ 53 ≤ q / 2 ^ 16 := by
          rw [Nat.le_div_iff_mul_le (by positivity)]
          calc 2 ^ 53 * 2 ^ 16 = 2 ^ 69 := by norm_num
            _ ≤ q := h2
        have h3 := i3 hge
        refine ⟨by positivity, fun h => ?_, fun _ => ?_⟩
        · exfalso
          have : (2 : Nat) ^ 53 ≤ 2 ^ 69 := by norm_num
          omega
        · calc 2 ^ 52 * (2 ^ 16 * spacing fuel (q / 2 ^ 16))
              = 2 ^ 16 * (2 ^ 52 * spacing fuel (q / 2 ^ 16)) := by ring
            _ ≤ 2 ^ 16 * (q / 2 ^ 16) := Nat.mul_le_mul_left _ h3
            _ ≤ q := Nat.mul_div_le q _
      · rw [if_neg h2]
        by_cases h3 : 2 ^ 53 ≤ q
        · rw [if_pos h3]
          have hq0 : 0 < q := lt_of_lt_of_le (by positivity) h3
          have hlt : q / 2 < q := Nat.div_lt_self hq0 (by norm_num)
          obtain ⟨i1, i2, i3⟩ := ih (q / 2) (by omega)
          refine ⟨by positivity, fun h => ?_, fun _ => ?_⟩
          · exfalso; omega
          · by_cases h4 : 2 ^ 53 ≤ q / 2
            · have := i3 h4
              omega
            · have := i2 (by omega)
              rw [this]
              norm_num at h3 ⊢
              omega
        · rw [if_neg h3]
          exact ⟨by norm_num, fun _ => rfl, fun h => absurd h h3⟩

theorem nearestUnits_bounds (a den : Nat) (hden : 0 < den) :
    ∃ S : Nat, 0 < S ∧ (S = 1 ∨ 2 ^ 52 * S * den ≤ a) ∧
      2 * (den * nearestUnits a den) ≤ 2 * a + den * S ∧
      2 * a ≤ 2 * (den * nearestUnits a den) + den * S := by
  obtain ⟨h1, h2, h3⟩ := spacing_spec (a / den) (a / den) (le_refl _)
  refine ⟨spacing (a / den) (a / den), h1, ?_, ?_⟩
  · by_cases hq : a / den < 2 ^ 53
    · exact Or.inl (h2 hq)
    · right
      have := h3 (by omega)
      calc 2 ^ 52 * spacing (a / den) (a / den) * den ≤ a / den * den :=
            Nat.mul_le_mul_right _ this
        _ ≤ a := Nat.div_mul_le_self a den
  · have hb := roundHalfEven_bounds a (den * spacing (a / den) (a / den)) (by positivity)
    unfold nearestUnits
    have e : den * (roundHalfEven a (den * spacing (a / den) (a / den)) *
        spacing (a / den) (a / den)) =
        den * spacing (a / den) (a / den) *
          roundHalfEven a (den * spacing (a / den) (a / den)) := by ring
    rw [e]
    exact hb

theorem nearestUnits_error (a den : Nat) (hden : 0 < den) :
    |(nearestUnits a den : ℚ) - (a : ℚ) / den| ≤ (a : ℚ) / den / 2 ^ 53 + 1 / 2 := by
  obtain ⟨S, hS, hrel, hlo, hhi⟩ := nearestUnits_bounds a den hden
  have hdq : (0 : ℚ) < den := by exact_mod_cast hden
  have hlo' : (2 : ℚ) * (den * nearestUnits a den) ≤ 2 * a + den * S := by exact_mod_cast hlo
  have hhi' : (2 : ℚ) * a ≤ 2 * (den * nearestUnits a den) + den * S := by exact_mod_cast hhi
  have hS2 : (S : ℚ) / 2 ≤ (a : ℚ) / den / 2 ^ 53 + 1 / 2 := by
    rcases hrel with h | h
    · subst h
      have : (0 : ℚ) ≤ (a : ℚ) / den / 2 ^ 53 := by positivity
      push_cast
      linarith
    · have h' : (2 : ℚ) ^ 52 * S * den ≤ a := by exact_mod_cast h
      have h2 : (2 : ℚ) ^ 52 * S ≤ a / den := by
        rw [le_div_iff₀ hdq]
        exact h'
      have h3 : (a : ℚ) / den / 2 ^ 53 = (a : ℚ) / den / 2 ^ 52 / 2 := by
        rw [div_div, div_div, div_div]
        norm_num
      rw [h3]
      have h4 : (S : ℚ) ≤ (a : ℚ) / den / 2 ^ 52 := by
        rw [le_div_iff₀ (by positivity)]
        linarith
      linarith
  have hx : (a : ℚ) / den * den = a := by field_simp
  rw [abs_le]
  constructor
  · have : (a : ℚ) / den - (S : ℚ) / 2 ≤ nearestUnits a den := by
      have : ((a : ℚ) / den - (S : ℚ) / 2) * (2 * den) ≤ (nearestUnits a den : ℚ) * (2 * den) := by
        nlinarith
      exact le_of_mul_le_mul_right this (by positivity)
    linarith
  · have : (nearestUnits a den : ℚ) ≤ (a : ℚ) / den + (S : ℚ) / 2 := by
      have : (nearestUnits a den : ℚ) * (2 * den) ≤ ((a : ℚ) / den + (S : ℚ) / 2) * (2 * den) := by
        nlinarith
      exact le_of_mul_le_mul_right this (by positivity)
    linarith

theorem roundHalfEven_scale (n d k : Nat) (hk : 0 < k) :
    roundHalfEven (n * k) (d * k) = roundHalfEven n d := by
  unfold roundHalfEven
  rw [Nat.mul_mod_mul_right, Nat.mul_div_mul_right _ _ hk]
  have c1 : (2 * (n % d * k) < d * k) ↔ (2 * (n % d) < d) := by
    rw [← Nat.mul_assoc]
    exact Nat.mul_lt_mul_right hk
  have c2 : (d * k < 2 * (n % d * k)) ↔ (d < 2 * (n % d)) := by
    rw [← Nat.mul_assoc]
    exact Nat.mul_lt_mul_right hk
  simp only [c1, c2]

theorem nearestUnits_scale (a den k : Nat) (hk : 0 < k) :
    nearestUnits (a * k) (den * k) = nearestUnits a den := by
  unfold nearestUnits
  rw [Nat.mul_div_mul_right _ _ hk]
  have e : den * k * spacing (a / den) (a / den) = den * spacing (a / den) (a / den) * k := by
    ring
  rw [e, roundHalfEven_scale _ _ _ hk]

theorem ofUnits_natCast (n den : Nat) (h : nearestUnits n den < 2 ^ 2098) :
    JsNum.ofUnits (n : Int) den = .fin (nearestUnits n den) := by
  unfold JsNum.ofUnits
  have h1 : ¬ (2 ^ 2098 ≤ nearestUnits ((n : Int).natAbs) den) := by
    rw [Int.natAbs_ofNat]
    omega
  have h2 : ¬ ((n : Int) < 0) := by omega
  rw [if_neg h1, if_neg h2, Int.natAbs_ofNat]

theorem nearest_value_error (a den : Nat) (hden : 0 < den) (U : ℚ) (hU : 0 < U) :
    |(nearestUnits a den : ℚ) / U - (a : ℚ) / den / U| ≤
      (a : ℚ) / den / U / 2 ^ 53 + 1 / (2 * U) := by
  have h := nearestUnits_error a den hden
  have e1 : (nearestUnits a den : ℚ) / U - (a : ℚ) / den / U =
      ((nearestUnits a den : ℚ) - (a : ℚ) / den) / U := by ring
  have e2 : (a : ℚ) / den / U / 2 ^ 53 + 1 / (2 * U) =
      ((a : ℚ) / den / 2 ^ 53 + 1 / 2) / U := by
    field_simp
    ring
  rw [e1, e2, abs_div, abs_of_pos hU]
  exact div_le_div_of_nonneg_right h (le_of_lt hU)

theorem product_error {a r b h e1 e2 A H : ℚ} (ha : |a - r| ≤ e1) (hb : |b - h| ≤ e2)
    (hA : |a| ≤ A) (hH : |h| ≤ H) : |a * b - r * h| ≤ A * e2 + e1 * H := by
  have e : a * b - r * h = a * (b - h) + (a - r) * h := by ring
  rw [e]
  calc |a * (b - h) + (a - r) * h| ≤ |a * (b - h)| + |(a - r) * h| := abs_add _ _
    _ = |a| * |b - h| + |a - r| * |h| := by rw [abs_mul, abs_mul]
    _ ≤ A * e2 + e1 * H := by
      have h1 : |a| * |b - h| ≤ A * e2 :=
        mul_le_mul hA hb (abs_nonneg _) (le_trans (abs_nonneg _) hA)
      have h2 : |a - r| * |h| ≤ e1 * H :=
        mul_le_mul ha hH (abs_nonneg _) (le_trans (abs_nonneg _) ha)
      linarith

set_option maxHeartbeats 1000000 in
theorem cost_units (u P m : Nat) (hu : 10 ^ 20 ≤ u) (hP0 : 0 < P) (hP1 : P ≤ 100000000000)
    (hm0 : 0 < m) (hm1 : m ≤ 720) :
    0 < nearestUnits (P * u) 100 ∧
    nearestUnits (P * u) 100 ≤ 1200000000101 * u ∧
    nearestUnits (m * u) 60 ≤ 1200000000101 * u ∧
    nearestUnits (nearestUnits (P * u) 100 * nearestUnits (m * u) 60) u
      ≤ 1200000000101 * u ∧
    nearestUnits (nearestUnits (nearestUnits (P * u) 100 * nearestUnits (m * u) 60) u
      * (100 * u)) u ≤ 1200000000101 * u ∧
    |(nearestUnits (nearestUnits (nearestUnits (P * u) 100 * nearestUnits (m * u) 60) u
        * (100 * u)) u : ℚ) / u - (P * m : ℚ) / 60| < 1 / 120 := by
  have hupos : 0 < u := lt_of_lt_of_le (by norm_num) hu
  have hU0 : (0 : ℚ) < (u : ℚ) := by exact_mod_cast hupos
  have hUbig : (10 : ℚ) ^ 20 ≤ (u : ℚ) := by exact_mod_cast hu
  have hη : 1 / (2 * (u : ℚ)) ≤ 1 / (10 : ℚ) ^ 20 := by
    apply one_div_le_one_div_of_le (by positivity)
    linarith
  generalize hpU : nearestUnits (P * u) 100 = pU
  generalize hdU : nearestUnits (m * u) 60 = dU
  generalize hxU : nearestUnits (pU * dU) u = xU
  generalize hyU : nearestUnits (xU * (100 * u)) u = yU
  have hPq : (1 : ℚ) ≤ P := by exact_mod_cast hP0
  have hPq1 : (P : ℚ) ≤ 100000000000 := by exact_mod_cast hP1
  have hmq : (1 : ℚ) ≤ m := by exact_mod_cast hm0
  have hmq1 : (m : ℚ) ≤ 720 := by exact_mod_cast hm1
  -- the price
  have h1 := nearest_value_error (P * u) 100 (by norm_num) (u : ℚ) hU0
  have e1 : ((P * u : Nat) : ℚ) / ((100 : Nat) : ℚ) / (u : ℚ) = (P : ℚ) / 100 := by
    push_cast
    field_simp
    ring
  rw [e1, hpU] at h1
  have b1 : |(pU : ℚ) / u - (P : ℚ) / 100| ≤ 3 / 10 ^ 7 := by
    refine le_trans h1 ?_
    have h2 : (P : ℚ) / 100 / 2 ^ 53 ≤ 2 / 10 ^ 7 := by
      rw [div_div, div_le_iff₀ (by norm_num)]
      have : (2 : ℚ) / 10 ^ 7 * (100 * 2 ^ 53) ≥ 100000000000 := by norm_num
      linarith
    have h3 : (1 : ℚ) / 10 ^ 20 ≤ 1 / 10 ^ 7 := by norm_num
    have h4 : (3 : ℚ) / 10 ^ 7 = 2 / 10 ^ 7 + 1 / 10 ^ 7 := by norm_num
    linarith
  -- the duration
  have h2 := nearest_value_error (m * u) 60 (by norm_num) (u : ℚ) hU0
  have e2 : ((m * u : Nat) : ℚ) / ((60 : Nat) : ℚ) / (u : ℚ) = (m : ℚ) / 60 := by
    push_cast
    field_simp
    ring
  rw [e2, hdU] at h2
  have b2 : |(dU : ℚ) / u - (m : ℚ) / 60| ≤ 3 / 10 ^ 15 := by
    refine le_trans h2 ?_
    have h3 : (m : ℚ) / 60 / 2 ^ 53 ≤ 2 / 10 ^ 15 := by
      rw [div_div, div_le_iff₀ (by norm_num)]
      have : (2 : ℚ) / 10 ^ 15 * (60 * 2 ^ 53) ≥ 720 := by norm_num
      linarith
    have h4 : (1 : ℚ) / 10 ^ 20 ≤ 1 / 10 ^ 15 := by norm_num
    have h5 : (3 : ℚ) / 10 ^ 15 = 2 / 10 ^ 15 + 1 / 10 ^ 15 := by norm_num
    linarith
  have a_hi : (pU : ℚ) / u ≤ 1000000001 := by
    have := (abs_le.mp b1).2
    have h3 : (3 : ℚ) / 10 ^ 7 ≤ 1 := by norm_num
    linarith
  have a_pos : (0 : ℚ) < (pU : ℚ) / u := by
    have := (abs_le.mp b1).1
    have h3 : (3 : ℚ) / 10 ^ 7 < 1 / 100 := by norm_num
    linarith
  have b_nonneg : (0 : ℚ) ≤ (dU : ℚ) / u := by positivity
  have b_hi : (dU : ℚ) / u ≤ 13 := by
    have := (abs_le.mp b2).2
    have h3 : (3 : ℚ) / 10 ^ 15 ≤ 1 := by norm_num
    linarith
  -- the product
  have b3 : |(pU : ℚ) / u * ((dU : ℚ) / u) - (P : ℚ) / 100 * ((m : ℚ) / 60)| ≤
      1000000001 * (3 / 10 ^ 15) + 3 / 10 ^ 7 * 12 := by
    apply product_error b1 b2
    · rw [abs_of_pos a_pos]
      exact a_hi
    · rw [abs_of_nonneg (by positivity)]
      linarith
  have rh_hi : (P : ℚ) / 100 * ((m : ℚ) / 60) ≤ 12000000000 := by
    have h3 : (P : ℚ) / 100 ≤ 1000000000 := by linarith
    have h4 : (m : ℚ) / 60 ≤ 12 := by linarith
    calc (P : ℚ) / 100 * ((m : ℚ) / 60) ≤ 1000000000 * 12 :=
          mul_le_mul h3 h4 (by positivity) (by norm_num)
      _ = 12000000000 := by norm_num
  have ab_hi : (pU : ℚ) / u * ((dU : ℚ) / u) ≤ 12000000001 := by
    have := (abs_le.mp b3).2
    have h3 : (1000000001 : ℚ) * (3 / 10 ^ 15) + 3 / 10 ^ 7 * 12 ≤ 1 := by norm_num
    linarith
  have h3 := nearest_value_error (pU * dU) u hupos (u : ℚ) hU0
  have e3 : ((pU * dU : Nat) : ℚ) / (u : ℚ) / (u : ℚ) = (pU : ℚ) / u * ((dU : ℚ) / u) := by
    push_cast
    field_simp
  rw [e3, hxU] at h3
  have b4 : |(xU : ℚ) / u - (pU : ℚ) / u * ((dU : ℚ) / u)| ≤ 3 / 10 ^ 6 := by
    refine le_trans h3 ?_
    have h4 : (pU : ℚ) / u * ((dU : ℚ) / u) / 2 ^ 53 ≤ 2 / 10 ^ 6 := by
      rw [div_le_iff₀ (by norm_num)]
      have : (2 : ℚ) / 10 ^ 6 * 2 ^ 53 ≥ 12000000001 := by norm_num
      linarith
    have h5 : (1 : ℚ) / 10 ^ 20 ≤ 1 / 10 ^ 6 := by norm_num
    have h6 : (3 : ℚ) / 10 ^ 6 = 2 / 10 ^ 6 + 1 / 10 ^ 6 := by norm_num
    linarith
  have b5 : |(xU : ℚ) / u - (P : ℚ) / 100 * ((m : ℚ) / 60)| ≤ 1 / 10 ^ 5 := by
    have := abs_sub_le ((xU : ℚ) / u) ((pU : ℚ) / u * ((dU : ℚ) / u))
      ((P : ℚ) / 100 * ((m : ℚ) / 60))
    have h4 : (3 : ℚ) / 10 ^ 6 + (1000000001 * (3 / 10 ^ 15) + 3 / 10 ^ 7 * 12) ≤
        1 / 10 ^ 5 := by
      norm_num
    linarith
  have x_hi : (xU : ℚ) / u ≤ 12000000001 := by
    have := (abs_le.mp b5).2
    have h4 : (1 : ℚ) / 10 ^ 5 ≤ 1 := by norm_num
    linarith
  have h4 := nearest_value_error (xU * (100 * u)) u hupos (u : ℚ) hU0
  have e4 : ((xU * (100 * u) : Nat) : ℚ) / (u : ℚ) / (u : ℚ) = 100 * ((xU : ℚ) / u) := by
    push_cast
    field_simp
    ring
  rw [e4, hyU] at h4
  have b6 : |(yU : ℚ) / u - 100 * ((xU : ℚ) / u)| ≤ 3 / 10 ^ 4 := by
    refine le_trans h4 ?_
    have h5 : 100 * ((xU : ℚ) / u) / 2 ^ 53 ≤ 2 / 10 ^ 4 := by
      rw [div_le_iff₀ (by norm_num)]
      have : (2 : ℚ) / 10 ^ 4 * 2 ^ 53 ≥ 1200000000100 := by norm_num
      linarith
    have h6 : (1 : ℚ) / 10 ^ 20 ≤ 1 / 10 ^ 4 := by norm_num
    have h7 : (3 : ℚ) / 10 ^ 4 = 2 / 10 ^ 4 + 1 / 10 ^ 4 := by norm_num
    linarith
  have b7 : |(yU : ℚ) / u - (P * m : ℚ) / 60| < 1 / 120 := by
    have e5 : (P * m : ℚ) / 60 = 100 * ((P : ℚ) / 100 * ((m : ℚ) / 60)) := by ring
    rw [e5]
    have t1 := abs_sub_le ((yU : ℚ) / u) (100 * ((xU : ℚ) / u))
      (100 * ((P : ℚ) / 100 * ((m : ℚ) / 60)))
    have t2 : |100 * ((xU : ℚ) / u) - 100 * ((P : ℚ) / 100 * ((m : ℚ) / 60))| ≤
        100 * (1 / 10 ^ 5) := by
      rw [← mul_sub, abs_mul, abs_of_pos (by norm_num : (0 : ℚ) < 100)]
      exact mul_le_mul_of_nonneg_left b5 (by norm_num)
    have t3 : (3 : ℚ) / 10 ^ 4 + 100 * (1 / 10 ^ 5) < 1 / 120 := by norm_num
    linarith
  have y_hi : (yU : ℚ) / u ≤ 1200000000101 := by
    have := (abs_le.mp b6).2
    have h5 : (3 : ℚ) / 10 ^ 4 ≤ 1 := by norm_num
    linarith
  have le_of_val : ∀ n : Nat, (n : ℚ) / u ≤ 1200000000101 → n ≤ 1200000000101 * u := by
    intro n hn
    have h5 := (div_le_iff₀ hU0).mp hn
    exact_mod_cast h5
  refine ⟨?_, le_of_val pU (by linarith), le_of_val dU (by linarith),
    le_of_val xU (by linarith), le_of_val yU y_hi, b7⟩
  have : (0 : ℚ) < (pU : ℚ) := (div_pos_iff_of_pos_right hU0).mp a_pos
  exact_mod_cast this


theorem nearestUnits_le (a den : Nat) (hden : 0 < den) :
    2 * (den * nearestUnits a den) ≤ 3 * a + den := by
  obtain ⟨S, hS, hrel, hlo, _⟩ := nearestUnits_bounds a den hden
  rcases hrel with h | h
  · subst h
    omega
  · have h1 : den * S ≤ 2 ^ 52 * S * den := by
      calc den * S = 1 * (S * den) := by ring
        _ ≤ 2 ^ 52 * (S * den) := Nat.mul_le_mul_right _ (by norm_num)
        _ = 2 ^ 52 * S * den := by ring
    omega

theorem round_units (h u y N : Nat) (hu : u = 2 * h) (hh : 0 < h) (hN : N % 60 ≠ 30)
    (herr : |(y : ℚ) / (u : ℚ) - (N : ℚ) / 60| < 1 / 120) :
    (y + h) / u = (2 * N + 60) / 120 := by
  subst hu
  have hq : (0 : ℚ) < (h : ℚ) := by exact_mod_cast hh
  obtain ⟨lo, hi⟩ := abs_lt.mp herr
  have hy : (y : ℚ) / ((2 * h : Nat) : ℚ) * h = (y : ℚ) / 2 := by
    push_cast
    field_simp
    ring
  have lo1 := mul_pos (sub_pos.mpr lo) hq
  have hi1 := mul_pos (sub_pos.mpr hi) hq
  have lo2 : (2 : ℚ) * h * N < 60 * y + h := by
    have e : ((y : ℚ) / ((2 * h : Nat) : ℚ) - (N : ℚ) / 60 - -(1 / 120)) * h =
        (y : ℚ) / ((2 * h : Nat) : ℚ) * h - (N : ℚ) * h / 60 + h / 120 := by ring
    rw [e, hy] at lo1
    linarith
  have hi2 : (60 : ℚ) * y < 2 * h * N + h := by
    have e : ((1 : ℚ) / 120 - ((y : ℚ) / ((2 * h : Nat) : ℚ) - (N : ℚ) / 60)) * h =
        h / 120 - (y : ℚ) / ((2 * h : Nat) : ℚ) * h + (N : ℚ) * h / 60 := by ring
    rw [e, hy] at hi1
    linarith
  have lo3 : 2 * (h * N) < 60 * y + h := by
    have : ((2 * (h * N) : Nat) : ℚ) < ((60 * y + h : Nat) : ℚ) := by
      push_cast
      linarith
    exact_mod_cast this
  have hi3 : 60 * y < 2 * (h * N) + h := by
    have : ((60 * y : Nat) : ℚ) < ((2 * (h * N) + h : Nat) : ℚ) := by
      push_cast
      linarith
    exact_mod_cast this
  have k1 : 60 * ((2 * N + 60) / 120) ≤ N + 29 := by omega
  have k2 : N ≤ 60 * ((2 * N + 60) / 120) + 29 := by omega
  generalize (2 * N + 60) / 120 = q at k1 k2 ⊢
  have m1 : h * (60 * q) ≤ h * (N + 29) := Nat.mul_le_mul_left h k1
  have m2 : h * N ≤ h * (60 * q + 29) := Nat.mul_le_mul_left h k2
  have e1 : h * (60 * q) = 60 * (h * q) := by ring
  have e2 : h * (N + 29) = h * N + 29 * h := by ring
  have e3 : h * (60 * q + 29) = 60 * (h * q) + 29 * h := by ring
  rw [e1, e2] at m1
  rw [e3] at m2
  apply Nat.div_eq_of_lt_le
  · have e4 : q * (2 * h) = 2 * (h * q) := by ring
    rw [e4]
    omega
  · have e5 : (q + 1) * (2 * h) = 2 * (h * q) + 2 * h := by ring
    rw [e5]
    omega

theorem mul_fin (a b : Nat) (h : nearestUnits (a * b) (2 ^ 1074) < 2 ^ 2098) :
    JsNum.mul (.fin a) (.fin b) = .fin (nearestUnits (a * b) (2 ^ 1074)) := by
  show JsNum.ofUnits ((a : Int) * (b : Int)) (2 ^ 1074) = _
  rw [← Nat.cast_mul]
  exact ofUnits_natCast _ _ h

theorem div_fin (a b : Nat) (hb : 0 < b) (h : nearestUnits (a * 2 ^ 1074) b < 2 ^ 2098) :
    JsNum.div (.fin a) (.fin b) = .fin (nearestUnits (a * 2 ^ 1074) b) := by
  have h1 : ¬ ((b : Int) = 0) := by omega
  have h2 : ¬ ((b : Int) < 0) := by omega
  show (if (b : Int) = 0 then (if (a : Int) = 0 then JsNum.nan else .inf (decide ((a : Int) < 0)))
    else JsNum.ofUnits (if (b : Int) < 0 then -((a : Int) * ((2 ^ 1074 : Nat) : Int))
      else (a : Int) * ((2 ^ 1074 : Nat) : Int)) (b : Int).natAbs) = _
  rw [if_neg h1, if_neg h2, Int.natAbs_ofNat, ← Nat.cast_mul]
  exact ofUnits_natCast _ _ h

theorem round_fin (y : Nat) :
    JsNum.round (.fin y) = .fin (((y + 2 ^ 1073) / 2 ^ 1074 * 2 ^ 1074 : Nat)) := by
  show JsNum.fin (((y : Int) + ((2 ^ 1073 : Nat) : Int)) / ((2 ^ 1074 : Nat) : Int) *
    ((2 ^ 1074 : Nat) : Int)) = _
  congr 1

theorem ofFrac_natCast (n den : Nat) (h : nearestUnits (n * 2 ^ 1074) den < 2 ^ 2098) :
    JsNum.ofFrac (n : Int) den = .fin (nearestUnits (n * 2 ^ 1074) den) := by
  show JsNum.ofUnits ((n : Int) * ((2 ^ 1074 : Nat) : Int)) den = _
  rw [← Nat.cast_mul]
  exact ofUnits_natCast _ _ h

theorem ofInt_hundred : JsNum.ofInt 100 = .fin ((100 * 2 ^ 1074 : Nat)) := by
  decide

theorem pow_facts :
    (10 : Nat) ^ 20 ≤ 2 ^ 1074 ∧ 3 * (1200000000101 * 2 ^ 1074) + 100 < 2 ^ 2098 ∧
    (2 : Nat) ^ 1074 = 2 * 2 ^ 1073 ∧ 0 < (2 : Nat) ^ 1073 := by
  refine ⟨?_, ?_, ?_, ?_⟩ <;> norm_num

theorem cost_core (P m : Nat) (hP0 : 0 < P) (hP1 : P ≤ 100000000000)
    (hm0 : 0 < m) (hm1 : m ≤ 720) (hN : (P * m) % 60 ≠ 30) :
    totalCost (JsNum.ofFrac (P : Int) 100) (JsNum.ofFrac (m : Int) 60) =
      JsNum.ofFrac (((2 * P * m + 60) / 120 : Nat) : Int) 100 := by
  obtain ⟨f1, f2, f3, f4⟩ := pow_facts
  obtain ⟨_, hp, hd, hx, hy, herr⟩ := cost_units (2 ^ 1074) P m f1 hP0 hP1 hm0 hm1
  have hR : (2 * P * m + 60) / 120 ≤ 1200000000101 := by
    have : P * m ≤ 100000000000 * 720 := Nat.mul_le_mul hP1 hm1
    have e : 2 * P * m = 2 * (P * m) := by ring
    rw [e]
    omega
  have hround := round_units (2 ^ 1073) (2 ^ 1074) _ (P * m) f3 f4 hN (by
    simpa only [Nat.cast_mul] using herr)
  have e2 : 2 * (P * m) = 2 * P * m := by ring
  rw [e2] at hround
  have hfin := nearestUnits_le ((2 * P * m + 60) / 120 * 2 ^ 1074) 100 (by norm_num)
  have hRU : (2 * P * m + 60) / 120 * 2 ^ 1074 ≤ 1200000000101 * 2 ^ 1074 :=
    Nat.mul_le_mul_right _ hR
  unfold totalCost
  rw [ofFrac_natCast P 100 (by omega), ofFrac_natCast m 60 (by omega),
    mul_fin _ _ (by omega), ofInt_hundred, mul_fin _ _ (by omega), round_fin, hround,
    div_fin _ _ (by norm_num) (by
      rw [nearestUnits_scale _ 100 _ (by norm_num)]
      omega),
    nearestUnits_scale _ 100 _ (by norm_num), ofFrac_natCast _ 100 (by omega)]


theorem ofInt_twelve : JsNum.ofInt 12 = .fin ((12 * 2 ^ 1074 : Nat)) := by
  decide

theorem nearestUnits_zero : nearestUnits 0 60 = 0 := by
  decide

theorem ofUnits_natCast_cases (n den : Nat) :
    JsNum.ofUnits (n : Int) den = .fin (nearestUnits n den) ∨
    JsNum.ofUnits (n : Int) den = .inf false := by
  unfold JsNum.ofUnits
  have h2 : ¬ ((n : Int) < 0) := by omega
  rw [Int.natAbs_ofNat, if_neg h2]
  by_cases h : 2 ^ 2098 ≤ nearestUnits n den
  · right
    rw [if_pos h]
    simp only [h2, decide_False]
  · left
    rw [if_neg h]

theorem ofUnits_nonpos (num : Int) (den : Nat) (h : num ≤ 0) (h0 : nearestUnits 0 den = 0) :
    (JsNum.ofUnits num den).le (.fin 0) = true := by
  unfold JsNum.ofUnits
  rcases lt_or_eq_of_le h with hlt | heq
  · by_cases hb : 2 ^ 2098 ≤ nearestUnits num.natAbs den
    · rw [if_pos hb]
      simp only [JsNum.le, hlt, decide_True]
    · rw [if_neg hb, if_pos hlt]
      simp only [JsNum.le, decide_eq_true_eq]
      omega
  · subst heq
    have hb : ¬ (2 ^ 2098 ≤ nearestUnits (0 : Int).natAbs den) := by
      rw [Int.natAbs_zero, h0]
      norm_num
    rw [if_neg hb, Int.natAbs_zero, h0]
    simp [JsNum.le]

theorem duration_bounds (m : Int)
    (h1 : (JsNum.ofFrac m 60).le (.fin 0) = false)
    (h2 : (JsNum.ofInt 12).lt (JsNum.ofFrac m 60) = false) : 0 < m ∧ m ≤ 720 := by
  obtain ⟨f1, _, _, _⟩ := pow_facts
  constructor
  · by_contra hneg
    have hm : m ≤ 0 := by omega
    have hnum : m * ((2 ^ 1074 : Nat) : Int) ≤ 0 :=
      mul_nonpos_of_nonpos_of_nonneg hm (Int.natCast_nonneg _)
    have := ofUnits_nonpos _ 60 hnum nearestUnits_zero
    unfold JsNum.ofFrac at h1
    rw [this] at h1
    cases h1
  · by_contra hbig
    have hm : 721 ≤ m := by omega
    obtain ⟨n, rfl⟩ := Int.eq_ofNat_of_zero_le (by omega : 0 ≤ m)
    have hn : 721 ≤ n := by omega
    have hcast : JsNum.ofFrac (n : Int) 60 = JsNum.ofUnits ((n * 2 ^ 1074 : Nat) : Int) 60 := by
      unfold JsNum.ofFrac
      rw [Nat.cast_mul]
    rw [hcast, ofInt_twelve] at h2
    rcases ofUnits_natCast_cases (n * 2 ^ 1074) 60 with h | h
    · rw [h] at h2
      simp only [JsNum.lt, decide_eq_false_iff_not, not_lt] at h2
      have h3 : nearestUnits (n * 2 ^ 1074) 60 ≤ 12 * 2 ^ 1074 := by exact_mod_cast h2
      obtain ⟨S, _, hrel, _, hhi⟩ := nearestUnits_bounds (n * 2 ^ 1074) 60 (by norm_num)
      have ha : 721 * 2 ^ 1074 ≤ n * 2 ^ 1074 := Nat.mul_le_mul_right _ hn
      generalize nearestUnits (n * 2 ^ 1074) 60 = y at h3 hhi
      generalize n * 2 ^ 1074 = a at ha hrel hhi
      generalize (2 : Nat) ^ 1074 = U at f1 h3 ha
      have f0 : 100 ≤ U := le_trans (by norm_num) f1
      rcases hrel with hS | hS
      · subst hS
        omega
      · omega
    · rw [h] at h2
      simp [JsNum.lt] at h2

/-! ## Lemmas: the cost -/

theorem roundedCost_eq (rate minutes : Int) :
    roundedCost rate minutes = (2 * rate * minutes + 60) / 120 := by
  unfold roundedCost
  have h : ((rate : ℚ) / 100) * ((minutes : ℚ) / 60) * 100 + 1 / 2 =
      (((2 * rate * minutes + 60 : Int) : ℚ)) / ((120 : Nat) : ℚ) := by
    push_cast
    ring
  rw [h, Rat.floor_intCast_div_natCast]
  norm_num

theorem roundedCost_natCast (P m : Nat) :
    roundedCost (P : Int) (m : Int) = (((2 * P * m + 60) / 120 : Nat) : Int) := by
  rw [roundedCost_eq]
  norm_cast

theorem pricePerHour_pos (lot : Lot) (h0 : 0 < lot.price_per_hour)
    (h1 : lot.price_per_hour ≤ 100000000000) :
    pricePerHour lot = JsNum.ofFrac lot.price_per_hour 100 := by
  obtain ⟨P, hP⟩ := Int.eq_ofNat_of_zero_le (le_of_lt h0)
  obtain ⟨f1, f2, _, _⟩ := pow_facts
  obtain ⟨hpos, hp, _⟩ := cost_units (2 ^ 1074) P 1 f1 (by omega) (by omega) (by norm_num)
    (by norm_num)
  unfold pricePerHour
  rw [hP, ofFrac_natCast P 100 (by omega)]
  have ht : (JsNum.fin ((nearestUnits (P * 2 ^ 1074) 100 : Nat) : Int)).truthy = true := by
    simp only [JsNum.truthy, decide_eq_true_eq]
    omega
  rw [if_pos ht]

theorem pricePerHour_zero (lot : Lot) (h0 : lot.price_per_hour = 0) :
    pricePerHour lot = JsNum.ofFrac 2000 100 := by
  unfold pricePerHour
  rw [h0]
  decide

theorem cost_of_minutes (lot : Lot) (m : Int)
    (h1 : (JsNum.ofFrac m 60).le (.fin 0) = false)
    (h2 : (JsNum.ofInt 12).lt (JsNum.ofFrac m 60) = false) :
    (0 < lot.price_per_hour → lot.price_per_hour ≤ 100000000000 →
      (lot.price_per_hour * m) % 60 ≠ 30 →
      totalCost (pricePerHour lot) (JsNum.ofFrac m 60) =
        JsNum.ofFrac (roundedCost lot.price_per_hour m) 100) ∧
    (lot.price_per_hour = 0 →
      totalCost (pricePerHour lot) (JsNum.ofFrac m 60) =
        JsNum.ofFrac (roundedCost 2000 m) 100) := by
  obtain ⟨hm0, hm1⟩ := duration_bounds m h1 h2
  obtain ⟨n, rfl⟩ := Int.eq_ofNat_of_zero_le (le_of_lt hm0)
  constructor
  · intro hp0 hp1 htie
    rw [pricePerHour_pos lot hp0 hp1]
    obtain ⟨P, hP⟩ := Int.eq_ofNat_of_zero_le (le_of_lt hp0)
    rw [hP] at hp0 hp1 htie ⊢
    rw [roundedCost_natCast]
    exact cost_core P n (by omega) (by omega) (by omega) (by omega) (by omega)
  · intro hp
    rw [pricePerHour_zero lot hp]
    have h := cost_core 2000 n (by norm_num) (by norm_num) (by omega) (by omega) (by omega)
    rw [← roundedCost_natCast] at h
    exact h

/-- C15 as stated fails.  By design: `lot-B` has rate 0, and a booking of two hours at
`lot-B` is stored with `total_cost` 40.00 (the default rate 20 times two hours), not
with the 0 that the rate of the lot gives.  By the arithmetic of doubles: an hour and a
half at `lot-C`, whose rate is 10.35, is stored with `total_cost` 15.52, while 15.525
rounded to two decimals is 15.53; and eleven hours twenty at a rate of
1 000 000 000 000.00 cost 11 333 333 333 333.34 where the rounded product is
11 333 333 333 333.33. -/
theorem cost_formula_fails :
    parkingModel.findById storeAB.lots "lot-B" = some lotB ∧
    lotB.price_per_hour = 0 ∧
    (bookingService.createBooking envOk storeAB requestB).2.bookings = [bookingB1, rowFree] ∧
    rowFree.duration_hours = JsNum.ofFrac 120 60 ∧
    rowFree.total_cost = JsNum.ofFrac 4000 100 ∧
    roundedCost lotB.price_per_hour 120 = 0 ∧
    rowFree.total_cost ≠ JsNum.ofFrac (roundedCost lotB.price_per_hour 120) 100 ∧
    (bookingService.createBooking envOk storeC requestC).2.bookings = [rowC] ∧
    rowC.duration_hours = JsNum.ofFrac 90 60 ∧
    rowC.total_cost = JsNum.ofFrac 1552 100 ∧
    roundedCost lotC.price_per_hour 90 = 1553 ∧
    rowC.total_cost ≠ JsNum.ofFrac (roundedCost lotC.price_per_hour 90) 100 ∧
    durationHours "09:00" "20:20" = JsNum.ofFrac 680 60 ∧
    totalCost (pricePerHour lotD) (durationHours "09:00" "20:20") =
      JsNum.ofFrac 1133333333333334 100 ∧
    roundedCost lotD.price_per_hour 680 = 1133333333333333 ∧
    totalCost (pricePerHour lotD) (durationHours "09:00" "20:20") ≠
      JsNum.ofFrac (roundedCost lotD.price_per_hour 680) 100 := by
  have h0 : roundedCost lotB.price_per_hour 120 = 0 := by
    rw [roundedCost_eq]
    decide
  have h1 : roundedCost lotC.price_per_hour 90 = 1553 := by
    rw [roundedCost_eq]
    decide
  have h2 : roundedCost lotD.price_per_hour 680 = 1133333333333333 := by
    rw [roundedCost_eq]
    decide
  refine ⟨by decide, by decide, by decide, by decide, by decide, h0, ?_, by decide,
    by decide, by decide, h1, ?_, by decide, by decide, h2, ?_⟩
  · rw [h0]
    decide
  · rw [h1]
    decide
  · rw [h2]
    decide

/-- C15 as amended.  For an admitted booking whose duration is a whole number `m` of
minutes (the double nearest to `m / 60` hours) at a lot of rate `p` hundredths an hour:
when `0 < p <= 100000000000` (a rate of at most 1 000 000 000.00) and `p / 100` times
`m / 60` does not fall exactly halfway between two hundredths, the stored `total_cost`
is the double nearest to that product rounded to two decimals; when `p` is 0 the
default rate 20 stands in for it and the stored `total_cost` is the double nearest to
`20` times `m / 60` rounded to two decimals.  Nothing is said of a product exactly
halfway between two hundredths, nor of a larger rate. -/
theorem stored_cost_formula (env : Env) (s : Store) (req : BookingRequest)
    (r : CreatedBooking) (m : Int)
    (hm : durationHours (req.startTime.getD "") (req.endTime.getD "") = JsNum.ofFrac m 60)
    (hok : (bookingService.createBooking env s req).1 = .ok r) :
    ∃ lot row,
      parkingModel.findById s.lots (req.parkingId.getD "") = some lot ∧
      (bookingService.createBooking env s req).2.bookings = s.bookings ++ [row] ∧
      row.duration_hours = JsNum.ofFrac m 60 ∧
      (0 < lot.price_per_hour → lot.price_per_hour ≤ 100000000000 →
        (lot.price_per_hour * m) % 60 ≠ 30 →
        row.total_cost = JsNum.ofFrac (roundedCost lot.price_per_hour m) 100) ∧
      (lot.price_per_hour = 0 →
        row.total_cost = JsNum.ofFrac (roundedCost 2000 m) 100) := by
  rcases createBooking_cases env s req with ⟨e, he⟩ | ⟨lot, r1, s1, hv, hlot, _, htx, he⟩
  · rw [he] at hok
    cases hok
  · obtain ⟨d, st, et, u, _, _, _, _, _, _, _, _, hs1⟩ := createTransaction_ok htx
    obtain ⟨_, _, _, hv4, hv5⟩ := hv
    rw [hm] at hv4 hv5
    rw [he, hs1]
    refine ⟨lot, _, hlot, rfl, hm, ?_⟩
    simp only [hm]
    exact cost_of_minutes lot m hv4 hv5

/-- Witness of C15 as amended: two hours at `lot-A`, whose rate is 50.00, cost 100.00. -/
theorem stored_cost_formula_witness :
    durationHours "09:00" "11:00" = JsNum.ofFrac 120 60 ∧
    ∃ lot row,
      parkingModel.findById storeAB.lots "lot-A" = some lot ∧
      (bookingService.createBooking envOk storeAB requestA).2.bookings =
        storeAB.bookings ++ [row] ∧
      row.duration_hours = JsNum.ofFrac 120 60 ∧
      (0 < lot.price_per_hour → lot.price_per_hour ≤ 100000000000 →
        (lot.price_per_hour * 120) % 60 ≠ 30 →
        row.total_cost = JsNum.ofFrac (roundedCost lot.price_per_hour 120) 100) ∧
      (lot.price_per_hour = 0 →
        row.total_cost = JsNum.ofFrac (roundedCost 2000 120) 100) :=
  ⟨by decide,
    stored_cost_formula envOk storeAB requestA
      { id := "bk-2", parkingId := "lot-A", userId := "user-2",
        vehicleNumber := some "KA01AB1234", date := 21915, startTime := 32400,
        endTime := 39600, durationHours := JsNum.ofInt 2, totalCost := JsNum.ofInt 100,
        pricePerHour := 5000, status := "confirmed", createdAt := 1893412800000,
        availableSlots := 0, totalSlots := 1 }
      120 (by decide) (by decide)⟩

/-! ## Lemmas: the object returned by a successful admission -/

theorem createTransaction_ok_result {env : Env} {s : Store} {lot : Lot}
    {parkingId userId : String} {vehicleNumber : Option String}
    {date startTime endTime : String} {duration cost : JsNum}
    {r : CreatedBooking} {s1 : Store}
    (h : createTransaction env s lot parkingId userId vehicleNumber date startTime endTime
      duration cost = .ok (r, s1)) :
    ∃ d st et updated,
      env.dbDate date = some d ∧ env.dbTime startTime = some st ∧ env.dbTime endTime = some et ∧
      (parkingModel.decrementSlot s.lots parkingId).1 = some updated ∧
      r = { id := env.uuid, parkingId := parkingId, userId := userId,
            vehicleNumber := if truthy vehicleNumber then vehicleNumber else none,
            date := d, startTime := st, endTime := et, durationHours := duration,
            totalCost := cost, pricePerHour := lot.price_per_hour, status := "confirmed",
            createdAt := env.now, availableSlots := updated.available_slots,
            totalSlots := updated.total_slots } := by
  unfold createTransaction at h
  cases hd : env.dbDate date with
  | none => simp [hd] at h
  | some d =>
    cases hst : env.dbTime startTime with
    | none => simp [hd, hst] at h
    | some st =>
      cases het : env.dbTime endTime with
      | none => simp [hd, hst, het] at h
      | some et =>
        simp only [hd, hst, het] at h
        by_cases hcnt : (bookingModel.findOverlapping s.bookings parkingId d st et : Int)
            ≥ lot.total_slots
        · simp [hcnt] at h
        · rw [if_neg hcnt] at h
          rcases hdec : parkingModel.decrementSlot s.lots parkingId with ⟨u, lots1⟩
          rw [hdec] at h
          cases u with
          | none => simp at h
          | some updated =>
            simp only [bookingModel.create] at h
            cases hins : env.insertOk with
            | false => simp [hins] at h
            | true =>
              simp only [hins, if_true, Except.ok.injEq, Prod.mk.injEq] at h
              obtain ⟨h1, _⟩ := h
              refine ⟨d, st, et, updated, rfl, rfl, rfl, rfl, ?_⟩
              rw [← h1, truthy_idem]

theorem decrementSlot_first {lots : List Lot} {id : String} {lot : Lot}
    (hlot : parkingModel.findById lots id = some lot) (hav : 0 < lot.available_slots) :
    (parkingModel.decrementSlot lots id).1 = some (decrementSet lot) ∧
    parkingModel.findById (parkingModel.decrementSlot lots id).2 id = some (decrementSet lot) := by
  induction lots with
  | nil => simp [parkingModel.findById] at hlot
  | cons a as ih =>
    rw [findById_cons] at hlot
    by_cases ha : a.id = id
    · rw [if_pos ha] at hlot
      simp only [Option.some.injEq] at hlot
      subst hlot
      have hw : decrementWhere id a = true := by
        simp only [decrementWhere, Bool.and_eq_true, decide_eq_true_eq]
        exact ⟨ha, hav⟩
      constructor
      · simp [parkingModel.decrementSlot, List.filter_cons, hw]
      · simp only [parkingModel.decrementSlot, List.map_cons, hw, if_true]
        rw [findById_cons, if_pos (by simpa [decrementSet] using ha)]
    · rw [if_neg ha] at hlot
      have hw : decrementWhere id a = false := by
        simp [decrementWhere, ha]
      obtain ⟨ih1, ih2⟩ := ih hlot
      constructor
      · simpa [parkingModel.decrementSlot, List.filter_cons, hw] using ih1
      · simp only [parkingModel.decrementSlot, List.map_cons, hw, Bool.false_eq_true, if_false]
        rw [findById_cons, if_neg ha]
        exact ih2

/-- C16 (result of a successful `createBooking`).  The returned object has status
`confirmed`; its `availableSlots` is the lot's `available_slots` before the call minus
one, which is the value the lot's row holds after the call; its `totalSlots` is the
lot's `total_slots`; and its id, date, times, duration and cost are those of the row
appended to `bookings`. -/
theorem created_result (env : Env) (s : Store) (req : BookingRequest) (r : CreatedBooking)
    (hok : (bookingService.createBooking env s req).1 = .ok r) :
    ∃ lot row,
      parkingModel.findById s.lots (req.parkingId.getD "") = some lot ∧
      parkingModel.findById (bookingService.createBooking env s req).2.lots
          (req.parkingId.getD "") =
        some { lot with available_slots := lot.available_slots - 1 } ∧
      (bookingService.createBooking env s req).2.bookings = s.bookings ++ [row] ∧
      r.status = "confirmed" ∧
      r.availableSlots = lot.available_slots - 1 ∧
      r.totalSlots = lot.total_slots ∧
      r.id = row.id ∧ r.date = row.date ∧ r.startTime = row.start_time ∧
      r.endTime = row.end_time ∧ r.durationHours = row.duration_hours ∧
      r.totalCost = row.total_cost := by
  rcases createBooking_cases env s req with ⟨e, he⟩ | ⟨lot, r1, s1, _, hlot, hav, htx, he⟩
  · rw [he] at hok
    cases hok
  · rw [he] at hok
    simp only [Except.ok.injEq] at hok
    subst hok
    obtain ⟨d, st, et, u, _, _, _, _, _, _, _, _, hs1⟩ := createTransaction_ok htx
    obtain ⟨d2, st2, et2, u2, hd2, hst2, het2, hu2, hr⟩ := createTransaction_ok_result htx
    obtain ⟨hfirst, hfind⟩ := decrementSlot_first hlot hav
    rw [hfirst] at hu2
    simp only [Option.some.injEq] at hu2
    subst hu2
    rw [he, hs1, hr]
    refine ⟨lot, _, hlot, hfind, rfl, rfl, rfl, rfl, rfl, ?_, ?_, ?_, rfl, rfl⟩
    all_goals simp_all

/-- Witness of C16 on the sample store: the request for `lot-A` takes its only slot. -/
theorem created_result_witness :
    ∃ lot row,
      parkingModel.findById storeAB.lots (requestA.parkingId.getD "") = some lot ∧
      parkingModel.findById (bookingService.createBooking envOk storeAB requestA).2.lots
          (requestA.parkingId.getD "") =
        some { lot with available_slots := lot.available_slots - 1 } ∧
      (bookingService.createBooking envOk storeAB requestA).2.bookings =
        storeAB.bookings ++ [row] ∧
      ({ id := "bk-2", parkingId := "lot-A", userId := "user-2",
         vehicleNumber := some "KA01AB1234", date := 21915, startTime := 32400,
         endTime := 39600, durationHours := JsNum.ofInt 2, totalCost := JsNum.ofInt 100,
         pricePerHour := 5000, status := "confirmed", createdAt := 1893412800000,
         availableSlots := 0, totalSlots := 1 } : CreatedBooking).status = "confirmed" ∧
      (0 : Int) = lot.available_slots - 1 ∧
      (1 : Int) = lot.total_slots ∧
      "bk-2" = row.id ∧ (21915 : Int) = row.date ∧ 32400 = row.start_time ∧
      39600 = row.end_time ∧ JsNum.ofInt 2 = row.duration_hours ∧
      JsNum.ofInt 100 = row.total_cost :=
  created_result envOk storeAB requestA
    { id := "bk-2", parkingId := "lot-A", userId := "user-2",
      vehicleNumber := some "KA01AB1234", date := 21915, startTime := 32400,
      endTime := 39600, durationHours := JsNum.ofInt 2, totalCost := JsNum.ofInt 100,
      pricePerHour := 5000, status := "confirmed", createdAt := 1893412800000,
      availableSlots := 0, totalSlots := 1 }
    (by decide)

/-- C17 (single-slot scenario).  On a reference server, at instants at which 2024-01-01
is not past, starting from a lot with `total_slots = 1`, `available_slots = 1` and no
bookings: booking A (09:00 to 11:00) succeeds and leaves `available_slots = 0`; then
booking B (same lot and date, 10:00 to 12:00) throws with status 409; then booking C
(11:00 to 13:00, which does not overlap A) throws the 409 of the check
`available_slots <= 0`; after the three calls `bookings` holds exactly one row. -/
theorem single_slot_scenario (now1 now2 now3 tz : Int) (u1 u2 u3 : String) (ok2 ok3 : Bool)
    (h1 : dateLt (isoInstant "2024-01-01") (localMidnight (refEnv now1 tz u1 true)) = false)
    (h2 : dateLt (isoInstant "2024-01-01") (localMidnight (refEnv now2 tz u2 ok2)) = false)
    (h3 : dateLt (isoInstant "2024-01-01") (localMidnight (refEnv now3 tz u3 ok3)) = false) :
    (∃ r, (bookingService.createBooking (refEnv now1 tz u1 true) scenarioStore scenarioA).1
        = .ok r) ∧
    (bookingService.createBooking (refEnv now1 tz u1 true) scenarioStore scenarioA).2 =
      scenarioAfterA u1 now1 ∧
    (scenarioAfterA u1 now1).lots = [{ scenarioLot with available_slots := 0 }] ∧
    (∃ e, bookingService.createBooking (refEnv now2 tz u2 ok2) (scenarioAfterA u1 now1)
        scenarioB = (.error e, scenarioAfterA u1 now1) ∧ e.status = 409) ∧
    bookingService.createBooking (refEnv now3 tz u3 ok3) (scenarioAfterA u1 now1) scenarioC =
      (.error lotFull, scenarioAfterA u1 now1) ∧
    (scenarioAfterA u1 now1).bookings.length = 1 := by
  have hv1 : passesChecks (refEnv now1 tz u1 true) scenarioA :=
    ⟨by decide, h1, by decide, by decide, by decide⟩
  have hv2 : passesChecks (refEnv now2 tz u2 ok2) scenarioB :=
    ⟨by decide, h2, by decide, by decide, by decide⟩
  have hv3 : passesChecks (refEnv now3 tz u3 ok3) scenarioC :=
    ⟨by decide, h3, by decide, by decide, by decide⟩
  have hd : isoDay "2024-01-01" = some 19723 := by decide
  have ht1 : clockSeconds "09:00" = some 32400 := by decide
  have ht2 : clockSeconds "11:00" = some 39600 := by decide
  have hc1 : bookingService.createBooking (refEnv now1 tz u1 true) scenarioStore scenarioA =
      (.ok { id := u1, parkingId := "lot-S", userId := "user-1", vehicleNumber := none,
             date := 19723, startTime := 32400, endTime := 39600, durationHours := JsNum.ofInt 2,
             totalCost := JsNum.ofInt 60, pricePerHour := 3000, status := "confirmed",
             createdAt := now1, availableSlots := 0, totalSlots := 1 },
       scenarioAfterA u1 now1) := by
    have hlot : parkingModel.findById scenarioStore.lots (scenarioA.parkingId.getD "") =
        some scenarioLot := by decide
    rw [createBooking_of_checks hv1 hlot, if_neg (by decide)]
    have hdur : durationHours (scenarioA.startTime.getD "") (scenarioA.endTime.getD "")
        = JsNum.ofInt 2 := by decide
    have hdec : parkingModel.decrementSlot scenarioStore.lots (scenarioA.parkingId.getD "") =
        (some scenarioLotTaken, [scenarioLotTaken]) := by decide
    have hcnt : bookingModel.findOverlapping scenarioStore.bookings
        (scenarioA.parkingId.getD "") 19723 32400 39600 = 0 := by decide
    have hcost : totalCost (pricePerHour scenarioLot) (JsNum.ofInt 2) = JsNum.ofInt 60 := by
      decide
    simp only [createTransaction, refEnv, hdur, hcost]
    have e1 : scenarioA.date.getD "" = "2024-01-01" := rfl
    have e2 : scenarioA.startTime.getD "" = "09:00" := rfl
    have e3 : scenarioA.endTime.getD "" = "11:00" := rfl
    rw [e1, e2, e3, hd, ht1, ht2]
    simp only [hcnt, hdec, bookingModel.create, refEnv]
    rfl
  have hlot2 : parkingModel.findById (scenarioAfterA u1 now1).lots
      (scenarioB.parkingId.getD "") = some scenarioLotTaken := rfl
  have hlot3 : parkingModel.findById (scenarioAfterA u1 now1).lots
      (scenarioC.parkingId.getD "") = some scenarioLotTaken := rfl
  have hc2 := createBooking_of_checks hv2 hlot2
  rw [if_pos (by decide)] at hc2
  have hc3 := createBooking_of_checks hv3 hlot3
  rw [if_pos (by decide)] at hc3
  rw [hc1, hc2, hc3]
  exact ⟨⟨_, rfl⟩, rfl, rfl, ⟨_, rfl, rfl⟩, rfl, rfl⟩

/-- Witness of C17: the three calls on 2023-12-31 at 12:00, 12:01 and 12:02 UTC on a
server five and a half hours east of UTC. -/
theorem single_slot_scenario_witness :
    (bookingService.createBooking (refEnv 1704024000000 330 "bk-A" true) scenarioStore
      scenarioA).2 = scenarioAfterA "bk-A" 1704024000000 ∧
    bookingService.createBooking (refEnv 1704024120000 330 "bk-C" true)
      (scenarioAfterA "bk-A" 1704024000000) scenarioC =
      (.error lotFull, scenarioAfterA "bk-A" 1704024000000) :=
  ⟨(single_slot_scenario 1704024000000 1704024060000 1704024120000 330 "bk-A" "bk-B" "bk-C"
      true true (by decide) (by decide) (by decide)).2.1,
   (single_slot_scenario 1704024000000 1704024060000 1704024120000 330 "bk-A" "bk-B" "bk-C"
      true true (by decide) (by decide) (by decide)).2.2.2.2.1⟩

/-! ## Lemmas: cancellation -/

theorem cancelBooking_head_some {now : Int} {bookings : List Booking} {bookingId : String}
    {c : Booking} (h : (bookingModel.cancelBooking now bookings bookingId).1 = some c) :
    ∃ b ∈ bookings, b.id = bookingId ∧ b.status = "confirmed" := by
  unfold bookingModel.cancelBooking at h
  simp only [List.head?_map] at h
  cases hf : bookings.filter (cancelWhere bookingId) with
  | nil => rw [hf] at h; cases h
  | cons a as =>
    have ha : a ∈ bookings.filter (cancelWhere bookingId) := by rw [hf]; exact List.mem_cons_self _ _
    rw [List.mem_filter] at ha
    obtain ⟨ha1, ha2⟩ := ha
    simp only [cancelWhere, Bool.and_eq_true, decide_eq_true_eq] at ha2
    exact ⟨a, ha1, ha2.1, ha2.2⟩

theorem cancelBooking_none_confirmed (now : Int) (bookings : List Booking) (bookingId : String) :
    ∀ b ∈ (bookingModel.cancelBooking now bookings bookingId).2,
      b.id = bookingId → b.status ≠ "confirmed" := by
  intro b hb hid
  simp only [bookingModel.cancelBooking, List.mem_map] at hb
  obtain ⟨b0, _, rfl⟩ := hb
  by_cases hw : cancelWhere bookingId b0 = true
  · rw [if_pos hw]
    simp [cancelSet]
  · rw [if_neg hw] at hid ⊢
    intro hst
    apply hw
    simp only [cancelWhere, Bool.and_eq_true, decide_eq_true_eq]
    exact ⟨hid, hst⟩

theorem cancelBooking_error_of_none_confirmed (env : Env) (s : Store)
    (bookingId userId : Option String)
    (h : ∀ b ∈ s.bookings, b.id = bookingId.getD "" → b.status ≠ "confirmed") :
    ∃ e, bookingService.cancelBooking env s bookingId userId = (.error e, s) := by
  rcases cancelBooking_cases env s bookingId userId with he | ⟨b, r, s1, _, _, _, htx, _⟩
  · exact he
  · obtain ⟨c, hc, _⟩ := cancelTransaction_ok htx
    obtain ⟨b1, hb1, hid, hst⟩ := cancelBooking_head_some hc
    exact absurd hst (h b1 hb1 hid)

/-- C18 (cancelling what is not confirmed).  A booking whose status is `cancelled` or
`completed` makes `cancelBooking` throw with status 400; more generally, when no row
with the given id is confirmed, `cancelBooking` throws; in both cases the store is left
as it was.  Of two calls in a row for the same booking id at most one changes the
store: after a call that succeeded, the next one throws and leaves the store, hence the
lot's `available_slots`, as the first call left it. -/
theorem cancel_rejects_not_confirmed (env : Env) (s : Store)
    (bookingId userId : Option String) :
    (∀ b, bookingModel.findById s (bookingId.getD "") = some b →
      (b.status = "cancelled" ∨ b.status = "completed") →
      ∃ msg, bookingService.cancelBooking env s bookingId userId =
        (.error (.http 400 msg), s)) ∧
    ((∀ b ∈ s.bookings, b.id = bookingId.getD "" → b.status ≠ "confirmed") →
      ∃ e, bookingService.cancelBooking env s bookingId userId = (.error e, s)) ∧
    (∀ (env2 : Env) (userId2 : Option String),
      (bookingService.cancelBooking env s bookingId userId).2 = s ∨
      ∃ e, bookingService.cancelBooking env2
          (bookingService.cancelBooking env s bookingId userId).2 bookingId userId2 =
        (.error e, (bookingService.cancelBooking env s bookingId userId).2)) := by
  refine ⟨?_, cancelBooking_error_of_none_confirmed env s bookingId userId, ?_⟩
  · intro b hb hst
    unfold bookingService.cancelBooking
    by_cases ht : truthy bookingId = true
    · simp only [ht, Bool.not_true, Bool.false_eq_true, if_false, hb]
      rcases hst with h | h
      · rw [if_pos h]
        exact ⟨_, rfl⟩
      · by_cases h2 : b.status = "cancelled"
        · rw [if_pos h2]
          exact ⟨_, rfl⟩
        · rw [if_neg h2, if_pos h]
          exact ⟨_, rfl⟩
    · simp only [ht, Bool.not_false, if_true]
      exact ⟨_, rfl⟩
  · intro env2 userId2
    rcases cancelBooking_cases env s bookingId userId with ⟨e, he⟩ | ⟨b, r, s1, _, _, _, htx, he⟩
    · left
      rw [he]
    · right
      obtain ⟨c, _, hs1⟩ := cancelTransaction_ok htx
      rw [he]
      apply cancelBooking_error_of_none_confirmed
      simp only [hs1]
      exact cancelBooking_none_confirmed env.now s.bookings (bookingId.getD "")

/-- Witness of C18 on the sample store: the cancelled booking `bk-0` is refused, and after
`bk-1` has been cancelled once a second call for it is refused and leaves the three
slots of `lot-B` as they were. -/
theorem cancel_rejects_not_confirmed_witness :
    bookingModel.findById storeCancelled "bk-0" = some bookingB2 ∧
    bookingB2.status = "cancelled" ∧
    (∃ msg, bookingService.cancelBooking envOk storeCancelled (some "bk-0") none =
      (.error (.http 400 msg), storeCancelled)) ∧
    (bookingService.cancelBooking envOk storeAB (some "bk-1") none).2.lots =
      [lotA, { lotB with available_slots := 3 }] ∧
    bookingService.cancelBooking envOk
        (bookingService.cancelBooking envOk storeAB (some "bk-1") none).2 (some "bk-1") none =
      (.error (.http 400 "This booking is already cancelled"),
       (bookingService.cancelBooking envOk storeAB (some "bk-1") none).2) :=
  ⟨by decide, by decide,
    (cancel_rejects_not_confirmed envOk storeCancelled (some "bk-0") none).1 bookingB2
      (by decide) (Or.inl (by decide)),
    by decide, by decide⟩

theorem cancelBooking_no_403 (env : Env) (s : Store) (bookingId userId : Option String)
    (hskip : truthy userId = false ∨
      ∀ b, bookingModel.findById s (bookingId.getD "") = some b → b.user_id = userId.getD "")
    (e : Thrown) (h : (bookingService.cancelBooking env s bookingId userId).1 = .error e) :
    e.status ≠ 403 := by
  unfold bookingService.cancelBooking at h
  split at h
  · cases h; decide
  · split at h
    · cases h; decide
    · rename_i b hb
      split at h
      · cases h; decide
      · split at h
        · cases h; decide
        · split at h
          · rename_i hown
            exfalso
            simp only [Bool.and_eq_true, decide_eq_true_eq] at hown
            rcases hskip with h1 | h1
            · simp [hown.1] at h1
            · exact hown.2 (h1 b hb)
          · split at h
            · cases h
            · rename_i err herr
              simp only [Except.error.injEq] at h
              subst h
              unfold cancelTransaction at herr
              split at herr
              · cases herr; decide
              · cases herr

/-- C19 as stated fails: the requester id `""` is supplied and differs from the owner
`user-1` of the confirmed booking `bk-1`, yet the call succeeds, exactly as the call
without a requester id does. -/
theorem empty_requester_skips_ownership :
    bookingModel.findById storeAB "bk-1" = some bookingB1 ∧
    bookingB1.status = "confirmed" ∧
    bookingB1.user_id ≠ "" ∧
    (∃ r, (bookingService.cancelBooking envOk storeAB (some "bk-1") (some "")).1 = .ok r) ∧
    bookingService.cancelBooking envOk storeAB (some "bk-1") (some "") =
      bookingService.cancelBooking envOk storeAB (some "bk-1") none := by
  refine ⟨by decide, by decide, by decide, ⟨_, rfl⟩, by decide⟩

/-- C19 as amended.  For a confirmed booking: a requester id that is supplied as a
non-empty text and differs from the booking's `user_id` makes `cancelBooking` throw with
status 403 and leaves the store as it was; when no requester id is supplied, or the
empty text, the ownership check is skipped: the call does what the call without a
requester id does, and that call never throws a 403. -/
theorem ownership_check (env : Env) (s : Store) (bookingId userId : Option String)
    (b : Booking) (hid : truthy bookingId = true)
    (hb : bookingModel.findById s (bookingId.getD "") = some b)
    (hconf : b.status = "confirmed") :
    (∀ u, userId = some u → u ≠ "" → u ≠ b.user_id →
      bookingService.cancelBooking env s bookingId userId =
        (.error (.http 403 "You can only cancel your own bookings"), s)) ∧
    ((userId = none ∨ userId = some "") →
      bookingService.cancelBooking env s bookingId userId =
        bookingService.cancelBooking env s bookingId none) ∧
    (∀ e, (bookingService.cancelBooking env s bookingId none).1 = .error e →
      e.status ≠ 403) := by
  refine ⟨?_, ?_, ?_⟩
  · intro u hu hne hdiff
    unfold bookingService.cancelBooking
    have h1 : b.status ≠ "cancelled" := by rw [hconf]; decide
    have h2 : b.status ≠ "completed" := by rw [hconf]; decide
    have h3 : (truthy userId && decide (b.user_id ≠ userId.getD "")) = true := by
      subst hu
      simp only [truthy, Option.getD_some, Bool.and_eq_true, decide_eq_true_eq]
      exact ⟨hne, fun h => hdiff h.symm⟩
    simp only [hid, Bool.not_true, Bool.false_eq_true, if_false, hb, h1, h2, h3, if_true]
  · intro hu
    rcases hu with hu | hu
    · rw [hu]
    · subst hu
      unfold bookingService.cancelBooking
      simp [truthy]
  · intro e he
    apply cancelBooking_no_403 env s bookingId none _ e he
    left
    simp [truthy]

/-- Witness of C19 as amended on the sample store: `user-2` may not cancel `bk-1` of
`user-1`. -/
theorem ownership_check_witness :
    bookingModel.findById storeAB "bk-1" = some bookingB1 ∧
    bookingService.cancelBooking envOk storeAB (some "bk-1") (some "user-2") =
      (.error (.http 403 "You can only cancel your own bookings"), storeAB) :=
  ⟨by decide,
    (ownership_check envOk storeAB (some "bk-1") (some "user-2") bookingB1 (by decide)
      (by decide) (by decide)).1 "user-2" rfl (by decide) (by decide)⟩

theorem bookingDateTime_eq_startMinute (env : Env) (b : Booking) :
    bookingDateTime env b = startMinuteInstant env b := by
  unfold bookingDateTime startMinuteInstant
  simp only
  have h : ((b.start_time / 3600 : Nat) : Int) * 60 + ((b.start_time % 3600 / 60 : Nat) : Int)
      = ((b.start_time / 60 : Nat) : Int) := by
    have : b.start_time / 3600 * 60 + b.start_time % 3600 / 60 = b.start_time / 60 := by omega
    exact_mod_cast this
  rw [h]

theorem booking_findById_mem {s : Store} {id : String} {b : Booking}
    (h : bookingModel.findById s id = some b) : b ∈ s.bookings ∧ b.id = id := by
  unfold bookingModel.findById at h
  refine ⟨List.mem_of_find?_eq_some h, ?_⟩
  have := List.find?_some h
  simp only [Bool.and_eq_true, decide_eq_true_eq] at this
  exact this.1

/-- C20 as stated fails: `bk-1` at `lot-B` (two of three slots free) starts at 09:00:30
of 2030-01-01 and is cancelled at 09:00:15 of that day.  Its date and start time are not
before the current instant, yet the successful cancellation leaves `available_slots` of
`lot-B` as it was: the source reads the hour and the minute of `start_time` and takes
the start as 09:00:00, which is past.  A start with seconds is what `createBooking`
stores when it is given one. -/
theorem seconds_of_start_are_dropped :
    bookingModel.findById storeHalfMinute "bk-1" = some bookingHalfMinute ∧
    bookingHalfMinute.status = "confirmed" ∧
    parkingModel.findById storeHalfMinute.lots "lot-B" = some lotB ∧
    lotB.available_slots < lotB.total_slots ∧
    ¬ startInstant envQuarterPast bookingHalfMinute < envQuarterPast.now ∧
    (∃ r, (bookingService.cancelBooking envQuarterPast storeHalfMinute (some "bk-1") none).1
      = .ok r) ∧
    (bookingService.cancelBooking envQuarterPast storeHalfMinute (some "bk-1") none).2.lots =
      storeHalfMinute.lots ∧
    ((bookingService.createBooking envOk storeAB requestHalfMinute).2.bookings.map
      (fun b => b.start_time)) = [32400, 32430] := by
  refine ⟨by decide, by decide, by decide, by decide, by decide, ?_, by decide, by decide⟩
  exact ⟨_, rfl⟩

/-- C20 as amended.  With lots and bookings keyed by `id`, for a confirmed booking `B` at
a lot `L` with `available_slots < total_slots`: a successful `cancelBooking` rewrites
exactly the row of `B`, setting its status to `cancelled` (and its `cancelled_at`); if
the start of `B`, its date and its start time read to the minute on the clock of the
server, is not before the current instant it rewrites exactly the row of `L`, adding
one to `available_slots`; if that start is before the current instant it leaves
`parking_lots` as it was. -/
theorem release_on_cancellation (env : Env) (s : Store) (bookingId userId : Option String)
    (B : Booking) (L : Lot) (r : CancelledBooking)
    (hkeyL : LotKey s.lots) (hkeyB : BookingKey s.bookings)
    (hB : bookingModel.findById s (bookingId.getD "") = some B)
    (hconf : B.status = "confirmed")
    (hL : parkingModel.findById s.lots B.parking_id = some L)
    (hcap : L.available_slots < L.total_slots)
    (hok : (bookingService.cancelBooking env s bookingId userId).1 = .ok r) :
    B ∈ s.bookings ∧ L ∈ s.lots ∧
    (bookingService.cancelBooking env s bookingId userId).2.bookings =
      s.bookings.map (fun b =>
        if b.id = B.id then { b with status := "cancelled", cancelled_at := some env.now }
        else b) ∧
    (¬ startMinuteInstant env B < env.now →
      (bookingService.cancelBooking env s bookingId userId).2.lots =
        s.lots.map (fun l =>
          if l.id = L.id then { l with available_slots := l.available_slots + 1 } else l)) ∧
    (startMinuteInstant env B < env.now →
      (bookingService.cancelBooking env s bookingId userId).2.lots = s.lots) := by
  rcases cancelBooking_cases env s bookingId userId with ⟨e, he⟩ | ⟨b, r1, s1, hb, _, _, htx, he⟩
  · rw [he] at hok
    cases hok
  · rw [hB] at hb
    simp only [Option.some.injEq] at hb
    subst hb
    obtain ⟨c, _, hs1⟩ := cancelTransaction_ok htx
    obtain ⟨hBmem, hBid⟩ := booking_findById_mem hB
    obtain ⟨hLmem, hLid⟩ := findById_mem hL
    have hpast : isPast env B = decide (startMinuteInstant env B < env.now) := by
      unfold isPast
      rw [bookingDateTime_eq_startMinute env B]
    rw [he, hs1]
    refine ⟨hBmem, hLmem, ?_, ?_, ?_⟩
    · simp only [bookingModel.cancelBooking]
      apply List.map_congr_left
      intro b hbmem
      by_cases hid : b.id = B.id
      · have hbB : b = B := List.inj_on_of_nodup_map hkeyB hbmem hBmem hid
        subst hbB
        have hw : cancelWhere (bookingId.getD "") b = true := by
          simp only [cancelWhere, Bool.and_eq_true, decide_eq_true_eq]
          exact ⟨hBid, hconf⟩
        simp only [hw, if_true, cancelSet]
      · have hw : cancelWhere (bookingId.getD "") b = false := by
          simp only [cancelWhere, Bool.and_eq_false_iff, decide_eq_false_iff_not]
          left
          rw [← hBid]
          exact hid
        simp only [hw, Bool.false_eq_true, if_false, hid]
    · intro hnot
      have hp : isPast env B = false := by
        rw [hpast]
        simpa using hnot
      simp only [hp, Bool.not_false, if_true]
      rw [hLid]
      exact keyed_update_table hkeyL hL
        (c := fun l => decide (l.available_slots < l.total_slots))
        (by simpa using hcap) incrementSet
    · intro hbefore
      have hp : isPast env B = true := by
        rw [hpast]
        simpa using hbefore
      simp only [hp, Bool.not_true, Bool.false_eq_true, if_false]

/-- Witness of C20 as amended on the sample store: `bk-1` (2030-01-01, 09:00, at `lot-B`
with two of three slots free) is cancelled the day before, which gives the slot back;
cancelled at noon of its day it stays taken. -/
theorem release_on_cancellation_witness :
    (¬ startMinuteInstant envOk bookingB1 < envOk.now) ∧
    (bookingService.cancelBooking envOk storeAB (some "bk-1") none).2.lots =
      [lotA, { lotB with available_slots := 3 }] ∧
    startMinuteInstant envLater bookingB1 < envLater.now ∧
    (bookingService.cancelBooking envLater storeAB (some "bk-1") none).2.lots =
      storeAB.lots ∧
    (bookingService.cancelBooking envOk storeAB (some "bk-1") none).2.bookings =
      storeAB.bookings.map (fun b =>
        if b.id = bookingB1.id
        then { b with status := "cancelled", cancelled_at := some envOk.now } else b) :=
  ⟨by decide, by decide, by decide,
    (release_on_cancellation envLater storeAB (some "bk-1") none bookingB1 lotB
      { id := "bk-1", parkingId := "lot-B", userId := "user-1", vehicleNumber := none,
        date := 21915, startTime := 32400, endTime := 39600, durationHours := JsNum.ofInt 2,
        totalCost := JsNum.ofInt 40, status := "cancelled", cancelledAt := some 1893499200000,
        availableSlots := none, totalSlots := none,
        refundNote := "No refund — booking time has already passed" }
      (by decide) (by decide) (by decide) (by decide) (by decide) (by decide)
      (by decide)).2.2.2.2 (by decide),
    by decide⟩

/-! ## Lemmas: the object returned by a cancellation -/

theorem cancelTransaction_ok_result {env : Env} {s : Store} {booking : Booking}
    {bookingId : String} {r : CancelledBooking} {s1 : Store}
    (h : cancelTransaction env s booking bookingId = .ok (r, s1)) :
    r.refundNote = (if isPast env booking then noteNoRefund else noteReleased) ∧
    r.availableSlots =
      (if !isPast env booking then parkingModel.incrementSlot s.lots booking.parking_id
        else (none, s.lots)).1.map (fun l => l.available_slots) ∧
    r.status = "cancelled" := by
  unfold cancelTransaction at h
  rcases hc : bookingModel.cancelBooking env.now s.bookings bookingId with ⟨c, bookings1⟩
  rw [hc] at h
  cases c with
  | none => simp at h
  | some cancelled =>
    simp only [Except.ok.injEq, Prod.mk.injEq] at h
    obtain ⟨h1, _⟩ := h
    have hst : cancelled.status = "cancelled" := by
      have hc1 : (bookingModel.cancelBooking env.now s.bookings bookingId).1 = some cancelled := by
        rw [hc]
      unfold bookingModel.cancelBooking at hc1
      simp only [List.head?_map] at hc1
      cases hf : (s.bookings.filter (cancelWhere bookingId)).head? with
      | none => rw [hf] at hc1; cases hc1
      | some a =>
        rw [hf] at hc1
        simp only [Option.map_some', Option.some.injEq] at hc1
        rw [← hc1]
        rfl
    rw [← h1]
    exact ⟨rfl, rfl, hst⟩

theorem incrementSlot_first {lots : List Lot} {id : String} {lot : Lot}
    (hlot : parkingModel.findById lots id = some lot)
    (hav : lot.available_slots < lot.total_slots) :
    (parkingModel.incrementSlot lots id).1 = some (incrementSet lot) ∧
    parkingModel.findById (parkingModel.incrementSlot lots id).2 id = some (incrementSet lot) := by
  induction lots with
  | nil => simp [parkingModel.findById] at hlot
  | cons a as ih =>
    rw [findById_cons] at hlot
    by_cases ha : a.id = id
    · rw [if_pos ha] at hlot
      simp only [Option.some.injEq] at hlot
      subst hlot
      have hw : incrementWhere id a = true := by
        simp only [incrementWhere, Bool.and_eq_true, decide_eq_true_eq]
        exact ⟨ha, hav⟩
      constructor
      · simp [parkingModel.incrementSlot, List.filter_cons, hw]
      · simp only [parkingModel.incrementSlot, List.map_cons, hw, if_true]
        rw [findById_cons, if_pos (by simpa [incrementSet] using ha)]
    · rw [if_neg ha] at hlot
      have hw : incrementWhere id a = false := by
        simp [incrementWhere, ha]
      obtain ⟨ih1, ih2⟩ := ih hlot
      constructor
      · simpa [parkingModel.incrementSlot, List.filter_cons, hw] using ih1
      · simp only [parkingModel.incrementSlot, List.map_cons, hw, Bool.false_eq_true, if_false]
        rw [findById_cons, if_neg ha]
        exact ih2

/-- C21 as stated fails: `lot-F` shows its single slot free next to the confirmed booking
`bk-F`; cancelling `bk-F` before its start succeeds with the note that the slot has been
released, while `available_slots` of `lot-F` is what it was. -/
theorem refund_note_without_release :
    bookingModel.findById storeFull "bk-F" = some bookingF ∧
    isPast envOk bookingF = false ∧
    (∃ r, (bookingService.cancelBooking envOk storeFull (some "bk-F") none).1 = .ok r ∧
      r.refundNote = noteReleased ∧ r.availableSlots = none) ∧
    (bookingService.cancelBooking envOk storeFull (some "bk-F") none).2.lots =
      storeFull.lots := by
  refine ⟨by decide, by decide, ⟨_, rfl, by decide, by decide⟩, by decide⟩

/-- C21 as amended.  For a successful `cancelBooking` of a booking `B` whose lot `L` has
`available_slots < total_slots`: either the note says that the slot has been released
and the row of `L` holds `available_slots` one more than before, or the note is the
no-refund note and `parking_lots` is as before; so the note says released if and only
if `available_slots` of `L` was increased by one. -/
theorem refund_note_reflects_release (env : Env) (s : Store)
    (bookingId userId : Option String) (B : Booking) (L : Lot) (r : CancelledBooking)
    (hB : bookingModel.findById s (bookingId.getD "") = some B)
    (hL : parkingModel.findById s.lots B.parking_id = some L)
    (hcap : L.available_slots < L.total_slots)
    (hok : (bookingService.cancelBooking env s bookingId userId).1 = .ok r) :
    ((r.refundNote = noteReleased ∧
        parkingModel.findById (bookingService.cancelBooking env s bookingId userId).2.lots
          B.parking_id = some { L with available_slots := L.available_slots + 1 }) ∨
     (r.refundNote = noteNoRefund ∧
        (bookingService.cancelBooking env s bookingId userId).2.lots = s.lots)) ∧
    (r.refundNote = noteReleased ↔
      parkingModel.findById (bookingService.cancelBooking env s bookingId userId).2.lots
        B.parking_id = some { L with available_slots := L.available_slots + 1 }) := by
  rcases cancelBooking_cases env s bookingId userId with ⟨e, he⟩ | ⟨b, r1, s1, hb, _, _, htx, he⟩
  · rw [he] at hok
    cases hok
  · rw [hB] at hb
    simp only [Option.some.injEq] at hb
    subst hb
    rw [he] at hok
    simp only [Except.ok.injEq] at hok
    subst hok
    obtain ⟨c, _, hs1⟩ := cancelTransaction_ok htx
    obtain ⟨hnote, _, _⟩ := cancelTransaction_ok_result htx
    obtain ⟨_, hfind⟩ := incrementSlot_first hL hcap
    rw [he, hs1, hnote]
    cases hp : isPast env B with
    | true =>
      simp only [Bool.not_true, Bool.false_eq_true, if_false, if_true]
      refine ⟨Or.inr ⟨trivial, trivial⟩, ?_⟩
      constructor
      · intro h
        exact absurd h (by decide)
      · intro h
        rw [hL] at h
        simp only [Option.some.injEq] at h
        have := congrArg Lot.available_slots h
        simp only at this
        omega
    | false =>
      simp only [Bool.not_false, Bool.false_eq_true, if_false, if_true]
      exact ⟨Or.inl ⟨trivial, hfind⟩, ⟨fun _ => hfind, fun _ => trivial⟩⟩

/-- Witness of C21 as amended on the sample store: `bk-1` at `lot-B` (two of three slots
free) cancelled the day before its start. -/
theorem refund_note_reflects_release_witness :
    parkingModel.findById storeAB.lots bookingB1.parking_id = some lotB ∧
    lotB.available_slots < lotB.total_slots ∧
    (noteReleased = noteReleased ↔
      parkingModel.findById (bookingService.cancelBooking envOk storeAB (some "bk-1") none).2.lots
        bookingB1.parking_id = some { lotB with available_slots := lotB.available_slots + 1 }) :=
  ⟨by decide, by decide,
    (refund_note_reflects_release envOk storeAB (some "bk-1") none bookingB1 lotB
      { id := "bk-1", parkingId := "lot-B", userId := "user-1", vehicleNumber := none,
        date := 21915, startTime := 32400, endTime := 39600, durationHours := JsNum.ofInt 2,
        totalCost := JsNum.ofInt 40, status := "cancelled", cancelledAt := some 1893412800000,
        availableSlots := some 3, totalSlots := some 3, refundNote := noteReleased }
      (by decide) (by decide) (by decide) (by decide)).2⟩

/-! ## Lemmas: the life of a booking row -/

theorem lifecycle_refl (b : Booking) : LifecycleStep b b :=
  ⟨rfl, rfl, rfl, rfl, rfl, rfl, rfl, rfl, rfl, rfl, Or.inl rfl, fun _ => rfl⟩

theorem lifecycle_cancel (now : Int) (bookingId : String) (b : Booking) :
    LifecycleStep b (if cancelWhere bookingId b then cancelSet now b else b) := by
  by_cases hw : cancelWhere bookingId b = true
  · rw [if_pos hw]
    simp only [cancelWhere, Bool.and_eq_true, decide_eq_true_eq] at hw
    refine ⟨rfl, rfl, rfl, rfl, rfl, rfl, rfl, rfl, rfl, rfl, Or.inr ⟨hw.2, rfl⟩, ?_⟩
    intro hc
    rw [hw.2] at hc
    exact absurd hc (by decide)
  · rw [if_neg hw]
    exact lifecycle_refl b

/-- C22 (booking lifecycle).  After any call of the booking service (`createBooking`,
`cancelBooking`, `getBookingById`, `getUserBookings`) the table `bookings` consists of
the rows it had, in their places, followed by the rows added; each row it had keeps
every column other than `status` and `cancelled_at`, its status is as before or has gone
from `confirmed` to `cancelled`, and a row that was cancelled is unchanged. -/
theorem booking_lifecycle (env : Env) (s : Store) (call : ServiceCall) :
    ∃ kept added, (storeAfter env s call).bookings = kept ++ added ∧
      List.Forall₂ LifecycleStep s.bookings kept := by
  have hsame : ∃ kept added, s.bookings = kept ++ added ∧
      List.Forall₂ LifecycleStep s.bookings kept :=
    ⟨s.bookings, [], by simp, List.forall₂_same.mpr (fun b _ => lifecycle_refl b)⟩
  cases call with
  | createBooking req =>
    simp only [storeAfter]
    rcases createBooking_cases env s req with ⟨e, he⟩ | ⟨lot, r, s1, _, _, _, htx, he⟩
    · rw [he]
      exact hsame
    · obtain ⟨d, st, et, u, _, _, _, _, _, _, _, _, hs1⟩ := createTransaction_ok htx
      rw [he, hs1]
      exact ⟨s.bookings, _, rfl, List.forall₂_same.mpr (fun b _ => lifecycle_refl b)⟩
  | cancelBooking bookingId userId =>
    simp only [storeAfter]
    rcases cancelBooking_cases env s bookingId userId with ⟨e, he⟩ | ⟨b, r, s1, _, _, _, htx, he⟩
    · rw [he]
      exact hsame
    · obtain ⟨c, _, hs1⟩ := cancelTransaction_ok htx
      rw [he, hs1]
      refine ⟨_, [], (List.append_nil _).symm, ?_⟩
      simp only [bookingModel.cancelBooking]
      rw [List.forall₂_map_right_iff]
      exact List.forall₂_same.mpr (fun b _ => lifecycle_cancel env.now _ b)
  | getBookingById bookingId =>
    simp only [storeAfter, bookingService.getBookingById]
    split
    · exact hsame
    · split <;> exact hsame
  | getUserBookings userId =>
    simp only [storeAfter, bookingService.getUserBookings]
    split <;> exact hsame

/-- Witness of C22 on the sample store with a cancelled and a confirmed booking:
cancelling the confirmed `bk-1` rewrites its status and leaves the cancelled `bk-0`. -/
theorem booking_lifecycle_witness :
    (storeAfter envOk storeCancelled (.cancelBooking (some "bk-1") none)).bookings =
      [{ bookingB1 with status := "cancelled", cancelled_at := some 1893412800000 },
       bookingB2] ∧
    ∃ kept added,
      (storeAfter envOk storeCancelled (.cancelBooking (some "bk-1") none)).bookings =
        kept ++ added ∧
      List.Forall₂ LifecycleStep storeCancelled.bookings kept :=
  ⟨by decide, booking_lifecycle envOk storeCancelled (.cancelBooking (some "bk-1") none)⟩

/-! ## Lemmas: the order of the cancellation checks -/

theorem cancelBooking_first_failure (env : Env) (s : Store) (bookingId userId : Option String)
    (hid : truthy bookingId = true) (e : Thrown)
    (h : firstFailure (cancellationChecks s bookingId userId) = some e) :
    bookingService.cancelBooking env s bookingId userId = (.error e, s) := by
  unfold cancellationChecks at h
  unfold bookingService.cancelBooking
  simp only [hid, Bool.not_true, Bool.false_eq_true, if_false]
  cases hb : bookingModel.findById s (bookingId.getD "") with
  | none =>
    simp only [firstFailure_cons, hb, Option.isSome_none, Bool.false_eq_true, if_false] at h
    cases h
    rfl
  | some b =>
    simp only [firstFailure_cons, hb, Option.isSome_some, if_true] at h
    by_cases h1 : b.status = "cancelled"
    · simp only [h1, ne_eq, not_true_eq_false, decide_False, Bool.false_eq_true, if_false,
        if_true] at h ⊢
      cases h
      rfl
    · by_cases h2 : b.status = "completed"
      · simp only [h1, h2, ne_eq, not_true_eq_false, not_false_eq_true, decide_True,
          decide_False, Bool.false_eq_true, if_false, if_true] at h ⊢
        cases h
        rfl
      · by_cases h3 : (truthy userId && decide (b.user_id ≠ userId.getD "")) = true
        · simp only [h1, h2, h3, ne_eq, not_false_eq_true, decide_True, Bool.not_true,
            Bool.false_eq_true, if_false, if_true] at h ⊢
          cases h
          rfl
        · exfalso
          apply h3
          simp only [Bool.not_eq_true] at h3
          simp [h1, h2, h3, firstFailure] at h
          simp [h.1.1, h.1.2]

/-- C23 (order of the checks of `cancelBooking`).  For a call with a booking id, the
error thrown is the error of the first failing check in the order: the booking exists
(404), its status is not `cancelled` or `completed` (400), the requester owns it (403);
and the store is left as it was.  So an id that names no booking gives 404, and a
cancelled booking gives the already-cancelled error whoever asks. -/
theorem cancellation_order (env : Env) (s : Store) (bookingId userId : Option String)
    (hid : truthy bookingId = true) :
    (∀ e, firstFailure (cancellationChecks s bookingId userId) = some e →
      bookingService.cancelBooking env s bookingId userId = (.error e, s)) ∧
    (bookingModel.findById s (bookingId.getD "") = none →
      bookingService.cancelBooking env s bookingId userId =
        (.error (.http 404 "Booking not found"), s)) ∧
    (∀ b, bookingModel.findById s (bookingId.getD "") = some b → b.status = "cancelled" →
      bookingService.cancelBooking env s bookingId userId =
        (.error (.http 400 "This booking is already cancelled"), s)) := by
  refine ⟨fun e he => cancelBooking_first_failure env s bookingId userId hid e he, ?_, ?_⟩
  · intro hb
    apply cancelBooking_first_failure env s bookingId userId hid
    unfold cancellationChecks
    simp only [firstFailure_cons, hb, Option.isSome_none, Bool.false_eq_true, if_false]
  · intro b hb hst
    apply cancelBooking_first_failure env s bookingId userId hid
    unfold cancellationChecks
    simp only [firstFailure_cons, hb, hst, Option.isSome_some, if_true, ne_eq,
      not_true_eq_false, decide_False, Bool.false_eq_true, if_false]

/-- Witness of C23 on the sample store: `user-9`, who does not own the cancelled booking
`bk-0`, gets the already-cancelled error and not the 403; an unknown id gives 404. -/
theorem cancellation_order_witness :
    bookingB2.user_id ≠ "user-9" ∧
    bookingService.cancelBooking envOk storeCancelled (some "bk-0") (some "user-9") =
      (.error (.http 400 "This booking is already cancelled"), storeCancelled) ∧
    bookingService.cancelBooking envOk storeCancelled (some "bk-none") (some "user-9") =
      (.error (.http 404 "Booking not found"), storeCancelled) :=
  ⟨by decide,
    (cancellation_order envOk storeCancelled (some "bk-0") (some "user-9") (by decide)).2.2
      bookingB2 (by decide) (by decide),
    (cancellation_order envOk storeCancelled (some "bk-none") (some "user-9")
      (by decide)).2.1 (by decide)⟩

/-! ## Lemmas: the vehicle number -/

theorem createTransaction_error_vehicle {env : Env} {s : Store} {lot : Lot}
    {parkingId userId : String} (v1 v2 : Option String) {date startTime endTime : String}
    {duration cost : JsNum} {e : Thrown}
    (h : createTransaction env s lot parkingId userId v1 date startTime endTime
      duration cost = .error e) :
    createTransaction env s lot parkingId userId v2 date startTime endTime
      duration cost = .error e := by
  unfold createTransaction at h ⊢
  cases hd : env.dbDate date with
  | none => simpa [hd] using h
  | some d =>
    cases hst : env.dbTime startTime with
    | none => simpa [hd, hst] using h
    | some st =>
      cases het : env.dbTime endTime with
      | none => simpa [hd, hst, het] using h
      | some et =>
        simp only [hd, hst, het] at h ⊢
        by_cases hcnt : (bookingModel.findOverlapping s.bookings parkingId d st et : Int)
            ≥ lot.total_slots
        · rw [if_pos hcnt] at h ⊢
          exact h
        · rw [if_neg hcnt] at h ⊢
          rcases hdec : parkingModel.decrementSlot s.lots parkingId with ⟨u, lots1⟩
          rw [hdec] at h
          cases u with
          | none => exact h
          | some updated =>
            simp only [bookingModel.create] at h ⊢
            cases hins : env.insertOk with
            | true => simp [hins] at h
            | false =>
              simp only [hins, Bool.false_eq_true, if_false] at h ⊢
              exact h

theorem createBooking_error_vehicle (env : Env) (s : Store) (req : BookingRequest)
    (v : Option String) (e : Thrown)
    (h : (bookingService.createBooking env s req).1 = .error e) :
    (bookingService.createBooking env s { req with vehicleNumber := v }).1 = .error e := by
  rcases createBooking_error_kinds env s req e h with hff | ⟨hff, _⟩
  · have hff2 : firstFailure (admissionChecks env s { req with vehicleNumber := v }) = some e :=
      hff
    rw [createBooking_first_failure env s _ e hff2]
  · obtain ⟨hv, lot, hlot, hav⟩ := firstFailure_none env s req hff
    have hv2 : passesChecks env { req with vehicleNumber := v } := hv
    have hlot2 : parkingModel.findById s.lots
        (({ req with vehicleNumber := v } : BookingRequest).parkingId.getD "") = some lot := hlot
    rw [createBooking_of_checks hv hlot, if_neg (by omega)] at h
    rw [createBooking_of_checks hv2 hlot2, if_neg (by omega)]
    split at h
    · cases h
    · rename_i err herr
      simp only [Except.error.injEq] at h
      subst h
      have := createTransaction_error_vehicle req.vehicleNumber v herr
      simp only [this]

/-- C24 (required fields).  When `parkingId`, `userId`, `date`, `startTime` or `endTime`
is missing or empty, whatever the other fields, `createBooking` throws the 400 of the
required fields and leaves the store as it was.  The vehicle number decides nothing: a
call throws an error with a vehicle number exactly when it throws that error without,
and a request without a vehicle number (or with an empty one) that is admitted is
stored with `vehicle_number` null. -/
theorem required_fields (env : Env) (s : Store) (req : BookingRequest) :
    ((req.parkingId = none ∨ req.parkingId = some "" ∨ req.userId = none ∨
        req.userId = some "" ∨ req.date = none ∨ req.date = some "" ∨
        req.startTime = none ∨ req.startTime = some "" ∨ req.endTime = none ∨
        req.endTime = some "") →
      bookingService.createBooking env s req = (.error fieldsRequired, s) ∧
      fieldsRequired.status = 400) ∧
    (∀ e, (bookingService.createBooking env s { req with vehicleNumber := none }).1 = .error e ↔
      (bookingService.createBooking env s req).1 = .error e) ∧
    ((req.vehicleNumber = none ∨ req.vehicleNumber = some "") →
      ∀ r, (bookingService.createBooking env s req).1 = .ok r →
        r.vehicleNumber = none ∧
        ∃ row, (bookingService.createBooking env s req).2.bookings = s.bookings ++ [row] ∧
          row.vehicle_number = none) := by
  refine ⟨?_, ?_, ?_⟩
  · intro hmiss
    refine ⟨?_, rfl⟩
    apply createBooking_first_failure
    have hf : (truthy req.parkingId && truthy req.userId && truthy req.date &&
        truthy req.startTime && truthy req.endTime) = false := by
      rcases hmiss with h | h | h | h | h | h | h | h | h | h <;> simp [h, truthy]
    unfold admissionChecks
    simp only [firstFailure_cons, hf, Bool.false_eq_true, if_false]
    rfl
  · intro e
    constructor
    · intro h
      have := createBooking_error_vehicle env s { req with vehicleNumber := none }
        req.vehicleNumber e h
      exact this
    · intro h
      exact createBooking_error_vehicle env s req none e h
  · intro hv r hr
    rcases createBooking_cases env s req with ⟨e, he⟩ | ⟨lot, r1, s1, _, _, _, htx, he⟩
    · rw [he] at hr
      cases hr
    · obtain ⟨d, st, et, u, _, _, _, _, _, _, _, _, hs1⟩ := createTransaction_ok htx
      obtain ⟨_, _, _, _, _, _, _, _, hr1⟩ := createTransaction_ok_result htx
      rw [he] at hr
      simp only [Except.ok.injEq] at hr
      subst hr
      have hnone : (if truthy req.vehicleNumber = true then req.vehicleNumber else none)
          = none := by
        rcases hv with h | h <;> simp [h, truthy]
      rw [he, hs1, hr1]
      exact ⟨hnone, _, rfl, hnone⟩

/-- Witness of C24 on the sample store: the request without a date is refused, the
request without a vehicle number is admitted and stored with `vehicle_number` null. -/
theorem required_fields_witness :
    bookingService.createBooking envOk storeAB requestNoDate =
      (.error fieldsRequired, storeAB) ∧
    (∃ r, (bookingService.createBooking envOk storeAB requestNoVehicle).1 = .ok r) ∧
    ((bookingService.createBooking envOk storeAB requestNoVehicle).2.bookings.map
      (fun b => b.vehicle_number)) = [none, none] :=
  ⟨((required_fields envOk storeAB requestNoDate).1
      (Or.inr (Or.inr (Or.inr (Or.inr (Or.inl rfl)))))).1,
    ⟨_, rfl⟩, by decide⟩


/-! ## Lemmas: the join of bookings with lots -/

theorem join_single {lots : List Lot} (hkey : LotKey lots) {x : String}
    (h : ∃ l ∈ lots, l.id = x) (b : Booking) :
    (lots.filter (fun p => decide (p.id = x))).map (fun _ => b) = [b] := by
  induction lots with
  | nil => obtain ⟨l, hl, _⟩ := h; cases hl
  | cons a as ih =>
    unfold LotKey at hkey
    rw [List.map_cons, List.nodup_cons] at hkey
    by_cases ha : a.id = x
    · have hnone : as.filter (fun p => decide (p.id = x)) = [] := by
        rw [List.filter_eq_nil_iff]
        intro l hl hw
        simp only [decide_eq_true_eq] at hw
        exact hkey.1 (List.mem_map.mpr ⟨l, hl, by rw [hw, ha]⟩)
      simp [List.filter_cons, ha, hnone]
    · obtain ⟨l, hl, hid⟩ := h
      have hl2 : l ∈ as := by
        rcases List.mem_cons.mp hl with h1 | h1
        · exact absurd (h1 ▸ hid) ha
        · exact h1
      simp only [List.filter_cons, ha, decide_False, Bool.false_eq_true, if_false]
      exact ih hkey.2 ⟨l, hl2, hid⟩

theorem join_all {lots : List Lot} (hkey : LotKey lots) (bookings : List Booking)
    (h : ∀ b ∈ bookings, ∃ l ∈ lots, l.id = b.parking_id) :
    bookings.flatMap (fun b =>
      (lots.filter (fun p => decide (p.id = b.parking_id))).map (fun _ => b)) = bookings := by
  induction bookings with
  | nil => rfl
  | cons b bs ih =>
    rw [List.flatMap_cons, join_single hkey (h b (List.mem_cons_self b bs)) b,
      ih (fun c hc => h c (List.mem_cons_of_mem b hc))]
    rfl

/-- C25: a call of `getUserBookings` with a user id, on a store whose `parking_lots` are
keyed by `id` and whose bookings all refer to a lot, returns the views of exactly the
booking rows whose `user_id` is that id (a rearrangement of them: each once, none of
another user), ordered by `created_at` from newest to oldest, and leaves the store as it
was. -/
theorem user_bookings (s : Store) (userId : Option String)
    (hu : truthy userId = true) (hkey : LotKey s.lots) (hfk : LotsPresent s) :
    ∃ rows : List Booking,
      bookingService.getUserBookings s userId = (.ok (rows.map bookingView), s) ∧
      rows.Perm (s.bookings.filter (fun b => decide (b.user_id = userId.getD ""))) ∧
      rows.Sorted newerFirst := by
  refine ⟨bookingModel.findByUserId s (userId.getD ""), ?_, ?_, ?_⟩
  · unfold bookingService.getUserBookings
    simp [hu]
  · unfold bookingModel.findByUserId
    rw [join_all hkey s.bookings hfk]
    exact List.perm_insertionSort _ _
  · unfold bookingModel.findByUserId
    exact List.sorted_insertionSort _ _

theorem user_bookings_witness :
    truthy (some "user-1") = true ∧ LotKey storeUsers.lots ∧ LotsPresent storeUsers ∧
    bookingService.getUserBookings storeUsers (some "user-1") =
      (.ok [bookingView bookingU2, bookingView bookingB1], storeUsers) ∧
    ∃ rows : List Booking,
      bookingService.getUserBookings storeUsers (some "user-1") =
        (.ok (rows.map bookingView), storeUsers) ∧
      rows.Perm (storeUsers.bookings.filter
        (fun b => decide (b.user_id = (some "user-1").getD ""))) ∧
      rows.Sorted newerFirst :=
  ⟨by decide, by decide, by decide, by decide,
    user_bookings storeUsers (some "user-1") (by decide) (by decide) (by decide)⟩


/-! ## Lemmas: the polyline decoder -/

theorem chunk_or {c shift result : Nat} (hc : c < 32) (hr : result < 2 ^ shift)
    (hlt : c * 2 ^ shift < 4294967296) :
    result ||| ((c <<< (shift % 32)) % 4294967296) = result + c * 2 ^ shift := by
  rcases Nat.eq_zero_or_pos c with h0 | h0
  · subst h0
    simp
  · have hs : shift < 32 := by
      by_contra hge
      have h1 : (2 : Nat) ^ 32 ≤ 2 ^ shift := Nat.pow_le_pow_right (by norm_num) (by omega)
      have h2 : 2 ^ shift ≤ c * 2 ^ shift := Nat.le_mul_of_pos_left _ h0
      have h3 : (2 : Nat) ^ 32 = 4294967296 := by norm_num
      omega
    rw [Nat.mod_eq_of_lt hs, Nat.shiftLeft_eq, Nat.mod_eq_of_lt hlt, Nat.lor_comm,
      Nat.mul_comm c, ← Nat.mul_add_lt_is_or hr c, Nat.add_comm]

theorem chunk_of_unit (c : Nat) : ((((c + 63 : Nat) : Int) - 63) % 32).toNat = c % 32 := by
  omega

theorem encodeChunks_read (fuel : Nat) :
    ∀ (n shift result : Nat) (rest : List Nat), n < fuel → result < 2 ^ shift →
      n * 2 ^ shift < 4294967296 →
      readChunks (encodeChunks fuel n ++ rest) shift result = (result + n * 2 ^ shift, rest) := by
  induction fuel with
  | zero => intro n _ _ _ h; omega
  | succ fuel ih =>
    intro n shift result rest hn hr hlt
    unfold encodeChunks
    by_cases h32 : n < 32
    · rw [if_pos h32]
      show readChunks ((n + 63) :: rest) shift result = _
      simp only [readChunks]
      have hb : ¬ (((n + 63 : Nat) : Int) - 63 ≥ 32) := by omega
      rw [if_neg hb, chunk_of_unit, Nat.mod_eq_of_lt h32, chunk_or h32 hr hlt]
    · rw [if_neg h32]
      show readChunks ((n % 32 + 32 + 63) :: (encodeChunks fuel (n / 32) ++ rest)) shift result
        = _
      simp only [readChunks]
      have hb : (((n % 32 + 32 + 63 : Nat) : Int) - 63 ≥ 32) := by omega
      have hc : (((((n % 32 + 32 + 63 : Nat) : Int) - 63) % 32).toNat) = n % 32 := by omega
      have hmod : n % 32 < 32 := Nat.mod_lt _ (by norm_num)
      have hsplit : n = 32 * (n / 32) + n % 32 := (Nat.div_add_mod n 32).symm
      have hP : 0 < 2 ^ shift := Nat.two_pow_pos shift
      have hlow : n % 32 * 2 ^ shift ≤ n * 2 ^ shift :=
        Nat.mul_le_mul_right _ (Nat.mod_le n 32)
      have hhigh : n / 32 * 2 ^ (shift + 5) ≤ n * 2 ^ shift := by
        rw [pow_add]
        calc n / 32 * (2 ^ shift * 2 ^ 5) = (32 * (n / 32)) * 2 ^ shift := by ring
          _ ≤ n * 2 ^ shift := Nat.mul_le_mul_right _ (by omega)
      rw [if_pos hb, hc, chunk_or hmod hr (by omega)]
      rw [ih (n / 32) (shift + 5) _ rest (by omega) ?_ (by omega)]
      · congr 1
        rw [pow_add]
        have : result + n % 32 * 2 ^ shift + n / 32 * (2 ^ shift * 2 ^ 5)
            = result + (32 * (n / 32) + n % 32) * 2 ^ shift := by ring
        rw [this, ← hsplit]
      · rw [pow_add]
        have h31 : n % 32 * 2 ^ shift ≤ 31 * 2 ^ shift := Nat.mul_le_mul_right _ (by omega)
        have : (2 : Nat) ^ 5 = 32 := by norm_num
        rw [this]
        omega

theorem zigzag_lt {d : Int} (h1 : -1073741824 ≤ d) (h2 : d < 1073741824) :
    zigzag d < 2147483648 := by
  unfold zigzag
  split <;> omega

theorem unzigzag_zigzag {d : Int} (h1 : -1073741824 ≤ d) (h2 : d < 1073741824) :
    unzigzag (toInt32 (zigzag d)) = d := by
  have hz := zigzag_lt h1 h2
  unfold toInt32
  rw [Nat.mod_eq_of_lt (by omega), if_pos hz]
  unfold unzigzag zigzag
  split <;> split <;> omega

theorem readChunks_encodeValue {d : Int} (h1 : -1073741824 ≤ d) (h2 : d < 1073741824)
    (rest : List Nat) :
    readChunks (encodeValue d ++ rest) 0 0 = (zigzag d, rest) := by
  have hz := zigzag_lt h1 h2
  unfold encodeValue
  rw [encodeChunks_read (zigzag d + 1) (zigzag d) 0 0 rest (by omega) (by norm_num)
    (by simp; omega)]
  simp

theorem encodeChunks_units (fuel : Nat) :
    ∀ n : Nat, n < fuel →
      (∃ u us, encodeChunks fuel n = u :: us) ∧ ∀ u ∈ encodeChunks fuel n, u < 128 := by
  induction fuel with
  | zero => intro n h; omega
  | succ fuel ih =>
    intro n hn
    unfold encodeChunks
    by_cases h32 : n < 32
    · rw [if_pos h32]
      refine ⟨⟨_, _, rfl⟩, ?_⟩
      intro u hu
      rw [List.mem_singleton] at hu
      omega
    · rw [if_neg h32]
      refine ⟨⟨_, _, rfl⟩, ?_⟩
      intro u hu
      rcases List.mem_cons.mp hu with h | h
      · omega
      · exact (ih (n / 32) (by omega)).2 u h

theorem encodeFrom_units (points : List (Int × Int)) :
    ∀ plat plng : Int, ∀ u ∈ encodeFrom plat plng points, u < 128 := by
  induction points with
  | nil => intro _ _ u hu; cases hu
  | cons p rest ih =>
    intro plat plng u hu
    simp only [encodeFrom, List.mem_append] at hu
    rcases hu with h | h | h
    · exact (encodeChunks_units _ _ (Nat.lt_succ_self _)).2 u h
    · exact (encodeChunks_units _ _ (Nat.lt_succ_self _)).2 u h
    · exact ih _ _ u h

theorem readChunks_length (units : List Nat) :
    ∀ shift result : Nat, (readChunks units shift result).2.length ≤ units.length - 1 := by
  induction units with
  | nil => intro _ _; simp [readChunks]
  | cons c cs ih =>
    intro shift result
    simp only [readChunks]
    split
    · have := ih (shift + 5)
        (result ||| (((((c : Int) - 63) % 32).toNat <<< (shift % 32)) % 4294967296))
      simp only [List.length_cons, Nat.add_sub_cancel]
      omega
    · simp

theorem decodeLoop_fuel (fuel1 : Nat) :
    ∀ (fuel2 : Nat) (units : List Nat) (lat lng : Int),
      units.length ≤ fuel1 → units.length ≤ fuel2 →
      decodeLoop fuel1 units lat lng = decodeLoop fuel2 units lat lng := by
  induction fuel1 with
  | zero =>
    intro fuel2 units lat lng h1 _
    have hnil : units = [] := List.length_eq_zero.mp (by omega)
    subst hnil
    cases fuel2 <;> simp [decodeLoop]
  | succ fuel1 ih =>
    intro fuel2 units lat lng h1 h2
    by_cases hnil : units = []
    · subst hnil
      cases fuel2 <;> simp [decodeLoop]
    · have hpos : 0 < units.length := List.length_pos.mpr hnil
      cases fuel2 with
      | zero => omega
      | succ fuel2 =>
        simp only [decodeLoop, hnil, if_false]
        have hr1 := readChunks_length units 0 0
        have hr2 := readChunks_length (readChunks units 0 0).2 0 0
        rw [ih fuel2 _ _ _ (by omega) (by omega)]

theorem decodeLoop_encodeFrom (points : List (Int × Int)) :
    ∀ (plat plng : Int) (fuel : Nat),
      -536870912 < plat → plat < 536870912 → -536870912 < plng → plng < 536870912 →
      (∀ p ∈ points, -536870912 < p.1 ∧ p.1 < 536870912 ∧ -536870912 < p.2 ∧ p.2 < 536870912) →
      (encodeFrom plat plng points).length ≤ fuel →
      decodeLoop fuel (encodeFrom plat plng points) plat plng = points := by
  induction points with
  | nil =>
    intro plat plng fuel _ _ _ _ _ _
    cases fuel <;> simp [decodeLoop, encodeFrom]
  | cons p rest ih =>
    intro plat plng fuel h1 h2 h3 h4 hall hfuel
    have hp := hall p (List.mem_cons_self p rest)
    obtain ⟨u1, us1, hu1⟩ := (encodeChunks_units (zigzag (p.1 - plat) + 1) _ (Nat.lt_succ_self _)).1
    obtain ⟨u2, us2, hu2⟩ := (encodeChunks_units (zigzag (p.2 - plng) + 1) _ (Nat.lt_succ_self _)).1
    have hne : encodeFrom plat plng (p :: rest) ≠ [] := by
      simp only [encodeFrom, encodeValue, hu1]
      simp
    have hlen : (encodeFrom p.1 p.2 rest).length + 2 ≤ (encodeFrom plat plng (p :: rest)).length := by
      simp only [encodeFrom, encodeValue, hu1, hu2, List.length_append, List.length_cons]
      omega
    cases fuel with
    | zero =>
      have : 0 < (encodeFrom plat plng (p :: rest)).length := List.length_pos.mpr hne
      omega
    | succ fuel =>
      simp only [decodeLoop, hne, if_false]
      simp only [encodeFrom]
      rw [readChunks_encodeValue (by omega) (by omega)]
      simp only []
      rw [readChunks_encodeValue (by omega) (by omega)]
      simp only []
      rw [unzigzag_zigzag (by omega) (by omega), unzigzag_zigzag (by omega) (by omega)]
      have e1 : plat + (p.1 - plat) = p.1 := by ring
      have e2 : plng + (p.2 - plng) = p.2 := by ring
      rw [e1, e2, ih p.1 p.2 fuel hp.1 hp.2.1 hp.2.2.1 hp.2.2.2
        (fun q hq => hall q (List.mem_cons_of_mem p hq)) (by omega)]

theorem utf16_ofNat : ∀ n : Nat, n < 128 → utf16 (Char.ofNat n) = [n] := by
  decide

theorem units_of_chars (l : List Nat) (h : ∀ u ∈ l, u < 128) :
    (l.map Char.ofNat).flatMap utf16 = l := by
  induction l with
  | nil => rfl
  | cons a as ih =>
    rw [List.map_cons, List.flatMap_cons, utf16_ofNat a (h a (List.mem_cons_self a as)),
      ih (fun u hu => h u (List.mem_cons_of_mem a hu))]
    rfl

/-- C27 (polyline decoding).  For every list of points of the globe, `decodePolyline`
applied to the standard encoding of the list returns the same points in the same order;
the text `_p~iF~ps|U_ulLnnqC_mqNvxq` followed by a grave accent and `@` decodes to
(38.5, -120.2), (40.7, -120.95), (43.252, -126.453) and is the standard encoding of these
points; the empty text decodes to the empty list; and the loop of the decoder ends
within as many rounds as the text has code units (more rounds change nothing). -/
theorem decodePolyline_roundtrip :
    (∀ points : List (Int × Int), (∀ p ∈ points, OnGlobe p) →
      decodePolyline (encodePolyline points) = points) ∧
    decodePolyline "_p~iF~ps|U_ulLnnqC_mqNvxq`@" = samplePoints ∧
    encodePolyline samplePoints = "_p~iF~ps|U_ulLnnqC_mqNvxq`@" ∧
    decodePolyline "" = [] ∧
    (∀ (encoded : String) (fuel : Nat), (encoded.data.flatMap utf16).length ≤ fuel →
      decodeLoop fuel (encoded.data.flatMap utf16) 0 0 = decodePolyline encoded) := by
  refine ⟨?_, by decide, by decide, by decide, ?_⟩
  · intro points hall
    unfold decodePolyline encodePolyline
    simp only []
    rw [units_of_chars _ (encodeFrom_units points 0 0)]
    apply decodeLoop_encodeFrom points 0 0 _ (by norm_num) (by norm_num) (by norm_num)
      (by norm_num) _ (le_refl _)
    intro p hp
    have := hall p hp
    unfold OnGlobe at this
    omega
  · intro encoded fuel h
    exact decodeLoop_fuel fuel _ _ 0 0 h (le_refl _)

theorem decodePolyline_roundtrip_witness :
    (∀ p ∈ samplePoints, OnGlobe p) ∧
    decodePolyline (encodePolyline samplePoints) = samplePoints :=
  ⟨by decide, decodePolyline_roundtrip.1 samplePoints (by decide)⟩

/-! ## Lemmas: the bookkeeping of slots along a sequence of calls -/

theorem decrementSlot_ids (lots : List Lot) (id : String) :
    (parkingModel.decrementSlot lots id).2.map (fun l => l.id) = lots.map (fun l => l.id) := by
  simp only [parkingModel.decrementSlot, List.map_map]
  apply List.map_congr_left
  intro l _
  by_cases hw : decrementWhere id l = true
  · simp [hw, decrementSet]
  · simp [hw]

theorem incrementSlot_ids (lots : List Lot) (id : String) :
    (parkingModel.incrementSlot lots id).2.map (fun l => l.id) = lots.map (fun l => l.id) := by
  simp only [parkingModel.incrementSlot, List.map_map]
  apply List.map_congr_left
  intro l _
  by_cases hw : incrementWhere id l = true
  · simp [hw, incrementSet]
  · simp [hw]

theorem confirmedAt_append (bookings : List Booking) (row : Booking) (x : String) :
    confirmedAt (bookings ++ [row]) x =
      confirmedAt bookings x + (if confirmedWhere x row then 1 else 0) := by
  unfold confirmedAt
  rw [List.filter_append, List.length_append]
  by_cases hrow : confirmedWhere x row = true
  · simp [List.filter_cons, hrow]
  · simp [List.filter_cons, hrow]

theorem confirmedAt_cancel_le (now : Int) (bookings : List Booking) (bookingId x : String) :
    confirmedAt (bookingModel.cancelBooking now bookings bookingId).2 x ≤
      confirmedAt bookings x := by
  unfold confirmedAt bookingModel.cancelBooking
  rw [← List.countP_eq_length_filter, ← List.countP_eq_length_filter, List.countP_map]
  apply List.countP_mono_left
  intro b _ hb
  by_cases hw : cancelWhere bookingId b = true
  · simp [hw, cancelSet, confirmedWhere] at hb
  · simpa [hw] using hb

theorem countP_lt_of_mem {α : Type} (p q : α → Bool) (l : List α)
    (hpq : ∀ a ∈ l, q a = true → p a = true) {a : α} (ha : a ∈ l)
    (hp : p a = true) (hq : q a = false) : l.countP q < l.countP p := by
  induction l with
  | nil => cases ha
  | cons b bs ih =>
    rw [List.countP_cons, List.countP_cons]
    have hle : bs.countP q ≤ bs.countP p :=
      List.countP_mono_left (fun c hc h => hpq c (List.mem_cons_of_mem b hc) h)
    rcases List.mem_cons.mp ha with h1 | h1
    · subst h1
      simp only [hp, hq, if_true, Bool.false_eq_true, if_false]
      omega
    · have hlt := ih (fun c hc h => hpq c (List.mem_cons_of_mem b hc) h) h1
      by_cases hqb : q b = true
      · simp only [hqb, hpq b (List.mem_cons_self b bs) hqb, if_true]
        omega
      · simp only [hqb, Bool.false_eq_true, if_false]
        split <;> omega

theorem confirmedAt_cancel_lt (now : Int) (bookings : List Booking) (bookingId : String)
    {B : Booking} (hmem : B ∈ bookings) (hid : B.id = bookingId)
    (hconf : B.status = "confirmed") :
    confirmedAt (bookingModel.cancelBooking now bookings bookingId).2 B.parking_id <
      confirmedAt bookings B.parking_id := by
  unfold confirmedAt bookingModel.cancelBooking
  rw [← List.countP_eq_length_filter, ← List.countP_eq_length_filter, List.countP_map]
  apply countP_lt_of_mem _ _ bookings _ hmem
  · simp [confirmedWhere, hconf]
  · simp [cancelWhere, hid, hconf, cancelSet, confirmedWhere]
  · intro b _ hb
    by_cases hw : cancelWhere bookingId b = true
    · simp [hw, cancelSet, confirmedWhere] at hb
    · simpa [hw] using hb

theorem overlapping_le_confirmedAt (bookings : List Booking) (x : String) (date : Int)
    (st et : Nat) :
    bookingModel.findOverlapping bookings x date st et ≤ confirmedAt bookings x := by
  unfold bookingModel.findOverlapping confirmedAt
  rw [← List.countP_eq_length_filter, ← List.countP_eq_length_filter]
  apply List.countP_mono_left
  intro b _ hb
  simp only [overlapWhere, Bool.and_eq_true, decide_eq_true_eq] at hb
  simp only [confirmedWhere, Bool.and_eq_true, decide_eq_true_eq]
  exact ⟨hb.1.1.1, hb.1.2⟩

theorem confirmedAt_pos {bookings : List Booking} {B : Booking} (hmem : B ∈ bookings)
    (hconf : B.status = "confirmed") : 0 < confirmedAt bookings B.parking_id := by
  unfold confirmedAt
  apply List.length_pos_of_mem (a := B)
  rw [List.mem_filter]
  exact ⟨hmem, by simp [confirmedWhere, hconf]⟩

theorem bookkept_initial {s : Store} (hempty : s.bookings = []) (hcap : CapacityInv s.lots)
    (hkey : LotKey s.lots) : Bookkept s := by
  refine ⟨hkey, ?_, ?_⟩
  · intro b hb
    rw [hempty] at hb
    cases hb
  · intro l hl
    have h := hcap l hl
    rw [hempty]
    simp only [confirmedAt, List.filter_nil, List.length_nil, Nat.cast_zero, add_zero]
    exact h

theorem bookkept_create (env : Env) (s : Store) (req : BookingRequest) (h : Bookkept s) :
    Bookkept (bookingService.createBooking env s req).2 := by
  rcases createBooking_cases env s req with ⟨e, he⟩ | ⟨lot, r, s1, _, hlot, hav, htx, he⟩
  · rw [he]
    exact h
  · rw [he]
    obtain ⟨d, st, et, updated, _, _, _, _, _, _, _, _, hs1⟩ := createTransaction_ok htx
    obtain ⟨hkey, hrows, hlots⟩ := h
    obtain ⟨hlmem, hlid⟩ := findById_mem hlot
    rw [hs1]
    refine ⟨?_, ?_, ?_⟩
    · unfold LotKey
      simp only []
      rw [decrementSlot_ids]
      exact hkey
    · intro b hb
      simp only [] at hb ⊢
      rw [decrementSlot_ids]
      rcases List.mem_append.mp hb with hb1 | hb1
      · exact hrows b hb1
      · rw [List.mem_singleton] at hb1
        subst hb1
        exact ⟨Or.inl rfl, List.mem_map.mpr ⟨lot, hlmem, hlid⟩⟩
    · intro l1 hl1
      simp only [parkingModel.decrementSlot, List.mem_map] at hl1
      obtain ⟨l, hl, rfl⟩ := hl1
      have h0 := hlots l hl
      simp only []
      by_cases hid : l.id = req.parkingId.getD ""
      · have hll : l = lot := lot_unique hkey hl hlmem (by rw [hid, hlid])
        subst hll
        have hw : decrementWhere (req.parkingId.getD "") l = true := by
          simp only [decrementWhere, Bool.and_eq_true, decide_eq_true_eq]
          exact ⟨hid, hav⟩
        rw [if_pos hw, confirmedAt_append]
        have hrow : confirmedWhere (decrementSet l).id
            { id := env.uuid, parking_id := req.parkingId.getD "", user_id := req.userId.getD "",
              vehicle_number := if truthy req.vehicleNumber then req.vehicleNumber else none,
              date := d, start_time := st, end_time := et,
              duration_hours := durationHours (req.startTime.getD "") (req.endTime.getD ""),
              total_cost := totalCost (pricePerHour l)
                (durationHours (req.startTime.getD "") (req.endTime.getD "")),
              status := "confirmed", created_at := env.now, cancelled_at := none } = true := by
          simp [confirmedWhere, decrementSet, hid]
        rw [if_pos hrow]
        simp only [decrementSet] at *
        push_cast
        omega
      · have hw : ¬ decrementWhere (req.parkingId.getD "") l = true := by
          simp [decrementWhere, hid]
        rw [if_neg hw, confirmedAt_append]
        have hrow : ¬ confirmedWhere l.id
            { id := env.uuid, parking_id := req.parkingId.getD "", user_id := req.userId.getD "",
              vehicle_number := if truthy req.vehicleNumber then req.vehicleNumber else none,
              date := d, start_time := st, end_time := et,
              duration_hours := durationHours (req.startTime.getD "") (req.endTime.getD ""),
              total_cost := totalCost (pricePerHour lot)
                (durationHours (req.startTime.getD "") (req.endTime.getD "")),
              status := "confirmed", created_at := env.now, cancelled_at := none } = true := by
          simp only [confirmedWhere, Bool.and_eq_true, decide_eq_true_eq, not_and]
          intro h1
          exact absurd h1.symm hid
        rw [if_neg hrow]
        simpa using h0

theorem bookkept_cancel (env : Env) (s : Store) (bookingId userId : Option String)
    (h : Bookkept s) : Bookkept (bookingService.cancelBooking env s bookingId userId).2 := by
  rcases cancelBooking_cases env s bookingId userId with
    ⟨e, he⟩ | ⟨B, r, s1, hB, hnc, _, htx, he⟩
  · rw [he]
    exact h
  · rw [he]
    obtain ⟨c, _, hs1⟩ := cancelTransaction_ok htx
    obtain ⟨hkey, hrows, hlots⟩ := h
    obtain ⟨hBmem, hBid⟩ := booking_findById_mem hB
    have hconf : B.status = "confirmed" := by
      rcases (hrows B hBmem).1 with h1 | h1
      · exact h1
      · exact absurd h1 hnc
    have hids : (if !isPast env B then parkingModel.incrementSlot s.lots B.parking_id
        else (none, s.lots)).2.map (fun l => l.id) = s.lots.map (fun l => l.id) := by
      by_cases hp : isPast env B = true
      · simp [hp]
      · simp only [Bool.not_eq_true] at hp
        simp only [hp, Bool.not_false, if_true]
        exact incrementSlot_ids _ _
    rw [hs1]
    refine ⟨?_, ?_, ?_⟩
    · unfold LotKey
      simp only []
      rw [hids]
      exact hkey
    · intro b hb
      simp only [] at hb ⊢
      rw [hids]
      simp only [bookingModel.cancelBooking, List.mem_map] at hb
      obtain ⟨b0, hb0, rfl⟩ := hb
      have h0 := hrows b0 hb0
      by_cases hw : cancelWhere (bookingId.getD "") b0 = true
      · rw [if_pos hw]
        exact ⟨Or.inr rfl, h0.2⟩
      · rw [if_neg hw]
        exact h0
    · intro l1 hl1
      simp only [] at hl1 ⊢
      have hle := fun x => confirmedAt_cancel_le env.now s.bookings (bookingId.getD "") x
      have hlt := confirmedAt_cancel_lt env.now s.bookings (bookingId.getD "") hBmem hBid hconf
      by_cases hp : isPast env B = true
      · simp only [hp, Bool.not_true, Bool.false_eq_true, if_false] at hl1
        have h0 := hlots l1 hl1
        have h1 := hle l1.id
        omega
      · simp only [Bool.not_eq_true] at hp
        simp only [hp, Bool.not_false, if_true, parkingModel.incrementSlot, List.mem_map] at hl1
        obtain ⟨l, hl, rfl⟩ := hl1
        have h0 := hlots l hl
        by_cases hw : incrementWhere B.parking_id l = true
        · rw [if_pos hw]
          simp only [incrementWhere, Bool.and_eq_true, decide_eq_true_eq] at hw
          simp only [incrementSet]
          rw [hw.1]
          rw [hw.1] at h0
          omega
        · rw [if_neg hw]
          have h1 := hle l.id
          omega

theorem bookkept_storeAfter (env : Env) (s : Store) (call : ServiceCall) (h : Bookkept s) :
    Bookkept (storeAfter env s call) := by
  cases call with
  | createBooking req => exact bookkept_create env s req h
  | cancelBooking bookingId userId => exact bookkept_cancel env s bookingId userId h
  | getBookingById bookingId =>
    simp only [storeAfter, bookingService.getBookingById]
    split
    · exact h
    · split <;> exact h
  | getUserBookings userId =>
    simp only [storeAfter, bookingService.getUserBookings]
    split <;> exact h

theorem bookkept_storeAfterAll (calls : List (Env × ServiceCall)) :
    ∀ s : Store, Bookkept s → Bookkept (storeAfterAll s calls) := by
  induction calls with
  | nil => intro s h; exact h
  | cons c cs ih =>
    intro s h
    exact ih _ (bookkept_storeAfter c.1 s c.2 h)


theorem createTransaction_error_window {env : Env} {s : Store} {lot : Lot}
    {parkingId userId : String} {vehicleNumber : Option String}
    {date startTime endTime : String} {duration cost : JsNum} {e : Thrown}
    (hcount : ∀ (d : Int) (st et : Nat),
      (bookingModel.findOverlapping s.bookings parkingId d st et : Int) < lot.total_slots)
    (h : createTransaction env s lot parkingId userId vehicleNumber date startTime endTime
      duration cost = .error e) :
    isWindowFull e = false := by
  unfold createTransaction at h
  split at h
  · rename_i d st et _ _ _
    simp only at h
    split at h
    · rename_i hge
      have := hcount d st et
      omega
    · split at h
      · cases h
        rfl
      · split at h
        · cases h
          rfl
        · cases h
  · cases h
    rfl

/-- C28 (slot bookkeeping).  From a store with no bookings whose lots are keyed by `id`
and satisfy `0 <= available_slots <= total_slots`, after any sequence of calls of the
service (admissions, cancellations, reads, each in any environment) every lot satisfies
`available_slots + (confirmed bookings at the lot, over all dates) <= total_slots`, and
so the confirmed bookings at the lot are at most `total_slots` many. -/
theorem slot_bookkeeping (s0 : Store) (calls : List (Env × ServiceCall))
    (hempty : s0.bookings = []) (hcap : CapacityInv s0.lots) (hkey : LotKey s0.lots) :
    ∀ l ∈ (storeAfterAll s0 calls).lots,
      l.available_slots + (confirmedAt (storeAfterAll s0 calls).bookings l.id : Int)
        ≤ l.total_slots ∧
      (confirmedAt (storeAfterAll s0 calls).bookings l.id : Int) ≤ l.total_slots := by
  intro l hl
  obtain ⟨_, _, hlots⟩ := bookkept_storeAfterAll calls s0 (bookkept_initial hempty hcap hkey)
  have h := hlots l hl
  exact ⟨h.2, by omega⟩

theorem slot_bookkeeping_witness :
    storeFresh.bookings = [] ∧ CapacityInv storeFresh.lots ∧ LotKey storeFresh.lots ∧
    (storeAfterAll storeFresh sampleCalls).lots = [lotA, { lotB with available_slots := 1 }] ∧
    confirmedAt (storeAfterAll storeFresh sampleCalls).bookings "lot-A" = 0 ∧
    confirmedAt (storeAfterAll storeFresh sampleCalls).bookings "lot-B" = 1 ∧
    ∀ l ∈ (storeAfterAll storeFresh sampleCalls).lots,
      l.available_slots + (confirmedAt (storeAfterAll storeFresh sampleCalls).bookings l.id : Int)
        ≤ l.total_slots ∧
      (confirmedAt (storeAfterAll storeFresh sampleCalls).bookings l.id : Int) ≤ l.total_slots :=
  ⟨by decide, by decide, by decide, by decide, by decide, by decide,
    slot_bookkeeping storeFresh sampleCalls (by decide) (by decide) (by decide)⟩

/-- C29 (the release does not fail).  From a store with no bookings whose lots are keyed
by `id` and satisfy `0 <= available_slots <= total_slots`, after any sequence of calls:
when `cancelBooking` succeeds on the booking `B` and the start of `B`, as `cancelBooking`
computes it, is not before the current instant, then `B` was confirmed, its lot has
`available_slots < total_slots`, the `incrementSlot` inside the call returns a row, and
the returned `availableSlots` is that row's count, not `null`. -/
theorem release_never_fails (s0 : Store) (calls : List (Env × ServiceCall)) (env : Env)
    (bookingId userId : Option String) (B : Booking) (r : CancelledBooking)
    (hempty : s0.bookings = []) (hcap : CapacityInv s0.lots) (hkey : LotKey s0.lots)
    (hB : bookingModel.findById (storeAfterAll s0 calls) (bookingId.getD "") = some B)
    (hfuture : isPast env B = false)
    (hok : (bookingService.cancelBooking env (storeAfterAll s0 calls) bookingId userId).1
      = .ok r) :
    B.status = "confirmed" ∧
    ∃ L, parkingModel.findById (storeAfterAll s0 calls).lots B.parking_id = some L ∧
      L.available_slots < L.total_slots ∧
      (parkingModel.incrementSlot (storeAfterAll s0 calls).lots B.parking_id).1
        = some (incrementSet L) ∧
      r.availableSlots = some (L.available_slots + 1) ∧
      r.availableSlots ≠ none := by
  obtain ⟨hkey1, hrows, hlots⟩ :=
    bookkept_storeAfterAll calls s0 (bookkept_initial hempty hcap hkey)
  rcases cancelBooking_cases env (storeAfterAll s0 calls) bookingId userId with
    ⟨e, he⟩ | ⟨b, r1, s1, hb, hnc, _, htx, he⟩
  · rw [he] at hok
    cases hok
  · rw [hB] at hb
    simp only [Option.some.injEq] at hb
    subst hb
    rw [he] at hok
    simp only [Except.ok.injEq] at hok
    subst hok
    obtain ⟨hBmem, _⟩ := booking_findById_mem hB
    have hconf : B.status = "confirmed" := by
      rcases (hrows B hBmem).1 with h1 | h1
      · exact h1
      · exact absurd h1 hnc
    obtain ⟨L0, hL0, hL0id⟩ := List.mem_map.mp (hrows B hBmem).2
    cases hL : parkingModel.findById (storeAfterAll s0 calls).lots B.parking_id with
    | none =>
      unfold parkingModel.findById at hL
      rw [List.find?_eq_none] at hL
      exact absurd (by simpa using hL0id) (hL L0 hL0)
    | some L =>
      obtain ⟨hLmem, hLid⟩ := findById_mem hL
      have hpos := confirmedAt_pos hBmem hconf
      have h0 := hlots L hLmem
      rw [hLid] at h0
      have hlt : L.available_slots < L.total_slots := by omega
      have hinc := (incrementSlot_first hL hlt).1
      have hres := (cancelTransaction_ok_result htx).2.1
      simp only [hfuture, Bool.not_false, if_true, hinc, Option.map_some'] at hres
      refine ⟨hconf, L, rfl, hlt, hinc, ?_, ?_⟩
      · rw [hres]
        rfl
      · rw [hres]
        simp

theorem release_never_fails_witness :
    bookingModel.findById (storeAfterAll storeFresh firstCall) ((some "bk-2").getD "")
      = some bookingA2 ∧
    isPast envNext bookingA2 = false ∧
    (bookingService.cancelBooking envNext (storeAfterAll storeFresh firstCall)
      (some "bk-2") none).1 = .ok cancelledA2 ∧
    cancelledA2.availableSlots = some 1 ∧
    (bookingA2.status = "confirmed" ∧
    ∃ L, parkingModel.findById (storeAfterAll storeFresh firstCall).lots bookingA2.parking_id
        = some L ∧
      L.available_slots < L.total_slots ∧
      (parkingModel.incrementSlot (storeAfterAll storeFresh firstCall).lots
        bookingA2.parking_id).1 = some (incrementSet L) ∧
      cancelledA2.availableSlots = some (L.available_slots + 1) ∧
      cancelledA2.availableSlots ≠ none) :=
  ⟨by decide, by decide, by decide, by decide,
    release_never_fails storeFresh firstCall envNext (some "bk-2") none bookingA2 cancelledA2
      (by decide) (by decide) (by decide) (by decide) (by decide) (by decide)⟩

/-- C30 (the rejection of a fully booked window is out of reach).  From a store with no
bookings whose lots are keyed by `id` and satisfy `0 <= available_slots <= total_slots`,
after any sequence of calls: for a lot with `available_slots > 0` the count that
`findOverlapping` returns, for any date and window, is below `total_slots`; and no call
of `createBooking` throws the error of the overlap check
("No slots available for this time period ..."). -/
theorem window_rejection_unreachable (s0 : Store) (calls : List (Env × ServiceCall))
    (hempty : s0.bookings = []) (hcap : CapacityInv s0.lots) (hkey : LotKey s0.lots) :
    (∀ l ∈ (storeAfterAll s0 calls).lots, 0 < l.available_slots →
      ∀ (date : Int) (st et : Nat),
        (bookingModel.findOverlapping (storeAfterAll s0 calls).bookings l.id date st et : Int)
          < l.total_slots) ∧
    (∀ (env : Env) (req : BookingRequest) (e : Thrown),
      (bookingService.createBooking env (storeAfterAll s0 calls) req).1 = .error e →
      isWindowFull e = false) := by
  obtain ⟨_, _, hlots⟩ :=
    bookkept_storeAfterAll calls s0 (bookkept_initial hempty hcap hkey)
  have hfirst : ∀ l ∈ (storeAfterAll s0 calls).lots, 0 < l.available_slots →
      ∀ (date : Int) (st et : Nat),
        (bookingModel.findOverlapping (storeAfterAll s0 calls).bookings l.id date st et : Int)
          < l.total_slots := by
    intro l hl hav date st et
    have h0 := hlots l hl
    have h1 := overlapping_le_confirmedAt (storeAfterAll s0 calls).bookings l.id date st et
    omega
  refine ⟨hfirst, ?_⟩
  intro env req e h
  cases hff : firstFailure (admissionChecks env (storeAfterAll s0 calls) req) with
  | some e1 =>
    rw [createBooking_first_failure env _ req e1 hff] at h
    simp only [Except.error.injEq] at h
    subst h
    unfold firstFailure at hff
    simp only [Option.map_eq_some'] at hff
    obtain ⟨c, hc, rfl⟩ := hff
    have hmem := List.mem_of_find?_eq_some hc
    simp only [admissionChecks, List.mem_cons, List.mem_singleton, List.not_mem_nil,
      or_false] at hmem
    rcases hmem with h1 | h1 | h1 | h1 | h1 | h1 | h1 <;> (rw [h1]; rfl)
  | none =>
    obtain ⟨hv, lot, hlot, hav⟩ := firstFailure_none env _ req hff
    rw [createBooking_of_checks hv hlot, if_neg (by omega)] at h
    obtain ⟨hlmem, hlid⟩ := findById_mem hlot
    split at h
    · cases h
    · rename_i err herr
      simp only [Except.error.injEq] at h
      rw [← h]
      refine createTransaction_error_window ?_ herr
      intro d st et
      have := hfirst lot hlmem hav d st et
      rw [hlid] at this
      exact this

theorem window_rejection_unreachable_witness :
    storeFresh.bookings = [] ∧ CapacityInv storeFresh.lots ∧ LotKey storeFresh.lots ∧
    (bookingService.createBooking envOk storeFull requestF).1 = .error (.http 409
      "No slots available for this time period. All 1 slots are booked between 09:00 and 11:00.") ∧
    isWindowFull (.http 409
      "No slots available for this time period. All 1 slots are booked between 09:00 and 11:00.")
      = true ∧
    ((∀ l ∈ (storeAfterAll storeFresh sampleCalls).lots, 0 < l.available_slots →
      ∀ (date : Int) (st et : Nat),
        (bookingModel.findOverlapping (storeAfterAll storeFresh sampleCalls).bookings
          l.id date st et : Int) < l.total_slots) ∧
    (∀ (env : Env) (req : BookingRequest) (e : Thrown),
      (bookingService.createBooking env (storeAfterAll storeFresh sampleCalls) req).1 = .error e →
      isWindowFull e = false)) :=
  ⟨by decide, by decide, by decide, by decide, by decide,
    window_rejection_unreachable storeFresh sampleCalls (by decide) (by decide) (by decide)⟩

end ParkSphere
